import Mathlib

/-! Confidential data marketplace: result-wait loops, upload, mode selection,
receipts, query submission, record listing and number formatting.

A shallow embedding of the front-end code that waits for a query result
(`hooks/useDecryption.js`, `utils/fhevm.js`), that validates and submits an
upload (`components/DataUpload.jsx` with its form, `hooks/useContractFHE.js`,
`hooks/useContract.js`), that selects
the backend (`hooks/useContractSwitch.js`, `hooks/useContractMode.js`,
`config.js`), that submits a query and reads transaction receipts
(`hooks/useContract.js`, `components/QueryExecutor.jsx`), that lists a buyer's
queries (`pages/MyQueries.jsx`) and that formats numbers (`utils/format.js`).

Conventions of the embedding.

* Ledger integers are natural numbers (an ABI `uint256` is below `2^256`).
  ethers (v6) hands each of them back as a `bigint`; `Number(x.toString())` is
  the double nearest to `x`, which is `x` itself up to `2^53`.
* The ledger is an external collaborator: a wait loop is given the sequence of
  outcomes of its successive `getQuery` calls, `polls k` being what the
  `k`-th read (counted from `0`) produces.
* A `while` loop is a function with explicit fuel: `none` means the fuel ran
  out before the loop ended, so every statement that the code produces a
  result is a statement that some result is returned for enough fuel.
* A JavaScript number is a double: an integer is held exactly up to `2^53`
  and rounded to the nearest double beyond; `parseInt` and `toString` are
  modelled on that.  Ledger counters (dataset and query ids taken from event
  logs) are far below `2^53` and are kept as they are.
* The libraries (ethers v6, the encryption library) and the browser (the
  constraint validation of a form) are modelled as far as the code depends on
  them.
* Console output and the React progress/status fields are not part of the
  model; they do not influence control flow.
-/

namespace Marketplace

/-! ## Integers as text -/

/-- The character of a digit value: `0`-`9`, then lower-case letters. -/
def digitChar (d : Nat) : Char :=
  if d < 10 then Char.ofNat (48 + d) else Char.ofNat (87 + d)

/-- The digits of `n` in the given radix, most significant first, computed
with fuel. -/
def toDigitsFuel (radix : Nat) : Nat → Nat → List Char
  | 0, _ => []
  | fuel + 1, n =>
    if n < radix then [digitChar n]
    else toDigitsFuel radix fuel (n / radix) ++ [digitChar (n % radix)]

/-- The method `n.toString(radix)` on a non-negative integer: its digits with
no leading zero, `0` for zero. -/
def natToString (radix n : Nat) : List Char :=
  toDigitsFuel radix (n + 1) n

/-! ## JavaScript numbers and values -/

namespace Js

/-- The number of low binary digits that a non-negative integer has beyond the
53 a double keeps: how often it must be halved to come below `2^53`.  The
first argument bounds the number of halvings. -/
def excessBits : Nat → Nat → Nat
  | 0, _ => 0
  | fuel + 1, n => if n < 2 ^ 53 then 0 else excessBits fuel (n / 2) + 1

/-- The double nearest to a non-negative integer, ties going to the even
significand (IEEE 754 round-to-nearest-even), with the exponent left
unbounded: the integer is cut to its 53 leading binary digits and rounded on
the digits cut off. -/
def roundToDouble (n : Nat) : Nat :=
  let e := excessBits n n
  let q := n / 2 ^ e
  let r := n % 2 ^ e
  (if 2 ^ e < 2 * r ∨ (2 * r = 2 ^ e ∧ q % 2 = 1) then q + 1 else q) * 2 ^ e

/-- The conversions `Number(x)` of a `bigint` and `Number(x.toString())`, for an
unsigned ledger integer `x`: the double nearest to `x`.  A `uint256` is below
`2^1024`, so the double is finite; it is an integer and is given as such. -/
def toNumber (x : Nat) : Nat := roundToDouble x

/-- The shortest decimal that reads back as the double `x`, as
`Number::toString` chooses it: among the integers that end in `j` zeros, for
the largest `j` possible (the argument counts `j` down), one whose nearest
double is `x`; of the two such integers next to `x`, the closer one, and on a
tie the one whose digits before the zeros make an even number. -/
def shortestDecimal (x : Nat) : Nat → Nat
  | 0 => x
  | j + 1 =>
    let lo := x / 10 ^ (j + 1) * 10 ^ (j + 1)
    let hi := lo + 10 ^ (j + 1)
    let okLo : Bool := roundToDouble lo = x
    let okHi : Bool := roundToDouble hi = x
    if okLo && okHi then
      if x - lo < hi - x then lo
      else if hi - x < x - lo then hi
      else if (lo / 10 ^ (j + 1)) % 2 = 0 then lo else hi
    else if okLo then lo
    else if okHi then hi
    else shortestDecimal x j

/-- A text of digits without the zeros it ends with. -/
def dropTrailingZeros (cs : List Char) : List Char :=
  (cs.reverse.dropWhile (fun c => c = '0')).reverse

/-- The method `x.toString()` of a number that is a non-negative integer (a
double, given by its value): the digits of its shortest decimal; written out
in full below `10^21`, and from there on as the significant digits, with a
point after the first when there are several, followed by `e+` and the
exponent. -/
def numberToString (x : Nat) : List Char :=
  let y := shortestDecimal x ((natToString 10 x).length - 1)
  let digits := natToString 10 y
  if y < 10 ^ 21 then digits
  else
    match dropTrailingZeros digits with
    | [] => digits
    | [d] => d :: 'e' :: '+' :: natToString 10 (digits.length - 1)
    | d :: ds => d :: '.' :: ds ++ 'e' :: '+' :: natToString 10 (digits.length - 1)

/-- The bound `2^1024`: an integer whose nearest double (the exponent left
unbounded) reaches it is beyond the largest double. -/
def doubleBound : Nat := 2 ^ 256 * 2 ^ 256 * 2 ^ 256 * 2 ^ 256

/-- A JavaScript number that is not `NaN` and has no fraction: a double that is
an integer, given by its value, or one of the two infinities. -/
inductive Number where
  | int (v : Int)
  | infinity (negative : Bool)
  deriving DecidableEq, Repr

/-- The number value of a mathematical integer: the nearest double, with the
sign of the integer, or the infinity of that sign when the nearest double
would reach `2^1024`. -/
def Number.ofInt (x : Int) : Number :=
  let m := roundToDouble x.natAbs
  if m < doubleBound then .int (if x < 0 then -(m : Int) else (m : Int))
  else .infinity (decide (x < 0))

/-- The non-negative integer a number is, `0` for any other number. -/
def Number.toNat : Number → Nat
  | .int v => v.toNat
  | .infinity _ => 0

/-- Whether a number is an integer from `lo` to `hi`. -/
def Number.isIntegerIn (lo hi : Int) : Number → Bool
  | .int v => decide (lo ≤ v ∧ v ≤ hi)
  | .infinity _ => false

/-- A JavaScript value as far as `===` tells values apart here: a `number` or a
`bigint`, each with its (non-negative integer) value. -/
inductive Value where
  | number (v : Nat)
  | bigint (v : Nat)
  deriving DecidableEq, Repr

/-- The comparison `a === b`: values of different types are never strictly
equal; values of the same type are compared by value. -/
def Value.strictEquals : Value → Value → Bool
  | .number a, .number b => a == b
  | .bigint a, .bigint b => a == b
  | _, _ => false

end Js

/-! ## Data model -/

/-- The record returned by `getQuery`, in the order the ledger ABI declares it
(`config.js`, `CONTRACT_ABI`): `id, datasetId, buyer, queryType, parameter,
result, status, price, timestamp`. -/
structure QueryRecord where
  id : Nat
  datasetId : Nat
  buyer : Nat
  queryType : Nat
  parameter : Nat
  result : Nat
  status : Nat
  price : Nat
  timestamp : Nat
  deriving DecidableEq, Repr

/-- The record as the positional tuple ethers hands back. -/
def QueryRecord.toTuple (q : QueryRecord) : List Nat :=
  [q.id, q.datasetId, q.buyer, q.queryType, q.parameter, q.result, q.status, q.price, q.timestamp]

/-- Positional access `queryData[i]`. -/
def QueryRecord.at (q : QueryRecord) (i : Nat) : Nat :=
  q.toTuple.getD i 0

/-- Query status enum (`config.js`, `QUERY_STATUS`). -/
def PENDING : Nat := 0
def PROCESSING : Nat := 1
def COMPLETED : Nat := 2
def FAILED : Nat := 3
def REFUNDED : Nat := 4

/-- What one `getQuery` call produces: a record, or a thrown read error
(identified by a code). -/
inductive PollOutcome where
  | ok (q : QueryRecord)
  | threw (code : Nat)
  deriving DecidableEq, Repr

/-- Errors with which a wait can fail. -/
inductive WaitError where
  /-- 'Contract not initialized' -/
  | contractNotInitialized
  /-- 'Query failed' -/
  | queryFailed
  /-- 'Query refunded' -/
  | queryRefunded
  /-- 'Query timeout. Please try again or request refund.' -/
  | queryTimeout
  /-- 'Decryption timeout (2 minutes)' -/
  | decryptionTimeout
  /-- An error thrown by `getQuery`, passed on unchanged. -/
  | readError (code : Nat)
  deriving DecidableEq, Repr

/-- Equality of `Except` values is decidable when it is for both components. -/
instance instDecidableEqExcept {ε α : Type} [DecidableEq ε] [DecidableEq α] :
    DecidableEq (Except ε α)
  | .ok a, .ok b => if h : a = b then isTrue (by rw [h]) else isFalse (fun h2 => h (by cases h2; rfl))
  | .error a, .error b =>
    if h : a = b then isTrue (by rw [h]) else isFalse (fun h2 => h (by cases h2; rfl))
  | .ok _, .error _ => isFalse (fun h => by cases h)
  | .error _, .ok _ => isFalse (fun h => by cases h)

/-- How a wait ended, with the effects it had on the way: the value returned
(`result` of `{success: true, result}`) or the error thrown, the number of
`getQuery` reads made, the number of sleeps, and the total time slept (ms). -/
structure WaitResult where
  outcome : Except WaitError Nat
  reads : Nat
  waits : Nat
  waitedMs : Nat
  deriving DecidableEq, Repr

/-- Counters of a running wait loop. -/
structure LoopState where
  attempts : Nat
  reads : Nat
  waits : Nat
  waitedMs : Nat
  deriving DecidableEq, Repr

/-- The statement pair `await sleep(interval); attempts++` (in the hook) or
`await sleep(pollInterval)` followed by the loop's `i++` (in `utils/fhevm`),
after a read has been made. -/
def LoopState.afterReadAndWait (s : LoopState) (interval : Nat) : LoopState :=
  { attempts := s.attempts + 1, reads := s.reads + 1, waits := s.waits + 1,
    waitedMs := s.waitedMs + interval }

/-- Leave the loop after a read, with the given outcome. -/
def LoopState.finishAfterRead (s : LoopState) (o : Except WaitError Nat) : WaitResult :=
  { outcome := o, reads := s.reads + 1, waits := s.waits, waitedMs := s.waitedMs }

/-- Leave the loop without a further read. -/
def LoopState.finish (s : LoopState) (o : Except WaitError Nat) : WaitResult :=
  { outcome := o, reads := s.reads, waits := s.waits, waitedMs := s.waitedMs }

/-! ## `hooks/useDecryption.js` -/

namespace UseDecryption

/-- The `while (attempts < maxAttempts) { try { ... } catch (err) { ... } }`
loop of `waitForQueryResult`.

Inside the `try`: read the record, take status from index 6 and result from
index 5, each converted by `Number(x.toString())` (exact on the status, a
`uint8`); status 2 returns; status 3 or 4 throws 'Query failed' / 'Query
refunded'; anything else sleeps and increments `attempts`.  Every throw
inside the `try` (a read error, but also the two errors just mentioned) lands
in the `catch`, which sleeps and increments `attempts` when
`attempts < maxAttempts - 1` and rethrows otherwise.  After the loop the
timeout error is thrown. -/
def waitLoop (polls : Nat → PollOutcome) (maxAttempts interval : Nat) :
    Nat → LoopState → Option WaitResult
  | 0, _ => none
  | fuel + 1, s =>
    if s.attempts < maxAttempts then
      let onCatch (err : WaitError) : Option WaitResult :=
        if s.attempts < maxAttempts - 1 then
          waitLoop polls maxAttempts interval fuel (s.afterReadAndWait interval)
        else
          some (s.finishAfterRead (.error err))
      match polls s.reads with
      | .ok queryData =>
        let queryStatus := queryData.at 6
        let queryResult := Js.toNumber (queryData.at 5)
        if queryStatus = 2 then
          some (s.finishAfterRead (.ok queryResult))
        else if queryStatus = 3 ∨ queryStatus = 4 then
          onCatch (if queryStatus = 3 then .queryFailed else .queryRefunded)
        else
          waitLoop polls maxAttempts interval fuel (s.afterReadAndWait interval)
      | .threw code => onCatch (.readError code)
    else
      some (s.finish (.error .queryTimeout))

/-- The default values of the optional parameters of `waitForQueryResult`:
`maxAttempts = 10, interval = 2000`. -/
def defaultMaxAttempts : Nat := 10
def defaultInterval : Nat := 2000

/-- The hook function `waitForQueryResult(queryId, maxAttempts = 10, interval = 2000)`.
`contract` says whether the hook was given a contract; an argument that is
not supplied is `none` and takes its default.  The outer `try/catch` only
records the error and rethrows it. -/
def waitForQueryResult (fuel : Nat) (contract : Bool) (polls : Nat → PollOutcome)
    (maxAttempts interval : Option Nat) : Option WaitResult :=
  if !contract then
    some { outcome := .error .contractNotInitialized, reads := 0, waits := 0, waitedMs := 0 }
  else
    waitLoop polls (maxAttempts.getD defaultMaxAttempts) (interval.getD defaultInterval) fuel
      { attempts := 0, reads := 0, waits := 0, waitedMs := 0 }

/-- The hook function `requestDecryption(queryId)`, which is
`waitForQueryResult(queryId)`. -/
def requestDecryption (fuel : Nat) (contract : Bool) (polls : Nat → PollOutcome) :
    Option WaitResult :=
  waitForQueryResult fuel contract polls none none

end UseDecryption

/-! ## `utils/fhevm.js`: the wait loop -/

namespace Fhevm

/-- The loop `for (let i = 0; i < maxAttempts; i++) { ... }` of
`requestDecryption`, with the two constants as parameters.  There is no
`try` inside the loop: an error thrown by `contract.getQuery` leaves the loop
and reaches the function's outer `catch`, which rethrows it.  `query.status`
is the value ethers decoded, a `bigint`, and it is compared by `===` with the
number literals `2`, `3` and `4`. -/
def requestLoop (polls : Nat → PollOutcome) (maxAttempts pollInterval : Nat) :
    Nat → LoopState → Option WaitResult
  | 0, _ => none
  | fuel + 1, s =>
    if s.attempts < maxAttempts then
      match polls s.reads with
      | .ok query =>
        let status := Js.Value.bigint query.status
        if status.strictEquals (.number 2) then
          some (s.finishAfterRead (.ok (Js.toNumber query.result)))
        else if status.strictEquals (.number 3) then
          some (s.finishAfterRead (.error .queryFailed))
        else if status.strictEquals (.number 4) then
          some (s.finishAfterRead (.error .queryRefunded))
        else
          requestLoop polls maxAttempts pollInterval fuel (s.afterReadAndWait pollInterval)
      | .threw code => some (s.finishAfterRead (.error (.readError code)))
    else
      some (s.finish (.error .decryptionTimeout))

/-- The wait of `requestDecryption` with its attempt budget and interval as
parameters. -/
def requestDecryptionWith (fuel : Nat) (polls : Nat → PollOutcome)
    (maxAttempts pollInterval : Nat) : Option WaitResult :=
  requestLoop polls maxAttempts pollInterval fuel
    { attempts := 0, reads := 0, waits := 0, waitedMs := 0 }

/-- The constants `const maxAttempts = 60; const pollInterval = 2000;`. -/
def maxAttempts : Nat := 60
def pollInterval : Nat := 2000

/-- The function `requestDecryption(contract, queryId)`. -/
def requestDecryption (fuel : Nat) (polls : Nat → PollOutcome) : Option WaitResult :=
  requestDecryptionWith fuel polls maxAttempts pollInterval

end Fhevm

/-! ## Outcome classes -/

/-- The class of a wait outcome: completed with a value, failed, refunded,
timed out (either timeout error), or another error. -/
inductive OutcomeClass where
  | completed (result : Nat)
  | failed
  | refunded
  | timeout
  | other (e : WaitError)
  deriving DecidableEq, Repr

def outcomeClass : Except WaitError Nat → OutcomeClass
  | .ok r => .completed r
  | .error .queryFailed => .failed
  | .error .queryRefunded => .refunded
  | .error .queryTimeout => .timeout
  | .error .decryptionTimeout => .timeout
  | .error e => .other e

/-- A record whose only interesting fields are status and result. -/
def mkRecord (status result : Nat) : QueryRecord :=
  { id := 1, datasetId := 1, buyer := 0, queryType := 0, parameter := 0,
    result := result, status := status, price := 0, timestamp := 0 }

/-- The poll sequence that produces the listed outcomes in order and a
`PENDING` record ever after. -/
def pollsOf (l : List PollOutcome) : Nat → PollOutcome :=
  fun k => l.getD k (.ok (mkRecord PENDING 0))

/-- A poll that shows a non-terminal status (`PENDING` or `PROCESSING`). -/
def PollOutcome.isNonTerminalStatus : PollOutcome → Bool
  | .ok q => q.status == PENDING || q.status == PROCESSING
  | .threw _ => false

/-- A poll that raised a read error. -/
def PollOutcome.isReadError : PollOutcome → Bool
  | .ok _ => false
  | .threw _ => true

/-- A poll that shows status `COMPLETED`. -/
def PollOutcome.isCompleted : PollOutcome → Bool
  | .ok q => q.status == COMPLETED
  | .threw _ => false

/-! ## Upload: parsing the data text (`DataUpload.handleSubmit`, step 1) -/

namespace DataUpload

/-- The characters `String.prototype.trim` and `parseInt` strip: ECMAScript
WhiteSpace and LineTerminator. -/
def isWhiteSpace (c : Char) : Bool :=
  c.toNat = 0x9 || c.toNat = 0xA || c.toNat = 0xB || c.toNat = 0xC || c.toNat = 0xD ||
  c.toNat = 0x20 || c.toNat = 0xA0 || c.toNat = 0x1680 ||
  (0x2000 ≤ c.toNat && c.toNat ≤ 0x200A) ||
  c.toNat = 0x2028 || c.toNat = 0x2029 || c.toNat = 0x202F || c.toNat = 0x205F ||
  c.toNat = 0x3000 || c.toNat = 0xFEFF

/-- The method `.trim()`. -/
def trim (s : List Char) : List Char :=
  ((s.dropWhile isWhiteSpace).reverse.dropWhile isWhiteSpace).reverse

/-- The call `.split(',')`: the pieces between the commas; the empty text has
the single piece `''`. -/
def splitComma : List Char → List (List Char)
  | [] => [[]]
  | c :: cs =>
    if c = ',' then [] :: splitComma cs
    else
      match splitComma cs with
      | [] => [[c]]
      | t :: ts => (c :: t) :: ts

/-- The value of a character as a digit, letters counting from 10. -/
def digitValue (c : Char) : Option Nat :=
  if 48 ≤ c.toNat ∧ c.toNat ≤ 57 then some (c.toNat - 48)
  else if 97 ≤ c.toNat ∧ c.toNat ≤ 122 then some (c.toNat - 97 + 10)
  else if 65 ≤ c.toNat ∧ c.toNat ≤ 90 then some (c.toNat - 65 + 10)
  else none

/-- The digits of the longest prefix made of radix-`radix` digits. -/
def leadingDigits (radix : Nat) : List Char → List Nat
  | [] => []
  | c :: cs =>
    match digitValue c with
    | some d => if d < radix then d :: leadingDigits radix cs else []
    | none => []

/-- The number a digit sequence denotes in the given radix. -/
def digitsToNat (radix : Nat) (ds : List Nat) : Nat :=
  ds.foldl (fun acc d => acc * radix + d) 0

/-- The function `parseInt(s)` with no radix argument: strip leading white
space, take an optional sign, switch to radix 16 after a `0x`/`0X` prefix,
read the longest prefix of digits; `none` stands for `NaN` (no digit read).
The value is the number value of the signed integer read: the nearest double,
an infinity for a text of some 309 digits or more.  (For more than 20
significant decimal digits the language allows an implementation to round
the digits after the 20th first; the model rounds the exact integer.) -/
def parseInt (input : List Char) : Option Js.Number :=
  let s := input.dropWhile isWhiteSpace
  let signed : Int × List Char :=
    match s with
    | '-' :: t => (-1, t)
    | '+' :: t => (1, t)
    | _ => (1, s)
  let prefixed : Nat × List Char :=
    match signed.2 with
    | '0' :: 'x' :: t => (16, t)
    | '0' :: 'X' :: t => (16, t)
    | _ => (10, signed.2)
  let z := leadingDigits prefixed.1 prefixed.2
  if z = [] then none
  else some (Js.Number.ofInt (signed.1 * (digitsToNat prefixed.1 z : Nat)))

/-- The pipeline `data.split(',').map(n => n.trim()).filter(n => n !== '')
.map(n => parseInt(n)).filter(n => !isNaN(n))`. -/
def parseData (data : String) : List Js.Number :=
  ((((splitComma data.toList).map trim).filter (fun n => n ≠ [])).map parseInt).reduceOption

end DataUpload

/-! ## Upload: external collaborators -/

/-- The setting `APP_CONFIG.minPrice` (`config.js`), in ETH. -/
def APP_CONFIG.minPrice : String := "0.001"

/-- The setting `APP_CONFIG.maxDatasetSize` (`config.js`). -/
def APP_CONFIG.maxDatasetSize : Nat := 1000

namespace Ethers

/-- Whether a character is a decimal digit. -/
def isDigit (c : Char) : Bool := 48 ≤ c.toNat && c.toNat ≤ 57

/-- The number a sequence of decimal digit characters denotes. -/
def decimalValue (cs : List Char) : Nat :=
  cs.foldl (fun acc c => acc * 10 + (c.toNat - 48)) 0

/-- The library function `ethers.parseEther` (ethers v6): the text must match
`-?[0-9]*\.?[0-9]*` with at least one digit, digits after the 18th decimal
must be zeros, and the value is the number in units of `10^-18`; `none` is a
thrown error. -/
def parseEther (value : String) : Option Int :=
  let cs := value.toList
  let signed : Bool × List Char :=
    match cs with
    | '-' :: t => (true, t)
    | _ => (false, cs)
  let whole := signed.2.takeWhile isDigit
  let afterWhole := signed.2.dropWhile isDigit
  let afterPoint : List Char :=
    match afterWhole with
    | '.' :: t => t
    | _ => afterWhole
  let decimal := afterPoint.takeWhile isDigit
  let rest := afterPoint.dropWhile isDigit
  if rest ≠ [] then none
  else if whole.length + decimal.length = 0 then none
  else if (decimal.drop 18).any (fun c => c ≠ '0') then none
  else
    let wei : Nat := decimalValue (whole ++ (decimal ++ List.replicate 18 '0').take 18)
    some (if signed.1 then -(wei : Int) else (wei : Int))

/-- The bound `maxValue = 0x1fffffffffffff` of `getBigInt`. -/
def maxValue : Int := 0x1fffffffffffff

/-- The conversion `getBigInt` applied to a JavaScript number: an integer
outside `[-maxValue, maxValue]` makes it throw (message abbreviated). -/
def getBigInt (x : Int) : Except String Int :=
  if -maxValue ≤ x ∧ x ≤ maxValue then .ok x else .error "overflow"

/-- ABI encoding of one `uint256` argument given as a big integer: a value
outside `[0, 2^256)` makes the encoder throw (message abbreviated). -/
def encodeUint256 (x : Int) : Except String Nat :=
  if 0 ≤ x ∧ x < 2 ^ 256 then .ok x.toNat else .error "value out-of-bounds"

/-- The conversion `getBigInt` applied to any JavaScript number that is not
`NaN` and has no fraction: a number that is not an integer (an infinity) makes
it throw 'underflow'; an integer is converted as by `getBigInt` above. -/
def getBigIntOfNumber : Js.Number → Except String Int
  | .int v => getBigInt v
  | .infinity _ => .error "underflow"

/-- ABI encoding of a `uint256[]` argument given as an array of JavaScript
numbers, element by element: each is converted by `getBigInt` and then
encoded. -/
def encodeUint256Array : List Js.Number → Except String (List Nat)
  | [] => .ok []
  | x :: xs =>
    match getBigIntOfNumber x with
    | .error e => .error e
    | .ok b =>
      match encodeUint256 b with
      | .error e => .error e
      | .ok v =>
        match encodeUint256Array xs with
        | .error e => .error e
        | .ok vs => .ok (v :: vs)

end Ethers

/-- The arguments of a call of the mock ledger's
`uploadDataset(string name, string description, uint256[] dataArray, uint256 pricePerQuery)`,
as carried in the call data. -/
structure UploadCall where
  name : String
  description : String
  dataArray : List Nat
  pricePerQuery : Nat
  deriving DecidableEq, Repr

/-- The call `contract.interface.encodeFunctionData('uploadDataset', [name,
description, numbers, priceWei])`. -/
def encodeUploadDataset (name description : String) (numbers : List Js.Number)
    (priceWei : Int) :
    Except String UploadCall :=
  match Ethers.encodeUint256Array numbers with
  | .error e => .error e
  | .ok dataArray =>
    match Ethers.encodeUint256 priceWei with
    | .error e => .error e
    | .ok price =>
      .ok { name := name, description := description, dataArray := dataArray,
            pricePerQuery := price }

/-- The parameter object `{ from, to, data, value }` of an `eth_sendTransaction`
request. -/
structure TxRequest where
  fromAddress : Option Nat
  toAddress : Nat
  data : UploadCall
  value : String
  deriving DecidableEq, Repr

/-- The result of encrypting one value: `{ data: handles[0], proof }`. -/
structure EncryptedInput where
  data : Option Nat
  proof : Nat
  deriving DecidableEq, Repr

/-- The external FHEVM encryption instance (`fhevmjs`): each of its two
methods returns a value or throws an error with a message. -/
structure FhevmInstance where
  encrypt32 : Js.Number → Except String (List Nat)
  generateInputProof : List Nat → Except String Nat

namespace Fhevm

/-- The function `encryptUint32(value, contractAddress)`, given the module
variable `fhevmInstance` (`none` when not initialised): every failure is
rethrown as 'Encryption failed: ' followed by the message. -/
def encryptUint32 (fhevmInstance : Option FhevmInstance) (value : Js.Number) :
    Except String EncryptedInput :=
  match fhevmInstance with
  | none =>
    .error ("Encryption failed: " ++ "FHEVM instance not initialized. Call initFhevm() first.")
  | some inst =>
    match inst.encrypt32 value with
    | .error message => .error ("Encryption failed: " ++ message)
    | .ok handles =>
      match inst.generateInputProof handles with
      | .error message => .error ("Encryption failed: " ++ message)
      | .ok proof => .ok { data := handles.head?, proof := proof }

/-- The function `encryptUint32Array(values, contractAddress)`: encrypt the
values in order, rethrowing the first error. -/
def encryptUint32Array (fhevmInstance : Option FhevmInstance) :
    List Js.Number → Except String (List EncryptedInput)
  | [] => .ok []
  | v :: vs =>
    match encryptUint32 fhevmInstance v with
    | .error e => .error e
    | .ok r =>
      match encryptUint32Array fhevmInstance vs with
      | .error e => .error e
      | .ok rs => .ok (r :: rs)

end Fhevm

/-- The arguments with which `useContractFHE.uploadDataset` invokes
`contract.uploadDataset(name, description, inputProofs, priceWei, { gasLimit })`. -/
structure FheUploadCall where
  name : String
  description : String
  inputProofs : List Nat
  priceWei : Int
  gasLimit : Nat
  deriving DecidableEq, Repr

/-- The state of the `useContractFHE` hook that `uploadDataset` reads, with the
module variable of `utils/fhevm`. -/
structure FheHook where
  contract : Bool
  fhevmReady : Bool
  fhevmInstance : Option FhevmInstance

namespace UseContractFHE

/-- The function `uploadDataset(name, description, dataArray, priceInEth)` of
`useContractFHE`, up to and including the ledger call: the readiness check,
the encryption of the values, the extraction of the proofs, the price
conversion, and the call `contract.uploadDataset(name, description,
inputProofs, priceWei, { gasLimit })`, in which ethers encodes `priceWei` for
the `uint256` parameter `pricePerQuery` and throws on a value out of its
bounds.  (What the encoder makes of a proof depends on the form the encryption
library gives it, which the model leaves open.)  `.ok call` is the ledger call
made; `.error` is the error thrown before any ledger call. -/
def uploadDatasetCall (hook : FheHook) (name description : String)
    (dataArray : List Js.Number) (priceInEth : String) : Except String FheUploadCall :=
  if !hook.contract || !hook.fhevmReady then
    .error "合约未初始化或 FHEVM 未准备好"
  else
    match Fhevm.encryptUint32Array hook.fhevmInstance dataArray with
    | .error e => .error e
    | .ok encryptedData =>
      let inputProofs := encryptedData.map (fun item => item.proof)
      match Ethers.parseEther priceInEth with
      | none => .error "invalid FixedNumber string value"
      | some priceWei =>
        match Ethers.encodeUint256 priceWei with
        | .error e => .error e
        | .ok _ =>
          .ok { name := name, description := description, inputProofs := inputProofs,
                priceWei := priceWei, gasLimit := 5000000 }

end UseContractFHE

/-! ## Upload: `components/DataUpload.jsx` -/

namespace DataUpload

/-- The form state `formData`. -/
structure FormData where
  name : String
  description : String
  data : String
  price : String
  deriving DecidableEq, Repr

/-- The props of the component that the upload reads: the mock contract
binding (its address `contract.target`, `none` when absent), the mode flag,
and the FHE hook's `uploadDataset` (`none` when absent). -/
structure Props where
  contract : Option Nat
  isFHEMode : Bool
  uploadDataset : Option FheHook

/-- What an upload did on the outside: it stopped with an error message before
anything was sent, it handed a transaction to the wallet
(`eth_sendTransaction`), or it made the FHE ledger call. -/
inductive UploadOutcome where
  | failed (message : String)
  | mockTxSent (tx : TxRequest)
  | fheCallSent (call : FheUploadCall)
  deriving DecidableEq, Repr

/-- The checks of `handleSubmit` that precede the upload call: a contract must
be present, in FHE mode the upload function must be present, and the parsed
data must have between 1 and 1000 points.  `.ok numbers` means the upload
function is called with `numbers`. -/
def validateSubmit (props : Props) (formData : FormData) :
    Except String (List Js.Number) :=
  if props.contract.isNone then
    .error "Please connect wallet first"
  else if props.isFHEMode && props.uploadDataset.isNone then
    .error "FHE upload function not available. Please try again later."
  else
    let numbers := parseData formData.data
    if numbers.length = 0 then
      .error "Please enter valid numeric data"
    else if numbers.length > 1000 then
      .error "Cannot exceed 1000 data points"
    else
      .ok numbers

/-- The function `handleMockUpload(numbers)` up to and including the
`eth_sendTransaction` request: convert the price, ask the wallet for its
accounts (`accounts`, an error when the request fails), encode the call, and
hand the transaction to the wallet. -/
def handleMockUpload (target : Nat) (accounts : Except String (List Nat)) (formData : FormData)
    (numbers : List Js.Number) : UploadOutcome :=
  match Ethers.parseEther formData.price with
  | none => .failed "invalid FixedNumber string value"
  | some priceWei =>
    match accounts with
    | .error e => .failed e
    | .ok accs =>
      match encodeUploadDataset formData.name formData.description numbers priceWei with
      | .error e => .failed e
      | .ok data =>
        .mockTxSent { fromAddress := accs.head?, toAddress := target, data := data,
                      value := "0x0" }

/-- The function `handleFHEUpload(numbers)` up to and including the ledger call
made by the `uploadDataset` prop. -/
def handleFHEUpload (hook : FheHook) (formData : FormData) (numbers : List Js.Number) :
    UploadOutcome :=
  match UseContractFHE.uploadDatasetCall hook formData.name formData.description numbers
      formData.price with
  | .error e => .failed e
  | .ok call => .fheCallSent call

/-- The function `handleSubmit`, up to the point where the upload has handed
its transaction over. -/
def handleSubmit (props : Props) (accounts : Except String (List Nat)) (formData : FormData) :
    UploadOutcome :=
  match validateSubmit props formData with
  | .error e => .failed e
  | .ok numbers =>
    if props.isFHEMode then
      match props.uploadDataset with
      | some hook => handleFHEUpload hook formData numbers
      | none => .failed "FHE upload function not available. Please try again later."
    else
      match props.contract with
      | some target => handleMockUpload target accounts formData numbers
      | none => .failed "Please connect wallet first"

end DataUpload

/-! ## Upload: the form of `components/DataUpload.jsx` -/

namespace Html

/-- A decimal number as a number field reads it from its text: a sign and the
magnitude `numerator / denominator`, the denominator being a power of ten. -/
structure Decimal where
  negative : Bool
  numerator : Nat
  denominator : Nat
  deriving DecidableEq, Repr

/-- The numerator with the sign. -/
def Decimal.signed (d : Decimal) : Int :=
  if d.negative then -(d.numerator : Int) else (d.numerator : Int)

/-- The comparison `a < b` of two decimals. -/
def Decimal.lt (a b : Decimal) : Bool :=
  decide (a.signed * (b.denominator : Int) < b.signed * (a.denominator : Int))

/-- Whether `a - base` is an integral multiple of `step`. -/
def Decimal.isStepFrom (a base step : Decimal) : Bool :=
  decide (((a.signed * (base.denominator : Int) - base.signed * (a.denominator : Int)) *
      (step.denominator : Int)) %
    (step.signed * (a.denominator : Int) * (base.denominator : Int)) = 0)

/-- The exponent part of a valid floating-point number: nothing, or `e` or
`E`, an optional sign and one or more digits; `none` when the text is of
neither form. -/
def parseExponent : List Char → Option Int
  | [] => some 0
  | c :: t =>
    if c = 'e' ∨ c = 'E' then
      let signed : Bool × List Char :=
        match t with
        | '-' :: r => (true, r)
        | '+' :: r => (false, r)
        | _ => (false, t)
      if signed.2 ≠ [] ∧ signed.2.all Ethers.isDigit = true then
        some (if signed.1 then -(Ethers.decimalValue signed.2 : Int)
          else (Ethers.decimalValue signed.2 : Int))
      else none
    else none

/-- The number a text denotes when it is a valid floating-point number of
HTML: an optional `-`, then digits, or digits with a fraction, or a fraction
alone (a `.` followed by one or more digits), then an optional exponent;
`none` when the text is not of that form.  A number field whose text is not of
that form holds the empty value. -/
def parseNumber (value : String) : Option Decimal :=
  let cs := value.toList
  let signed : Bool × List Char :=
    match cs with
    | '-' :: t => (true, t)
    | _ => (false, cs)
  let whole := signed.2.takeWhile Ethers.isDigit
  let afterWhole := signed.2.dropWhile Ethers.isDigit
  let point : Bool := afterWhole.head? = some '.'
  let afterPoint : List Char :=
    match afterWhole with
    | '.' :: t => t
    | _ => afterWhole
  let decimal := if point then afterPoint.takeWhile Ethers.isDigit else []
  let rest := if point then afterPoint.dropWhile Ethers.isDigit else afterWhole
  if point ∧ decimal = [] then none
  else if whole.length + decimal.length = 0 then none
  else
    match parseExponent rest with
    | none => none
    | some e =>
      some { negative := signed.1,
             numerator := Ethers.decimalValue (whole ++ decimal) *
               10 ^ (e - (decimal.length : Int)).toNat,
             denominator := 10 ^ ((decimal.length : Int) - e).toNat }

/-- The ways in which a control of the form can fail its constraints. -/
inductive Validity where
  | valueMissing
  | rangeUnderflow
  | stepMismatch
  deriving DecidableEq, Repr

/-- Constraint validation of `<input type="number" min=... step=... required>`
holding the text `value`, for a `min` and a `step` that are valid numbers, the
step positive: a text that is not a number leaves the field empty, which
`required` forbids; a number below `min` is an underflow; a number that is
not `min` plus a whole number of steps is a step mismatch.  `none` means the
field satisfies its constraints. -/
def numberFieldValidity (min step value : String) : Option Validity :=
  match parseNumber value with
  | none => some .valueMissing
  | some v =>
    match parseNumber min, parseNumber step with
    | some m, some st =>
      if v.lt m then some .rangeUnderflow
      else if !v.isStepFrom m st then some .stepMismatch
      else none
    | _, _ => none

end Html

namespace DataUpload

/-- The controls of the form that fail their constraints, in document order,
each with its failure: the name (`required`), the description (`required`),
the data (`required`) and the price (`type="number" step="0.001" min="0.001"
required`). -/
def formProblems (formData : FormData) : List (String × Html.Validity) :=
  (if formData.name = "" then [("name", Html.Validity.valueMissing)] else []) ++
  (if formData.description = "" then [("description", Html.Validity.valueMissing)] else []) ++
  (if formData.data = "" then [("data", Html.Validity.valueMissing)] else []) ++
  (match Html.numberFieldValidity "0.001" "0.001" formData.price with
    | some problem => [("price", problem)]
    | none => [])

/-- What pressing the form's submit button leads to: nothing, the button being
disabled; the browser reporting the controls that fail their constraints,
without a `submit` event; or `handleSubmit` running, with its outcome. -/
inductive SubmitOutcome where
  | disabled
  | invalid (problems : List (String × Html.Validity))
  | submitted (outcome : UploadOutcome)
  deriving DecidableEq, Repr

/-- The form `<form onSubmit={handleSubmit}>` with its submit button
`disabled={!formData.name || !formData.data || !contract || !fhevmInstance}`:
`handleSubmit` is the handler of the `submit` event, which the browser fires
only when every control satisfies its constraints.  `fhevmInstance` says
whether the component was given an instance. -/
def submitForm (props : Props) (fhevmInstance : Bool) (accounts : Except String (List Nat))
    (formData : FormData) : SubmitOutcome :=
  if formData.name = "" ∨ formData.data = "" ∨ props.contract.isNone = true ∨
      fhevmInstance = false then
    .disabled
  else
    match formProblems formData with
    | [] => .submitted (handleSubmit props accounts formData)
    | problems => .invalid problems

end DataUpload

/-- The data text `7,7,...,7,` with `k` values. -/
def sevens : Nat → List Char
  | 0 => []
  | k + 1 => '7' :: ',' :: sevens k

/-! ## `utils/fhevm.js`: batch encryption with its effects -/

namespace Fhevm

/-- What a run of `encryptUint32Array` did: the list returned or the error
thrown, the values handed to `encryptUint32` in order, and the item numbers
written by `console.error` (the text shows `i + 1`). -/
structure EncryptRun where
  outcome : Except String (List EncryptedInput)
  offered : List Js.Number
  errorLog : List Nat
  deriving DecidableEq, Repr

/-- The loop `for (let i = 0; i < values.length; i++)` of `encryptUint32Array`
from index `i` on, with the results pushed so far and the values offered so
far: each value is encrypted and pushed; on a failure the catch block writes
the item number `i + 1` to the console and rethrows the error unchanged. -/
def encryptLoop (fhevmInstance : Option FhevmInstance) :
    Nat → List Js.Number → List EncryptedInput → List Js.Number → EncryptRun
  | _, [], encrypted, offered => { outcome := .ok encrypted, offered := offered, errorLog := [] }
  | i, v :: rest, encrypted, offered =>
    match encryptUint32 fhevmInstance v with
    | .error error =>
      { outcome := .error error, offered := offered ++ [v], errorLog := [i + 1] }
    | .ok result => encryptLoop fhevmInstance (i + 1) rest (encrypted ++ [result]) (offered ++ [v])

/-- The function `encryptUint32Array(values, contractAddress)` with its
effects. -/
def encryptUint32ArrayRun (fhevmInstance : Option FhevmInstance) (values : List Js.Number) :
    EncryptRun :=
  encryptLoop fhevmInstance 0 values [] []

end Fhevm

/-- An encryption instance for examples: it refuses negative values with the
message 'negative value' and infinities with 'not an integer', gives the value
`v` the single handle `v + 1000` and a handle list the proof `sum + 7`. -/
def exampleInstance : FhevmInstance where
  encrypt32 := fun x =>
    match x with
    | .int v => if v < 0 then .error "negative value" else .ok [v.toNat + 1000]
    | .infinity _ => .error "not an integer"
  generateInputProof := fun handles => .ok (handles.sum + 7)

/-! ## Ledger call shapes -/

/-- The kinds of argument a ledger call can carry. -/
inductive CallArg where
  | text (s : String)
  | handles (hs : List (Option Nat))
  | proofs (ps : List Nat)
  | amount (w : Int)
  deriving DecidableEq, Repr

/-- The parameter kinds of a ledger function, as an ABI declares them. -/
inductive ParamKind where
  | string
  | bytes32Array
  | bytesArray
  | uint256Array
  | uint256
  deriving DecidableEq, Repr

/-- The FHE ledger signature of `config.js` (`getContractABI(true)`):
`uploadDataset(string name, string description, bytes32[] inputHandles,
bytes[] inputProofs, uint256 pricePerQuery)`. -/
def fheUploadDatasetParams : List ParamKind :=
  [.string, .string, .bytes32Array, .bytesArray, .uint256]

/-- The positional arguments of the call `contract.uploadDataset(name,
description, inputProofs, priceWei, { gasLimit })`, the trailing options
object left out. -/
def FheUploadCall.positional (c : FheUploadCall) : List CallArg :=
  [.text c.name, .text c.description, .proofs c.inputProofs, .amount c.priceWei]

/-- Whether an argument is of the kind a parameter asks for. -/
def CallArg.fits : CallArg → ParamKind → Bool
  | .text _, .string => true
  | .handles _, .bytes32Array => true
  | .proofs _, .bytesArray => true
  | .amount _, .uint256 => true
  | _, _ => false

/-- Whether an argument list matches a parameter list, position by position. -/
def argsMatch : List CallArg → List ParamKind → Bool
  | [], [] => true
  | a :: as, p :: ps => a.fits p && argsMatch as ps
  | _, _ => false

/-- The parameters of `uploadDataset` in `CONTRACT_ABI` (`config.js`), the ABI
with which both `useContract` and `useContractFHE` build their contract:
`uploadDataset(string name, string description, uint256[] dataArray, uint256
pricePerQuery)`. -/
def CONTRACT_ABI.uploadDataset : List ParamKind :=
  [.string, .string, .uint256Array, .uint256]

namespace Ethers

/-- A value passed to a contract method, as far as the fragment lookup of
ethers looks at it: a string, an array (with its length), a `bigint`, or a
plain object such as `{ gasLimit }`. -/
inductive Arg where
  | text (s : String)
  | list (length : Nat)
  | bigint (v : Int)
  | object
  deriving DecidableEq, Repr

/-- Whether a trailing value can be the overrides of a call: it is not `null`,
not an array, and of type 'object'. -/
def Arg.canBeOverrides : Arg → Bool
  | .object => true
  | _ => false

/-- How `contract.<name>(...values)` (ethers v6) finds its function fragment
when the ABI declares one function of that name, with the parameters `inputs`:
the values are compatible when there is one for each parameter, or one more
and the last of them can be the overrides.  Without a compatible fragment the
call throws 'no matching fragment', before anything is encoded or sent. -/
def getFragment (inputs : List ParamKind) (values : List Arg) : Except String Unit :=
  if values.length = inputs.length then .ok ()
  else if values.length = inputs.length + 1 ∧
      values.getLast?.map Arg.canBeOverrides = some true then .ok ()
  else .error "no matching fragment"

end Ethers

/-! ## Receipts and event logs -/

/-- What `interface.parseLog` makes of a log it can decode: the event name and
the named arguments. -/
structure ParsedLog where
  name : String
  args : List (String × Nat)
  deriving DecidableEq, Repr

/-- The named argument `parsed.args.<key>`; `none` is `undefined`. -/
def ParsedLog.arg (l : ParsedLog) (key : String) : Option Nat :=
  (l.args.find? (fun kv => kv.1 == key)).map (fun kv => kv.2)

/-- A transaction receipt.  Each log is given by what `parseLog` makes of it:
`none` when `parseLog` throws or returns `null`.  `hash` is `none` when the
field is not a string. -/
structure Receipt where
  blockNumber : Nat
  status : Nat
  hash : Option String
  logs : List (Option ParsedLog)
  deriving DecidableEq, Repr

/-- The result object of an upload: `{ success, datasetId, txHash }` (with
`blockNumber` in the FHE client); `datasetId = none` is `null`. -/
structure UploadResult where
  success : Bool
  datasetId : Option Nat
  txHash : Option String
  blockNumber : Option Nat
  deriving DecidableEq, Repr

/-- The result object of a query submission: `{ success, queryId, txHash }`
(with `result` in the FHE client); `queryId = none` is `null`. -/
structure QueryResult where
  success : Bool
  queryId : Option Nat
  result : Option Nat
  txHash : Option String
  deriving DecidableEq, Repr

/-- Errors of the FHE ledger client's write methods: an error with a message,
or the error of the wait for the decrypted result. -/
inductive FheError where
  | message (m : String)
  | wait (e : WaitError)
  deriving DecidableEq, Repr

/-- The first log that decodes to an event of the given name: the idiom
`receipt.logs.find(log => { try { const parsed = parseLog(log); return parsed
&& parsed.name === name } catch { return false } })` of `useContractFHE`, and
`receipt.logs.map(log => { try { return parseLog(log) } catch { return null } })
.find(e => e && e.name === name)` of `useContract`. -/
def findEvent (name : String) : List (Option ParsedLog) → Option ParsedLog
  | [] => none
  | some parsed :: rest => if parsed.name = name then some parsed else findEvent name rest
  | none :: rest => findEvent name rest

/-- The method `tx.wait()` of ethers v6 on a mined transaction: a receipt with
status 0 makes it throw (message abbreviated). -/
def Ethers.wait (receipt : Receipt) : Except String Receipt :=
  if receipt.status = 0 then .error "transaction execution reverted" else .ok receipt

namespace UseContractFHE

/-- The part of `uploadDataset` that follows the ledger call: wait for the
receipt, look for the `DatasetCreated` event, return the result object or
throw '未找到 DatasetCreated 事件'.  `txHash` is `tx.hash`. -/
def uploadDatasetResult (receipt : Receipt) (txHash : String) : Except FheError UploadResult :=
  match Ethers.wait receipt with
  | .error e => .error (.message e)
  | .ok receipt =>
    match findEvent "DatasetCreated" receipt.logs with
    | some parsedEvent =>
      match parsedEvent.arg "datasetId" with
      | some datasetId =>
        .ok { success := true, datasetId := some datasetId, txHash := some txHash,
              blockNumber := some receipt.blockNumber }
      | none => .error (.message "TypeError")
    | none => .error (.message "未找到 DatasetCreated 事件")

/-- The part of `executeQuery` that follows the ledger call: wait for the
receipt, look for the `QueryExecuted` event, then wait for the decrypted
result with `requestDecryption` of `utils/fhevm`; without the event it throws
'未找到 QueryExecuted 事件'.  `none` means the fuel of the wait ran out. -/
def executeQueryResult (fuel : Nat) (polls : Nat → PollOutcome) (receipt : Receipt)
    (txHash : String) : Option (Except FheError QueryResult) :=
  match Ethers.wait receipt with
  | .error e => some (.error (.message e))
  | .ok receipt =>
    match findEvent "QueryExecuted" receipt.logs with
    | some parsedEvent =>
      match parsedEvent.arg "queryId" with
      | some queryId =>
        match Fhevm.requestDecryption fuel polls with
        | none => none
        | some r =>
          match r.outcome with
          | .ok result =>
            some (.ok { success := true, queryId := some queryId, result := some result,
                        txHash := some txHash })
          | .error e => some (.error (.wait e))
      | none => some (.error (.message "TypeError"))
    | none => some (.error (.message "未找到 QueryExecuted 事件"))

end UseContractFHE

/-! ## `hooks/useContract.js` -/

namespace UseContract

/-- The part of `uploadDataset` that follows the ledger call (the same in its
two branches): wait for the receipt, look for an event named
'DatasetUploaded', return `{ success: true, datasetId: event ?
Number(event.args.datasetId) : null, txHash: receipt.hash }`. -/
def uploadDatasetResult (receipt : Receipt) : Except String UploadResult :=
  match Ethers.wait receipt with
  | .error e => .error e
  | .ok receipt =>
    .ok { success := true,
          datasetId := (findEvent "DatasetUploaded" receipt.logs).bind
            (fun event => event.arg "datasetId"),
          txHash := receipt.hash, blockNumber := none }

/-- The function `uploadDataset(name, description, dataArray, pricePerQuery)`
of `useContract`.  `contract` says whether the hook holds a contract;
`fhevmInstance` is the hook's instance, `none` for `null` and `some mock` for
an object whose `mock` field is `mock` (the hook only ever stores `{ mock:
true }`); the elements of `dataArray` are given as the texts `parseInt` reads;
`receipt` is the receipt the ledger gives for the transaction, were one sent.

After the guard and the price conversion, the mock branch calls
`contract.uploadDataset(name, description, uint32Data, [], priceWei)`, five
values the last of which is a `bigint`, on the contract built with
`CONTRACT_ABI`; only when that call has gone through does it wait for the
receipt and look for the event.  The other branch starts with
`contract.signer.getAddress()`, and an ethers (v6) contract has no `signer`.
Every error is rethrown by the outer `catch`. -/
def uploadDataset (contract : Bool) (fhevmInstance : Option Bool) (name description : String)
    (dataArray : List (List Char)) (pricePerQuery : String) (receipt : Receipt) :
    Except String UploadResult :=
  if !contract || fhevmInstance.isNone then
    .error "Contract or FHEVM SDK not initialized"
  else
    match Ethers.parseEther pricePerQuery with
    | none => .error "invalid FixedNumber string value"
    | some priceWei =>
      if fhevmInstance = some true then
        let uint32Data := dataArray.map DataUpload.parseInt
        match Ethers.getFragment CONTRACT_ABI.uploadDataset
            [.text name, .text description, .list uint32Data.length, .list 0,
              .bigint priceWei] with
        | .error e => .error e
        | .ok _ => uploadDatasetResult receipt
      else
        .error "TypeError: Cannot read properties of undefined (reading 'getAddress')"

/-- What one `getTransactionReceipt` call produces: a receipt, `null`, or a
thrown error. -/
inductive ReceiptPoll where
  | ok (receipt : Option Receipt)
  | threw (code : Nat)
  deriving DecidableEq, Repr

/-- The loop `for (const log of receipt.logs)` of `purchaseQuery`: the query id
of the first log that decodes to `QueryExecuted`; a log on which `parseLog`
throws or returns `null`, or whose handling throws, is skipped by the loop's
`catch`.  `none` means the loop ended without a return. -/
def queryIdFromLogs : List (Option ParsedLog) → Option Nat
  | [] => none
  | some parsed :: rest =>
    if parsed.name = "QueryExecuted" then
      match parsed.arg "queryId" with
      | some queryId => some queryId
      | none => queryIdFromLogs rest
    else queryIdFromLogs rest
  | none :: rest => queryIdFromLogs rest

/-- How the confirmation stage of `purchaseQuery` ended: the object returned or
the error thrown, with the number of receipt reads and of 2-second sleeps. -/
structure ConfirmRun where
  outcome : Except String QueryResult
  reads : Nat
  waits : Nat
  deriving DecidableEq, Repr

/-- Steps 5 and 6 of `purchaseQuery`: `for (let i = 0; i < 60; i++)` read the
receipt; a receipt with a truthy `blockNumber` ends the call with `{ success:
true, queryId, txHash: receipt.hash }`, `queryId` being `null` when no log
gave one; otherwise (no receipt yet, or a read error, which is only logged)
sleep 2 seconds and go on; after 60 attempts throw the timeout error. -/
def confirmLoop (polls : Nat → ReceiptPoll) : Nat → Nat → Option ConfirmRun
  | 0, _ => none
  | fuel + 1, i =>
    if i < 60 then
      match polls i with
      | .ok (some receipt) =>
        if receipt.blockNumber ≠ 0 then
          some { outcome := .ok { success := true, queryId := queryIdFromLogs receipt.logs,
                                  result := none, txHash := receipt.hash },
                 reads := i + 1, waits := i }
        else confirmLoop polls fuel (i + 1)
      | .ok none => confirmLoop polls fuel (i + 1)
      | .threw _ => confirmLoop polls fuel (i + 1)
    else
      some { outcome := .error "Transaction confirmation timeout after 120 seconds",
             reads := i, waits := i }

/-- The confirmation stage of `purchaseQuery`, from its first attempt. -/
def purchaseQueryConfirm (fuel : Nat) (polls : Nat → ReceiptPoll) : Option ConfirmRun :=
  confirmLoop polls fuel 0

/-- A poll that shows a confirmed receipt (one with a truthy block number). -/
def ReceiptPoll.isConfirmed : ReceiptPoll → Bool
  | .ok (some receipt) => receipt.blockNumber != 0
  | _ => false

/-- The query id a log yields when it decodes to `QueryExecuted`. -/
def decodeQueryExecuted : Option ParsedLog → Option Nat
  | some parsed => if parsed.name = "QueryExecuted" then parsed.arg "queryId" else none
  | none => none

end UseContract

namespace DataUpload

/-- The loop over `receipt.logs` of `handleMockUpload`: at the first log that
decodes to `DatasetCreated` take `rawId = parsedLog.args.datasetId`, set
`datasetId = rawId ? Number(rawId.toString()) : null` and `break`; logs that
do not decode are skipped. -/
def extractDatasetId : List (Option ParsedLog) → Option Nat
  | [] => none
  | some parsedLog :: rest =>
    if parsedLog.name = "DatasetCreated" then
      match parsedLog.arg "datasetId" with
      | some rawId => if rawId = 0 then none else some rawId
      | none => none
    else extractDatasetId rest
  | none :: rest => extractDatasetId rest

/-- The part of `handleMockUpload` that follows the receipt polling, given the
receipt it ended with and the hash `txHash` the wallet returned: a status
other than 1 throws 'Transaction failed on blockchain!'; otherwise the result
is `{ success: true, datasetId, txHash: typeof receipt.hash === 'string' ?
receipt.hash : txHash }`. -/
def handleMockUploadResult (receipt : Receipt) (txHash : String) : Except String UploadResult :=
  if receipt.status ≠ 1 then
    .error "Transaction failed on blockchain!"
  else
    .ok { success := true, datasetId := extractDatasetId receipt.logs,
          txHash := some (receipt.hash.getD txHash), blockNumber := none }

end DataUpload

/-! ## `hooks/useContractSwitch.js` -/

namespace UseContractSwitch

/-- The state of the hook, `selectedMode` and `isAutoFallback`, with the value
the browser's `localStorage` holds under the key 'contractMode' (`none` when
the key is absent). -/
structure SwitchState where
  selectedMode : String
  isAutoFallback : Bool
  contractMode : Option String
  deriving DecidableEq, Repr

/-- The initialiser `localStorage.getItem('contractMode') || 'mock'`. -/
def initialMode (contractMode : Option String) : String :=
  match contractMode with
  | some v => if v = "" then "mock" else v
  | none => "mock"

/-- The state of a session that starts with the given persisted value. -/
def startSession (contractMode : Option String) : SwitchState :=
  { selectedMode := initialMode contractMode, isAutoFallback := false,
    contractMode := contractMode }

/-- The function `switchMode(mode)`. -/
def switchMode (mode : String) (_s : SwitchState) : SwitchState :=
  { selectedMode := mode, isAutoFallback := false, contractMode := some mode }

/-- The function `fallbackToMock()`. -/
def fallbackToMock (s : SwitchState) : SwitchState :=
  if s.selectedMode = "fhe" then
    { s with selectedMode := "mock", isAutoFallback := true }
  else s

/-- What the gateway health probe (`fetch(..., { method: 'HEAD' })`) produces:
a response with its `ok` flag, or a rejection. -/
inductive ProbeOutcome where
  | responded (ok : Bool)
  | rejected
  deriving DecidableEq, Repr

/-- The effect that checks the gateway: when the mode is 'fhe' on chain
11155111 it probes the gateway, and on a response that is not ok or on a
rejection it writes a warning to the console.  Returns the state after the
effect and the warnings written. -/
def gatewayCheck (s : SwitchState) (chainId : Nat) (probe : ProbeOutcome) :
    SwitchState × List String :=
  if s.selectedMode = "fhe" ∧ chainId = 11155111 then
    match probe with
    | .responded ok =>
      if !ok then (s, ["⚠️ Gateway 健康检查失败，建议使用 Mock 模式"]) else (s, [])
    | .rejected => (s, ["⚠️ 无法连接到 Gateway，建议使用 Mock 模式"])
  else (s, [])

end UseContractSwitch

/-! ## `config.js`, `hooks/useContractMode.js`, the mode selector of `App.jsx` -/

namespace Config

/-- The function `getUserContractMode()` of `config.js` (defined there, called
nowhere): the persisted value, or 'mock'. -/
def getUserContractMode (contractMode : Option String) : String :=
  match contractMode with
  | some mode => if mode = "" then "mock" else mode
  | none => "mock"

/-- The constant `export const FHEVM_ENABLED = false;`. -/
def FHEVM_ENABLED : Bool := false

end Config

/-- Which ledger hook's operations a mode hook hands out. -/
inductive Backend where
  | mockHook
  | fheHook
  deriving DecidableEq, Repr

/-- What `useContractMode` returns: the operations of one of the two hooks,
with `mode`, `isFHEMode` and `shouldUseFHE`. -/
structure ModeResult where
  hook : Backend
  mode : String
  isFHEMode : Bool
  shouldUseFHE : Bool
  deriving DecidableEq, Repr

/-- The hook `useContractMode(signer, chainId)`, run in a browser whose
`localStorage` holds `contractMode` under the key 'contractMode': it reads
neither the storage nor the chain, `shouldUseFHE` is `FHEVM_ENABLED`. -/
def useContractMode (_contractMode : Option String) (_chainId : Nat) : ModeResult :=
  let shouldUseFHE := Config.FHEVM_ENABLED
  if shouldUseFHE then
    { hook := .fheHook, mode := "FHE", isFHEMode := true, shouldUseFHE := shouldUseFHE }
  else
    { hook := .mockHook, mode := "Mock", isFHEMode := false, shouldUseFHE := shouldUseFHE }

/-- The `onChange` handler of the mode selector in `App.jsx`:
`localStorage.setItem('contractMode', newMode)` followed by a reload.  Returns
the persisted value the reloaded page starts with. -/
def App.selectMode (newMode : String) (_contractMode : Option String) : Option String :=
  some newMode

/-! ## Hexadecimal quantities -/

/-- The number a sequence of hexadecimal digit characters denotes. -/
def fromHex (cs : List Char) : Nat :=
  cs.foldl (fun acc c => acc * 16 + (DataUpload.digitValue c).getD 0) 0

/-- Decoding of a `0x`-prefixed hexadecimal quantity, as a wallet reads the
`value` field of a transaction; `none` when the text is not of that form. -/
def decodeHexValue (s : String) : Option Nat :=
  match s.toList with
  | '0' :: 'x' :: cs =>
    if cs ≠ [] ∧ (DataUpload.leadingDigits 16 cs).length = cs.length then some (fromHex cs)
    else none
  | _ => none

/-! ## Ledger records and argument conversion -/

/-- A value of a tuple the ledger returns. -/
inductive AbiValue where
  | uint (n : Nat)
  | address (a : Nat)
  | text (s : String)
  | bool (b : Bool)
  deriving DecidableEq, Repr

/-- The record returned by `getDataset`, in the order the ledger ABI declares
it: `id, owner, name, description, dataSize, pricePerQuery, totalQueries,
totalRevenue, createdAt, active`. -/
structure DatasetRecord where
  id : Nat
  owner : Nat
  name : String
  description : String
  dataSize : Nat
  pricePerQuery : Nat
  totalQueries : Nat
  totalRevenue : Nat
  createdAt : Nat
  active : Bool
  deriving DecidableEq, Repr

/-- The record as the positional tuple ethers hands back. -/
def DatasetRecord.toTuple (d : DatasetRecord) : List AbiValue :=
  [.uint d.id, .address d.owner, .text d.name, .text d.description, .uint d.dataSize,
   .uint d.pricePerQuery, .uint d.totalQueries, .uint d.totalRevenue, .uint d.createdAt,
   .bool d.active]

/-- Positional access `datasetResult[i]`; `none` is `undefined`. -/
def DatasetRecord.at (d : DatasetRecord) (i : Nat) : Option AbiValue :=
  d.toTuple.get? i

namespace Ethers

/-- The digits of a text that consists of radix digits only; `none` when the
text is empty or has another character. -/
def allDigits (radix : Nat) (cs : List Char) : Option Nat :=
  if cs ≠ [] ∧ (DataUpload.leadingDigits radix cs).length = cs.length then
    some (DataUpload.digitsToNat radix (DataUpload.leadingDigits radix cs))
  else none

/-- The conversion `BigInt(text)`: white space is trimmed, the empty text is
0, a `0x`, `0o` or `0b` prefix selects the radix, a decimal literal may carry a
sign; `none` is a thrown `SyntaxError`. -/
def jsBigInt (s : List Char) : Option Int :=
  match DataUpload.trim s with
  | [] => some 0
  | '0' :: 'x' :: r => (allDigits 16 r).map Int.ofNat
  | '0' :: 'X' :: r => (allDigits 16 r).map Int.ofNat
  | '0' :: 'o' :: r => (allDigits 8 r).map Int.ofNat
  | '0' :: 'O' :: r => (allDigits 8 r).map Int.ofNat
  | '0' :: 'b' :: r => (allDigits 2 r).map Int.ofNat
  | '0' :: 'B' :: r => (allDigits 2 r).map Int.ofNat
  | '-' :: r => (allDigits 10 r).map (fun n => -(n : Int))
  | '+' :: r => (allDigits 10 r).map Int.ofNat
  | t => (allDigits 10 t).map Int.ofNat

/-- The conversion `getBigInt` applied to a string: the empty string throws, a
text with a single leading `-` is the negation of `BigInt` of the rest, any
other text is `BigInt` of it (message abbreviated). -/
def getBigIntString (value : String) : Except String Int :=
  match value.toList with
  | [] => .error "invalid BigNumberish string"
  | '-' :: rest =>
    if rest.head? ≠ some '-' then
      match jsBigInt rest with
      | some n => .ok (-n)
      | none => .error "invalid BigNumberish string"
    else
      match jsBigInt ('-' :: rest) with
      | some n => .ok n
      | none => .error "invalid BigNumberish string"
  | cs =>
    match jsBigInt cs with
    | some n => .ok n
    | none => .error "invalid BigNumberish string"

/-- ABI encoding of one `uint8` argument given as a big integer. -/
def encodeUint8 (x : Int) : Except String Nat :=
  if 0 ≤ x ∧ x < 2 ^ 8 then .ok x.toNat else .error "value out-of-bounds"

end Ethers

/-- A JavaScript value held as a query parameter: a number, a string, or
nothing (`null` / `undefined`). -/
inductive ParamValue where
  | number (n : Int)
  | text (s : String)
  | absent
  deriving DecidableEq, Repr

/-- The expression `parameter || 0`. -/
def ParamValue.orZero : ParamValue → ParamValue
  | .number n => .number n
  | .text s => if s = "" then .number 0 else .text s
  | .absent => .number 0

/-- ABI encoding of a `uint256` argument given as a JavaScript value. -/
def encodeParam : ParamValue → Except String Nat
  | .number n =>
    match Ethers.getBigInt n with
    | .error e => .error e
    | .ok b => Ethers.encodeUint256 b
  | .text s =>
    match Ethers.getBigIntString s with
    | .error e => .error e
    | .ok b => Ethers.encodeUint256 b
  | .absent => .error "invalid BigNumberish value"

/-- The arguments of a call of the mock ledger's
`executeQuery(uint256 datasetId, uint8 queryType, uint256 parameter)`, as
carried in the call data. -/
structure QueryCall where
  datasetId : Nat
  queryType : Nat
  parameter : Nat
  deriving DecidableEq, Repr

/-- The parameter object `{ from, to, data, value }` of the
`eth_sendTransaction` request of a query. -/
structure QueryTx where
  fromAddress : Nat
  toAddress : Nat
  data : QueryCall
  value : String
  deriving DecidableEq, Repr

/-- The constant `CONTRACT_ADDRESS` (with `FHEVM_ENABLED = false`, the mock
address), as a number. -/
def CONTRACT_ADDRESS : Nat := 0x9e138064d8B68E027c8Fe0C4da03325C91cecaeb

/-- Query type enum (`config.js`, `QUERY_TYPES`). -/
def COMPUTE_MEAN : Nat := 0
def COMPUTE_VARIANCE : Nat := 1
def COUNT_ABOVE : Nat := 2
def COUNT_BELOW : Nat := 3

namespace UseContract

/-- The external collaborators of `purchaseQuery`: whether the hook has a
contract, what `publicContract.getDataset` returns for an id, and what
`signer.getAddress()` returns. -/
structure QueryEnv where
  contract : Bool
  getDataset : Int → Except String DatasetRecord
  signerAddress : Except String Nat

/-- Steps 1 to 4 of `purchaseQuery(datasetId, queryType, parameter)`: read the
dataset and take `price = datasetResult[5]`, get the sender, encode
`executeQuery(datasetId, queryType, parameter || 0)`, and hand the wallet the
transaction `{ from, to: CONTRACT_ADDRESS, data, value: '0x' +
price.toString(16) }`.  `.ok tx` is the transaction handed over; `.error` is
the error thrown before. -/
def purchaseQuerySend (env : QueryEnv) (datasetId queryType : Int) (parameter : ParamValue) :
    Except String QueryTx :=
  if !env.contract then .error "Contract not initialized"
  else
    match env.getDataset datasetId with
    | .error e => .error e
    | .ok datasetResult =>
      match datasetResult.at 5 with
      | some (.uint price) =>
        match env.signerAddress with
        | .error e => .error e
        | .ok fromAddress =>
          match encodeParam (.number datasetId), encodeParam (.number queryType),
              encodeParam parameter.orZero with
          | .ok d, .ok q, .ok p =>
            match Ethers.encodeUint8 q with
            | .error e => .error e
            | .ok q8 =>
              .ok { fromAddress := fromAddress, toAddress := CONTRACT_ADDRESS,
                    data := { datasetId := d, queryType := q8, parameter := p },
                    value := "0x" ++ String.mk (natToString 16 price) }
          | .error e, _, _ => .error e
          | _, .error e, _ => .error e
          | _, _, .error e => .error e
      | _ => .error "TypeError"

end UseContract

namespace QueryExecutor

/-- The entries of `QUERY_OPTIONS`: the query type and its `needsParam` flag. -/
def QUERY_OPTIONS : List (Nat × Bool) :=
  [(COMPUTE_MEAN, false), (COMPUTE_VARIANCE, false), (COUNT_ABOVE, true), (COUNT_BELOW, true)]

/-- The function `handleMockQuery` up to the transaction of its
`purchaseQuery(dataset.id, selectedQuery, parameter || 0)` call; `parameter` is
the text held in the parameter field. -/
def handleMockQuery (env : UseContract.QueryEnv) (datasetId selectedQuery : Int)
    (parameter : String) : Except String QueryTx :=
  UseContract.purchaseQuerySend env datasetId selectedQuery (ParamValue.text parameter).orZero

/-- The function `handleExecuteQuery` in mock mode, up to the transaction: no
query type selected, or no `purchaseQuery` function, stops with an alert;
otherwise `handleMockQuery` runs. -/
def handleExecuteQuery (env : UseContract.QueryEnv) (purchaseQuery : Bool) (datasetId : Int)
    (selectedQuery : Option Int) (parameter : String) : Except String QueryTx :=
  match selectedQuery with
  | none => .error "Please select a query type first"
  | some q =>
    if !purchaseQuery then .error "Query function not available. Please connect wallet."
    else handleMockQuery env datasetId q parameter

end QueryExecutor

namespace DataUpload

/-- The receipt polling of `handleMockUpload`: `while (!receipt && attempts <
maxAttempts)` with `maxAttempts = 60`; each round counts an attempt and reads
the receipt; a receipt with a truthy block number breaks out; otherwise the
round sleeps 2 seconds (after a read error too).  A receipt without a block
number also ends the loop, by the loop condition.  Returns the receipt the
loop ended with (`none` is `null`). -/
def receiptLoop (polls : Nat → UseContract.ReceiptPoll) : Nat → Nat → Option (Option Receipt)
  | 0, _ => none
  | fuel + 1, attempts =>
    if attempts < 60 then
      match polls attempts with
      | .ok (some receipt) => some (some receipt)
      | .ok none => receiptLoop polls fuel (attempts + 1)
      | .threw _ => receiptLoop polls fuel (attempts + 1)
    else some none

/-- The function `handleMockUpload` from the receipt polling on: no receipt
after the loop throws the timeout error, and the receipt then goes through
`handleMockUploadResult`.  `none` means the fuel ran out. -/
def handleMockUploadConfirm (fuel : Nat) (polls : Nat → UseContract.ReceiptPoll)
    (txHash : String) : Option (Except String UploadResult) :=
  match receiptLoop polls fuel 0 with
  | none => none
  | some none => some (.error ("Transaction timeout. Please check manually:\n" ++ txHash))
  | some (some receipt) => some (handleMockUploadResult receipt txHash)

end DataUpload

/-! ## Settlement -/

/-- The setting `APP_CONFIG.platformFee` (`config.js`), in percent. -/
def APP_CONFIG.platformFee : Nat := 5

/-- Modelled from the spec: the settlement calculator.  The ledger contract
that computes the split is not among the sources, which hold only the fee
percentage (`APP_CONFIG.platformFee`, `PLATFORM_FEE_PERCENT` in the ABI).  The
spec gives `providerShare = price - floor(price * platformFeePercent / 100)`
and `providerShare + platformShare == price`; the pair returned is
`(providerShare, platformShare)`. -/
def settlementSplit (price platformFeePercent : Nat) : Nat × Nat :=
  let platformShare := price * platformFeePercent / 100
  (price - platformShare, platformShare)

/-! ## `pages/MyQueries.jsx` -/

/-- The number `Number(tuple[i].toString())` read from a position of a dataset
tuple; 0 when the position holds no number. -/
def DatasetRecord.uintAt (d : DatasetRecord) (i : Nat) : Nat :=
  match d.at i with
  | some (.uint n) => n
  | _ => 0

/-- The text read from a position of a dataset tuple; empty when the position
holds no text. -/
def DatasetRecord.textAt (d : DatasetRecord) (i : Nat) : String :=
  match d.at i with
  | some (.text s) => s
  | _ => ""

namespace MyQueries

/-- The object `queryObj` built from a `getQuery` record. -/
structure QueryObj where
  id : Nat
  datasetId : Nat
  datasetName : String
  buyer : Nat
  queryType : Nat
  parameter : Nat
  result : Nat
  paidAmount : Nat
  timestamp : Nat
  status : Nat
  deriving DecidableEq, Repr

/-- The ledger reads `loadMyQueries` makes, each returning a value or throwing. -/
structure Ledger where
  getActiveDatasets : Except String (List Nat)
  getDataset : Nat → Except String DatasetRecord
  getQuery : Nat → Except String QueryRecord

/-- The object literal of `loadMyQueries`: `id` from index 0, `datasetId` from
1, `buyer` from 2, `queryType` from 3, `parameter` from 4, `result` from 5,
`paidAmount` from 6, `timestamp` from 7, `status` from 8. -/
def toQueryObj (queryResult : QueryRecord) (datasetName : String) : QueryObj :=
  { id := queryResult.at 0, datasetId := queryResult.at 1, datasetName := datasetName,
    buyer := queryResult.at 2, queryType := queryResult.at 3, parameter := queryResult.at 4,
    result := queryResult.at 5, paidAmount := queryResult.at 6, timestamp := queryResult.at 7,
    status := queryResult.at 8 }

/-- The inner loop `for (let queryId = 1; queryId <= totalQueries; queryId++)`,
from `queryId` on with `count` rounds left: read the query, keep it when its
buyer is the account, skip it when the read throws. -/
def innerLoop (ledger : Ledger) (account : Nat) (datasetName : String) :
    Nat → Nat → List QueryObj
  | _, 0 => []
  | queryId, count + 1 =>
    (match ledger.getQuery queryId with
      | .error _ => []
      | .ok queryResult =>
        if (toQueryObj queryResult datasetName).buyer = account then
          [toQueryObj queryResult datasetName]
        else []) ++ innerLoop ledger account datasetName (queryId + 1) count

/-- One round of the outer loop, for the active dataset `datasetId`: read the
dataset, take its name from index 2 and its query count from index 6, and run
the inner loop; a failed dataset read contributes nothing. -/
def datasetQueries (ledger : Ledger) (account : Nat) (datasetId : Nat) : List QueryObj :=
  match ledger.getDataset datasetId with
  | .error _ => []
  | .ok datasetResult =>
    innerLoop ledger account (datasetResult.textAt 2) 1 (datasetResult.uintAt 6)

/-- The queries collected by the outer loop over the active dataset ids. -/
def collect (ledger : Ledger) (account : Nat) : List Nat → List QueryObj
  | [] => []
  | datasetId :: rest => datasetQueries ledger account datasetId ++ collect ledger account rest

/-- The function `loadMyQueries`: the list it stores with `setQueries`, sorted
by `b.timestamp - a.timestamp`; `none` when it returns before loading (no
contract or no account). -/
def loadMyQueries (contract : Bool) (account : Option Nat) (ledger : Ledger) :
    Option (List QueryObj) :=
  match account with
  | none => none
  | some acc =>
    if !contract then none
    else
      match ledger.getActiveDatasets with
      | .error _ => some []
      | .ok activeDatasetIds =>
        some ((collect ledger acc activeDatasetIds).insertionSort
          (fun a b => b.timestamp ≤ a.timestamp))

end MyQueries

/-! ## `utils/fhevm.js` and `hooks/useContractFHE.js`: initialisation -/

namespace Fhevm

/-- The list `FHEVM_CHAIN_IDS` of `isFHEVMNetwork`. -/
def FHEVM_CHAIN_IDS : List Nat := [11155111, 8009, 9000]

/-- The function `isFHEVMNetwork(chainId)`. -/
def isFHEVMNetwork (chainId : Nat) : Bool := FHEVM_CHAIN_IDS.contains chainId

/-- The function `getFhevmInstance()`, given the module variable. -/
def getFhevmInstance (fhevmInstance : Option FhevmInstance) : Except String FhevmInstance :=
  match fhevmInstance with
  | none => .error "FHEVM instance not initialized. Call initFhevm() first."
  | some inst => .ok inst

/-- The function `initFhevm(provider, contractAddress)`, given the module
variable, what `provider.getNetwork()` gives (the chain id, or an error) and
what the library's `createInstance` gives for a chain: an existing instance is
kept; otherwise the instance created is stored; any error is caught and `null`
is returned, the module variable staying empty.  Returns the module variable
after the call, which is also the value returned. -/
def initFhevm (fhevmInstance : Option FhevmInstance) (getNetwork : Except String Nat)
    (createInstance : Nat → Except String FhevmInstance) : Option FhevmInstance :=
  match fhevmInstance with
  | some inst => some inst
  | none =>
    match getNetwork with
    | .error _ => none
    | .ok chainId =>
      match createInstance chainId with
      | .error _ => none
      | .ok inst => some inst

end Fhevm

namespace UseContractFHE

/-- The state of the `useContractFHE` hook with the module variable of
`utils/fhevm`: the fields `uploadDataset` reads, `loading`, `error` (the
message handed to `formatFHEError`) and `networkInfo` (chain id and
`isFHEVM`). -/
structure ClientState where
  hook : FheHook
  loading : Bool
  error : Option String
  networkInfo : Option (Nat × Bool)

/-- The external collaborators of `initContract`: the provider's network and
the library's `createInstance`. -/
structure InitEnv where
  getNetwork : Except String Nat
  createInstance : Nat → Except String FhevmInstance

/-- The message of the error `initContract` throws on an unsupported network. -/
def unsupportedNetworkMessage : String :=
  "当前网络不支持 FHEVM。\n请切换到支持的网络：\n- Sepolia Testnet (Chain ID: 11155111) ✅ 推荐\n- Zama Devnet (Chain ID: 8009)\n- Zama Local (Chain ID: 9000)"

/-- The function `initContract(provider, signer)`: read the network, record it,
throw on a chain that `isFHEVMNetwork` refuses, call `initFhevm` (its result
is not looked at), then store the contract binding and set `fhevmReady`.  A
thrown error is recorded and rethrown; `loading` is false at the end.  Returns
the state after the call and the error thrown, if any. -/
def initContract (s : ClientState) (env : InitEnv) : ClientState × Except String Unit :=
  match env.getNetwork with
  | .error e => ({ s with loading := false, error := some e }, .error e)
  | .ok chainId =>
    if !Fhevm.isFHEVMNetwork chainId then
      ({ s with loading := false, error := some unsupportedNetworkMessage,
                networkInfo := some (chainId, Fhevm.isFHEVMNetwork chainId) },
       .error unsupportedNetworkMessage)
    else
      ({ hook := { contract := true, fhevmReady := true,
                   fhevmInstance :=
                     Fhevm.initFhevm s.hook.fhevmInstance env.getNetwork env.createInstance },
         loading := false, error := none,
         networkInfo := some (chainId, Fhevm.isFHEVMNetwork chainId) },
       .ok ())

/-- The state of the hook before any call. -/
def initialState : ClientState :=
  { hook := { contract := false, fhevmReady := false, fhevmInstance := none },
    loading := false, error := none, networkInfo := none }

end UseContractFHE

/-! ## `utils/format.js`: `formatNumber` -/

namespace Format

/-- A word character of a regular expression (`\w`). -/
def isWordChar (c : Char) : Bool :=
  (48 ≤ c.toNat && c.toNat ≤ 57) || (65 ≤ c.toNat && c.toNat ≤ 90) ||
  (97 ≤ c.toNat && c.toNat ≤ 122) || c.toNat = 95

/-- The length of the run of decimal digits a text starts with. -/
def digitRun : List Char → Nat
  | [] => 0
  | c :: cs => if Ethers.isDigit c then digitRun cs + 1 else 0

/-- The replacement `.replace(/\B(?=(\d{3})+(?!\d))/g, ',')` from a position on,
`prev` being the character before the position: a comma is put at a position
that is not a word boundary (`\B`: the characters on both sides are both word
characters or both not) and that is followed by a positive multiple of three
digits and then no digit. -/
def insertCommas (prev : Option Char) : List Char → List Char
  | [] => []
  | c :: cs =>
    let nonBoundary : Bool :=
      (match prev with
        | some p => isWordChar p
        | none => false) == isWordChar c
    let run := digitRun (c :: cs)
    (if nonBoundary ∧ run ≠ 0 ∧ run % 3 = 0 then [','] else []) ++
      c :: insertCommas (some c) cs

/-- The argument of `formatNumber`: `null`, `undefined`, or a number that is a
non-negative integer (the callers pass counts made by `Number(x.toString())`),
given by its value. -/
inductive NumArg where
  | null
  | undefined
  | number (n : Nat)
  deriving DecidableEq, Repr

/-- The function `formatNumber(num)`: `'0'` when `!num && num !== 0`, which
holds of `null` and `undefined` and of no integer, and otherwise
`num.toString()` with the commas put in. -/
def formatNumber : NumArg → String
  | .null => "0"
  | .undefined => "0"
  | .number n => String.mk (insertCommas none (Js.numberToString n))

/-- Thousands grouping as the words describe it: going through the digits with
`r` digits left, the first digit included or not, a comma stands before a digit
that is not the first when the number of digits from it to the right end is a
multiple of three. -/
def groupThousands (first : Bool) : List Char → List Char
  | [] => []
  | c :: cs =>
    (if !first ∧ (cs.length + 1) % 3 = 0 then [','] else []) ++ c :: groupThousands false cs

end Format

/-! ## Data texts -/

/-- The texts joined by `,`. -/
def joinComma : List (List Char) → List Char
  | [] => []
  | [t] => t
  | t :: ts => t ++ ',' :: joinComma ts

/-- The decimal form of `x` with `before` spaces in front and `after` spaces
behind. -/
def spacedToken (item : Nat × Nat × Nat) : List Char :=
  List.replicate item.1 ' ' ++ natToString 10 item.2.1 ++ List.replicate item.2.2 ' '

/-! ## Example ledgers -/

/-- A dataset record for examples, with the given id, name, price and query
count. -/
def exampleDataset (id : Nat) (name : String) (price totalQueries : Nat) : DatasetRecord :=
  { id := id, owner := 9, name := name, description := "d", dataSize := 5,
    pricePerQuery := price, totalQueries := totalQueries, totalRevenue := 0, createdAt := 0,
    active := true }

/-- A query environment for examples: a contract is present, every dataset
read gives a dataset priced 1000000000000000 wei, the sender is 77. -/
def exampleQueryEnv : UseContract.QueryEnv :=
  { contract := true,
    getDataset := fun _ => .ok (exampleDataset 1 "A" 1000000000000000 0),
    signerAddress := .ok 77 }

/-- A ledger for examples: two active datasets, 1 named 'A' and 2 named 'B',
each with one query so far; query 1 was made against dataset 2 and query 2
against dataset 1, both by the account 77. -/
def exampleLedger : MyQueries.Ledger :=
  { getActiveDatasets := .ok [1, 2],
    getDataset := fun d =>
      if d = 1 then .ok (exampleDataset 1 "A" 1000 1)
      else if d = 2 then .ok (exampleDataset 2 "B" 1000 1)
      else .error "no dataset",
    getQuery := fun q =>
      if q = 1 then
        .ok { id := 1, datasetId := 2, buyer := 77, queryType := 0, parameter := 0,
              result := 200, status := 2, price := 1000, timestamp := 1700000000 }
      else if q = 2 then
        .ok { id := 2, datasetId := 1, buyer := 77, queryType := 0, parameter := 0,
              result := 5, status := 2, price := 1000, timestamp := 1700000100 }
      else .error "no query" }

end Marketplace

/-! ## Lemmas on the wait loop of `useDecryption` -/

namespace Marketplace

open UseDecryption

/-- One unfolding of the count of excess binary digits. -/
theorem Js.excessBits_succ (fuel n : Nat) :
    Js.excessBits (fuel + 1) n = if n < 2 ^ 53 then 0 else Js.excessBits fuel (n / 2) + 1 := rfl

/-- An integer below `2^53` has no binary digit beyond the 53 a double keeps. -/
theorem Js.excessBits_small (n : Nat) (h : n < 2 ^ 53) : Js.excessBits n n = 0 := by
  cases n with
  | zero => rfl
  | succ k => rw [Js.excessBits_succ, if_pos h]

/-- An integer below `2^53` is a double. -/
theorem Js.roundToDouble_exact (x : Nat) (h : x < 2 ^ 53) : Js.roundToDouble x = x := by
  unfold Js.roundToDouble
  rw [Js.excessBits_small x h]
  simp [Nat.mod_one]

/-- Cutting an integer that is at least `2^52` to its leading binary digits
leaves at least `2^52`. -/
theorem Js.excessBits_quotient (fuel : Nat) :
    ∀ n, 2 ^ 52 ≤ n → 2 ^ 52 ≤ n / 2 ^ Js.excessBits fuel n := by
  induction fuel with
  | zero =>
    intro n h
    show 2 ^ 52 ≤ n / 2 ^ 0
    rw [Nat.pow_zero, Nat.div_one]
    exact h
  | succ fuel ih =>
    intro n h
    rw [Js.excessBits_succ]
    by_cases hlt : n < 2 ^ 53
    · rw [if_pos hlt, Nat.pow_zero, Nat.div_one]
      exact h
    · rw [if_neg hlt]
      have h2 : 2 ^ 52 ≤ n / 2 := by
        have h53 : (2 : Nat) ^ 53 = 2 * 2 ^ 52 := by norm_num
        omega
      have := ih (n / 2) h2
      have hpow : 2 ^ (Js.excessBits fuel (n / 2) + 1) = 2 * 2 ^ Js.excessBits fuel (n / 2) := by
        rw [Nat.pow_succ, Nat.mul_comm]
      rw [hpow, ← Nat.div_div_eq_div_mul]
      exact this

/-- The double nearest to an integer that is at least `2^53` is at least
`2^53`. -/
theorem Js.roundToDouble_large (y : Nat) (h : 2 ^ 53 ≤ y) : 2 ^ 53 ≤ Js.roundToDouble y := by
  have hpos : y ≠ 0 := by
    intro h0
    rw [h0] at h
    exact absurd h (by decide)
  obtain ⟨k, hk⟩ := Nat.exists_eq_succ_of_ne_zero hpos
  have hnot : ¬ y < 2 ^ 53 := Nat.not_lt.mpr h
  have he : Js.excessBits y y = Js.excessBits k (y / 2) + 1 := by
    have h1 : Js.excessBits y y = Js.excessBits (k + 1) y := by rw [hk]
    rw [h1, Js.excessBits_succ, if_neg hnot]
  have h52 : (2 : Nat) ^ 52 ≤ y := le_trans (by norm_num) h
  have hq := Js.excessBits_quotient y y h52
  unfold Js.roundToDouble
  show 2 ^ 53 ≤ (if 2 ^ Js.excessBits y y < 2 * (y % 2 ^ Js.excessBits y y) ∨
      (2 * (y % 2 ^ Js.excessBits y y) = 2 ^ Js.excessBits y y ∧
        y / 2 ^ Js.excessBits y y % 2 = 1)
      then y / 2 ^ Js.excessBits y y + 1 else y / 2 ^ Js.excessBits y y) *
      2 ^ Js.excessBits y y
  generalize hE : Js.excessBits y y = e at hq he ⊢
  have hm : 2 ^ 52 ≤ (if 2 ^ e < 2 * (y % 2 ^ e) ∨ (2 * (y % 2 ^ e) = 2 ^ e ∧ y / 2 ^ e % 2 = 1)
      then y / 2 ^ e + 1 else y / 2 ^ e) := by
    split
    · exact le_trans hq (Nat.le_succ _)
    · exact hq
  have h2 : 2 ≤ 2 ^ e := by
    rw [he, Nat.pow_succ]
    have : 1 ≤ 2 ^ Js.excessBits k (y / 2) := Nat.one_le_two_pow
    omega
  calc 2 ^ 53 = 2 ^ 52 * 2 := by norm_num
    _ ≤ _ := Nat.mul_le_mul hm h2

/-- Below `2^53` the shortest decimal that reads back as `x` is `x`. -/
theorem Js.shortestDecimal_exact (x : Nat) (h : x < 2 ^ 53) :
    ∀ j, Js.shortestDecimal x j = x := by
  intro j
  induction j with
  | zero => rfl
  | succ j ih =>
    have hlo : x / 10 ^ (j + 1) * 10 ^ (j + 1) ≤ x := Nat.div_mul_le_self x _
    have hpos : 0 < 10 ^ (j + 1) := Nat.pow_pos (by decide)
    have hhi : x < x / 10 ^ (j + 1) * 10 ^ (j + 1) + 10 ^ (j + 1) := by
      have := Nat.lt_div_mul_add hpos (a := x)
      exact this
    have hrlo : Js.roundToDouble (x / 10 ^ (j + 1) * 10 ^ (j + 1)) =
        x / 10 ^ (j + 1) * 10 ^ (j + 1) :=
      Js.roundToDouble_exact _ (lt_of_le_of_lt hlo h)
    have hrhi : ¬ Js.roundToDouble (x / 10 ^ (j + 1) * 10 ^ (j + 1) + 10 ^ (j + 1)) = x := by
      intro hc
      by_cases hb : x / 10 ^ (j + 1) * 10 ^ (j + 1) + 10 ^ (j + 1) < 2 ^ 53
      · rw [Js.roundToDouble_exact _ hb] at hc
        omega
      · have := Js.roundToDouble_large _ (Nat.not_lt.mp hb)
        omega
    unfold Js.shortestDecimal
    simp only [hrlo, hrhi, decide_False, Bool.and_false, Bool.false_eq_true, if_false, ih]
    split
    · rename_i heq
      exact of_decide_eq_true heq
    · rfl

/-- Below `2^53` the number prints as its decimal digits. -/
theorem Js.numberToString_exact (x : Nat) (h : x < 2 ^ 53) :
    Js.numberToString x = natToString 10 x := by
  unfold Js.numberToString
  simp only [Js.shortestDecimal_exact x h]
  have : x < 10 ^ 21 := lt_trans h (by norm_num)
  rw [if_pos this]

/-- Every integer up to `2^53` is a double: the conversion to a number leaves
it as it is. -/
theorem Js.toNumber_exact (x : Nat) (h : x ≤ 2 ^ 53) : Js.toNumber x = x := by
  rcases Nat.lt_or_eq_of_le h with hlt | heq
  · exact Js.roundToDouble_exact x hlt
  · subst heq
    decide

@[simp] theorem QueryRecord.at_six (q : QueryRecord) : q.at 6 = q.status := rfl

@[simp] theorem QueryRecord.at_five (q : QueryRecord) : q.at 5 = q.result := rfl

/-- One unfolding of the hook's loop when the budget is used up. -/
theorem waitLoop_exhausted (polls : Nat → PollOutcome) (m iv fuel : Nat) (s : LoopState)
    (h : ¬ s.attempts < m) :
    waitLoop polls m iv (fuel + 1) s = some (s.finish (.error .queryTimeout)) := by
  simp only [waitLoop, h, if_false]

/-- One unfolding of the hook's loop on a poll that does not show `COMPLETED`,
when it is not the last attempt: the loop sleeps and goes on, whatever the
poll showed. -/
theorem waitLoop_retry (polls : Nat → PollOutcome) (m iv fuel : Nat) (s : LoopState)
    (h : s.attempts + 1 < m) (hc : (polls s.reads).isCompleted = false) :
    waitLoop polls m iv (fuel + 1) s = waitLoop polls m iv fuel (s.afterReadAndWait iv) := by
  have h1 : s.attempts < m := by omega
  have h2 : s.attempts < m - 1 := by omega
  cases hp : polls s.reads with
  | ok q =>
    have hq : ¬ q.status = 2 := by
      simpa [PollOutcome.isCompleted, hp, COMPLETED] using hc
    simp only [waitLoop, h1, h2, if_true, hp, QueryRecord.at_six, hq, if_false]
    split <;> rfl
  | threw c =>
    simp only [waitLoop, h1, h2, if_true, hp]

/-- One unfolding of the hook's loop on a poll that shows a non-terminal
status: the loop sleeps and goes on, on the last attempt too. -/
theorem waitLoop_pending (polls : Nat → PollOutcome) (m iv fuel : Nat) (s : LoopState)
    (h : s.attempts < m) (hc : (polls s.reads).isNonTerminalStatus = true) :
    waitLoop polls m iv (fuel + 1) s = waitLoop polls m iv fuel (s.afterReadAndWait iv) := by
  cases hp : polls s.reads with
  | ok q =>
    have hq : q.status = 0 ∨ q.status = 1 := by
      simpa [PollOutcome.isNonTerminalStatus, hp, PENDING, PROCESSING] using hc
    have h2 : ¬ q.status = 2 := by omega
    have h3 : ¬ (q.status = 3 ∨ q.status = 4) := by omega
    simp only [waitLoop, h, if_true, hp, QueryRecord.at_six, h2, h3, if_false]
  | threw c =>
    simp [PollOutcome.isNonTerminalStatus, hp] at hc

/-- One unfolding of the hook's loop on a read error at the last attempt: the
error is rethrown. -/
theorem waitLoop_last_error (polls : Nat → PollOutcome) (m iv fuel : Nat) (s : LoopState)
    (h : s.attempts + 1 = m) (c : Nat) (hp : polls s.reads = .threw c) :
    waitLoop polls m iv (fuel + 1) s = some (s.finishAfterRead (.error (.readError c))) := by
  have h1 : s.attempts < m := by omega
  have h2 : ¬ s.attempts < m - 1 := by omega
  simp only [waitLoop, h1, h2, if_true, if_false, hp]

/-- One unfolding of the hook's loop on a poll that shows `COMPLETED`. -/
theorem waitLoop_completed (polls : Nat → PollOutcome) (m iv fuel : Nat) (s : LoopState)
    (h : s.attempts < m) (q : QueryRecord) (hp : polls s.reads = .ok q) (hq : q.status = 2) :
    waitLoop polls m iv (fuel + 1) s =
      some (s.finishAfterRead (.ok (Js.toNumber q.result))) := by
  simp only [waitLoop, h, if_true, hp, QueryRecord.at_six, QueryRecord.at_five, hq]

/-- The hook's loop always ends, whatever the polls show: with fuel for the
attempts that remain it returns a result, having made at most that many
further reads and sleeps, each sleep lasting `iv`; and it returns a value only
from a poll that showed `COMPLETED`, the value being the result field
converted to a number. -/
theorem waitLoop_total (polls : Nat → PollOutcome) (m iv : Nat) :
    ∀ (fuel : Nat) (s : LoopState), m - s.attempts < fuel →
      ∃ r, waitLoop polls m iv fuel s = some r ∧
        r.reads ≤ s.reads + (m - s.attempts) ∧
        s.waits ≤ r.waits ∧ r.waits ≤ s.waits + (m - s.attempts) ∧
        r.waitedMs = s.waitedMs + (r.waits - s.waits) * iv ∧
        (∀ v, r.outcome = .ok v →
          ∃ k q, polls k = .ok q ∧ q.status = 2 ∧ Js.toNumber q.result = v) := by
  intro fuel
  induction fuel with
  | zero => intro s h; omega
  | succ fuel ih =>
    intro s hfuel
    by_cases hlt : s.attempts < m
    · -- the step either finishes after this read or goes on from the next state
      have hnext : m - (s.afterReadAndWait iv).attempts < fuel := by
        simp only [LoopState.afterReadAndWait]; omega
      obtain ⟨r, hr, hreads, hw1, hw2, hms, hok⟩ := ih (s.afterReadAndWait iv) hnext
      simp only [LoopState.afterReadAndWait] at hreads hw1 hw2 hms
      have goOn : waitLoop polls m iv (fuel + 1) s
            = waitLoop polls m iv fuel (s.afterReadAndWait iv) →
          ∃ r, waitLoop polls m iv (fuel + 1) s = some r ∧
            r.reads ≤ s.reads + (m - s.attempts) ∧
            s.waits ≤ r.waits ∧ r.waits ≤ s.waits + (m - s.attempts) ∧
            r.waitedMs = s.waitedMs + (r.waits - s.waits) * iv ∧
            (∀ v, r.outcome = .ok v →
          ∃ k q, polls k = .ok q ∧ q.status = 2 ∧ Js.toNumber q.result = v) := by
        intro heq
        refine ⟨r, by rw [heq, hr], by omega, by omega, by omega, ?_, hok⟩
        have e : r.waits - s.waits = (r.waits - (s.waits + 1)) + 1 := by omega
        rw [hms, e, Nat.add_mul]; omega
      have stop : ∀ e : WaitError, waitLoop polls m iv (fuel + 1) s
            = some (s.finishAfterRead (.error e)) →
          ∃ r, waitLoop polls m iv (fuel + 1) s = some r ∧
            r.reads ≤ s.reads + (m - s.attempts) ∧
            s.waits ≤ r.waits ∧ r.waits ≤ s.waits + (m - s.attempts) ∧
            r.waitedMs = s.waitedMs + (r.waits - s.waits) * iv ∧
            (∀ v, r.outcome = .ok v →
          ∃ k q, polls k = .ok q ∧ q.status = 2 ∧ Js.toNumber q.result = v) := by
        intro e heq
        refine ⟨_, heq, ?_, ?_, ?_, ?_, ?_⟩ <;> simp [LoopState.finishAfterRead]
        omega
      cases hp : polls s.reads with
      | ok q =>
        by_cases hq : q.status = 2
        · refine ⟨_, waitLoop_completed polls m iv fuel s hlt q hp hq, ?_, ?_, ?_, ?_, ?_⟩
          · simp only [LoopState.finishAfterRead]; omega
          · simp [LoopState.finishAfterRead]
          · simp [LoopState.finishAfterRead]
          · simp [LoopState.finishAfterRead]
          · intro v hv
            simp only [LoopState.finishAfterRead, Except.ok.injEq] at hv
            exact ⟨s.reads, q, hp, hq, hv⟩
        · by_cases hlast : s.attempts < m - 1
          · exact goOn (waitLoop_retry polls m iv fuel s (by omega)
              (by simp [PollOutcome.isCompleted, hp, COMPLETED, hq]))
          · by_cases h34 : q.status = 3 ∨ q.status = 4
            · apply stop (if q.status = 3 then .queryFailed else .queryRefunded)
              simp only [waitLoop, hlt, hlast, if_true, if_false, hp, QueryRecord.at_six, hq, h34]
            · apply goOn
              simp only [waitLoop, hlt, if_true, if_false, hp, QueryRecord.at_six, hq, h34]
      | threw c =>
        by_cases hlast : s.attempts < m - 1
        · exact goOn (waitLoop_retry polls m iv fuel s (by omega)
            (by simp [PollOutcome.isCompleted, hp]))
        · exact stop _ (waitLoop_last_error polls m iv fuel s (by omega) c hp)
    · refine ⟨_, waitLoop_exhausted polls m iv fuel s hlt, ?_, ?_, ?_, ?_, ?_⟩ <;>
        simp [LoopState.finish]

/-- The hook's loop reaches the first poll that shows `COMPLETED`: every
earlier poll, whatever it showed, costs one read and one sleep. -/
theorem waitLoop_first_completed (polls : Nat → PollOutcome) (m iv k : Nat) (q : QueryRecord)
    (hk : k < m) (hp : polls k = .ok q) (hq : q.status = 2) :
    ∀ (fuel : Nat) (s : LoopState), s.reads = s.attempts → s.attempts ≤ k →
      k - s.attempts < fuel →
      (∀ j, s.attempts ≤ j → j < k → (polls j).isCompleted = false) →
      waitLoop polls m iv fuel s = some
        { outcome := .ok (Js.toNumber q.result), reads := k + 1,
          waits := s.waits + (k - s.attempts),
          waitedMs := s.waitedMs + (k - s.attempts) * iv } := by
  intro fuel
  induction fuel with
  | zero => intro s _ _ h; omega
  | succ fuel ih =>
    intro s hra hle hfuel hbefore
    by_cases hek : s.attempts = k
    · have hp2 : polls s.reads = .ok q := by rw [hra, hek]; exact hp
      rw [waitLoop_completed polls m iv fuel s (by omega) q hp2 hq]
      simp [LoopState.finishAfterRead, hra, hek]
    · have hc : (polls s.reads).isCompleted = false := by
        rw [hra]; exact hbefore s.attempts (Nat.le_refl _) (by omega)
      rw [waitLoop_retry polls m iv fuel s (by omega) hc]
      have hrec := ih (s.afterReadAndWait iv)
        (by simp [LoopState.afterReadAndWait, hra])
        (by simp only [LoopState.afterReadAndWait]; omega)
        (by simp only [LoopState.afterReadAndWait]; omega)
        (by
          intro j hj hjk
          simp only [LoopState.afterReadAndWait] at hj
          exact hbefore j (by omega) hjk)
      rw [hrec]
      simp only [LoopState.afterReadAndWait]
      have e : k - s.attempts = (k - (s.attempts + 1)) + 1 := by omega
      rw [e, Nat.add_mul]
      congr 2 <;> omega

/-- When none of the `m` polls shows a terminal status and the last of them
shows a status, the hook's loop makes exactly `m` reads and `m` sleeps and
fails with the timeout error. -/
theorem waitLoop_timeout (polls : Nat → PollOutcome) (m iv : Nat)
    (hpolls : ∀ k, k < m → (polls k).isNonTerminalStatus = true ∨ (polls k).isReadError = true)
    (hlast : ∀ k, k + 1 = m → (polls k).isNonTerminalStatus = true) :
    ∀ (fuel : Nat) (s : LoopState), s.reads = s.attempts → s.attempts ≤ m →
      m - s.attempts < fuel →
      waitLoop polls m iv fuel s = some
        { outcome := .error .queryTimeout, reads := m, waits := s.waits + (m - s.attempts),
          waitedMs := s.waitedMs + (m - s.attempts) * iv } := by
  intro fuel
  induction fuel with
  | zero => intro s _ _ h; omega
  | succ fuel ih =>
    intro s hra hle hfuel
    by_cases hlt : s.attempts < m
    · have hstep : waitLoop polls m iv (fuel + 1) s
          = waitLoop polls m iv fuel (s.afterReadAndWait iv) := by
        by_cases hl : s.attempts + 1 = m
        · exact waitLoop_pending polls m iv fuel s hlt (by rw [hra]; exact hlast _ hl)
        · apply waitLoop_retry polls m iv fuel s (by omega)
          rcases hpolls s.attempts hlt with h | h
          · rw [hra]
            cases hp : polls s.attempts with
            | ok q =>
              simp only [PollOutcome.isNonTerminalStatus, hp, PENDING, PROCESSING,
                Bool.or_eq_true, beq_iff_eq] at h
              simp only [PollOutcome.isCompleted, COMPLETED, beq_eq_false_iff_ne]
              omega
            | threw c => rfl
          · rw [hra]
            cases hp : polls s.attempts with
            | ok q => simp [PollOutcome.isReadError, hp] at h
            | threw c => rfl
      rw [hstep, ih (s.afterReadAndWait iv) (by simp [LoopState.afterReadAndWait, hra])
        (by simp only [LoopState.afterReadAndWait]; omega)
        (by simp only [LoopState.afterReadAndWait]; omega)]
      simp only [LoopState.afterReadAndWait]
      have e : m - s.attempts = (m - (s.attempts + 1)) + 1 := by omega
      rw [e, Nat.add_mul]
      congr 2 <;> omega
    · rw [waitLoop_exhausted polls m iv fuel s hlt]
      have e : m - s.attempts = 0 := by omega
      simp [LoopState.finish, e, hra]
      omega

/-- When none of the `m` polls shows a terminal status and the last of them
raises a read error, the hook's loop makes `m` reads and `m - 1` sleeps and
fails with that read error. -/
theorem waitLoop_last_read_error (polls : Nat → PollOutcome) (m iv c : Nat)
    (hpolls : ∀ k, k < m → (polls k).isNonTerminalStatus = true ∨ (polls k).isReadError = true)
    (hlast : ∀ k, k + 1 = m → polls k = .threw c) :
    ∀ (fuel : Nat) (s : LoopState), s.reads = s.attempts → s.attempts < m →
      m - s.attempts < fuel →
      waitLoop polls m iv fuel s = some
        { outcome := .error (.readError c), reads := m,
          waits := s.waits + (m - 1 - s.attempts),
          waitedMs := s.waitedMs + (m - 1 - s.attempts) * iv } := by
  intro fuel
  induction fuel with
  | zero => intro s _ _ h; omega
  | succ fuel ih =>
    intro s hra hlt hfuel
    by_cases hl : s.attempts + 1 = m
    · rw [waitLoop_last_error polls m iv fuel s hl c (by rw [hra]; exact hlast _ hl)]
      have e : m - 1 - s.attempts = 0 := by omega
      simp [LoopState.finishAfterRead, e, hra, hl]
    · have hstep : waitLoop polls m iv (fuel + 1) s
          = waitLoop polls m iv fuel (s.afterReadAndWait iv) := by
        apply waitLoop_retry polls m iv fuel s (by omega)
        rcases hpolls s.attempts hlt with h | h
        · rw [hra]
          cases hp : polls s.attempts with
          | ok q =>
            simp only [PollOutcome.isNonTerminalStatus, hp, PENDING, PROCESSING,
              Bool.or_eq_true, beq_iff_eq] at h
            simp only [PollOutcome.isCompleted, COMPLETED, beq_eq_false_iff_ne]
            omega
          | threw c => rfl
        · rw [hra]
          cases hp : polls s.attempts with
          | ok q => simp [PollOutcome.isReadError, hp] at h
          | threw c => rfl
      rw [hstep, ih (s.afterReadAndWait iv) (by simp [LoopState.afterReadAndWait, hra])
        (by simp only [LoopState.afterReadAndWait]; omega)
        (by simp only [LoopState.afterReadAndWait]; omega)]
      simp only [LoopState.afterReadAndWait]
      have e : m - 1 - s.attempts = (m - 1 - (s.attempts + 1)) + 1 := by omega
      rw [e, Nat.add_mul]
      congr 2 <;> omega

/-- A `bigint` is never strictly equal to a number. -/
theorem Js.bigint_ne_number (a b : Nat) :
    (Js.Value.bigint a).strictEquals (.number b) = false := rfl

/-- One unfolding of the loop of `utils/fhevm` on a poll that gives a record,
whatever its status: none of the three comparisons holds, so the loop sleeps
and goes on. -/
theorem requestLoop_record (polls : Nat → PollOutcome) (m iv fuel : Nat) (s : LoopState)
    (h : s.attempts < m) (q : QueryRecord) (hp : polls s.reads = .ok q) :
    Fhevm.requestLoop polls m iv (fuel + 1) s =
      Fhevm.requestLoop polls m iv fuel (s.afterReadAndWait iv) := by
  simp only [Fhevm.requestLoop, h, if_true, hp, Js.bigint_ne_number, Bool.false_eq_true,
    if_false]

/-- When every one of the `m` polls gives a record, whatever status it shows,
the loop of `utils/fhevm` makes exactly `m` reads and `m` sleeps and fails
with its timeout error. -/
theorem requestLoop_records (polls : Nat → PollOutcome) (m iv : Nat)
    (hpolls : ∀ k, k < m → (polls k).isReadError = false) :
    ∀ (fuel : Nat) (s : LoopState), s.reads = s.attempts → s.attempts ≤ m →
      m - s.attempts < fuel →
      Fhevm.requestLoop polls m iv fuel s = some
        { outcome := .error .decryptionTimeout, reads := m,
          waits := s.waits + (m - s.attempts),
          waitedMs := s.waitedMs + (m - s.attempts) * iv } := by
  intro fuel
  induction fuel with
  | zero => intro s _ _ h; omega
  | succ fuel ih =>
    intro s hra hle hfuel
    by_cases hlt : s.attempts < m
    · have hstep : Fhevm.requestLoop polls m iv (fuel + 1) s
          = Fhevm.requestLoop polls m iv fuel (s.afterReadAndWait iv) := by
        have h := hpolls s.attempts hlt
        rw [← hra] at h
        cases hp : polls s.reads with
        | ok q => exact requestLoop_record polls m iv fuel s hlt q hp
        | threw c => simp [PollOutcome.isReadError, hp] at h
      rw [hstep, ih (s.afterReadAndWait iv) (by simp [LoopState.afterReadAndWait, hra])
        (by simp only [LoopState.afterReadAndWait]; omega)
        (by simp only [LoopState.afterReadAndWait]; omega)]
      simp only [LoopState.afterReadAndWait]
      have e : m - s.attempts = (m - (s.attempts + 1)) + 1 := by omega
      rw [e, Nat.add_mul]
      congr 2 <;> omega
    · have e : m - s.attempts = 0 := by omega
      simp [Fhevm.requestLoop, hlt, LoopState.finish, e, hra]
      omega

/-- When every one of the `m` polls shows a non-terminal status, the loop of
`utils/fhevm` makes exactly `m` reads and `m` sleeps and fails with its
timeout error. -/
theorem requestLoop_timeout (polls : Nat → PollOutcome) (m iv : Nat)
    (hpolls : ∀ k, k < m → (polls k).isNonTerminalStatus = true) :
    ∀ (fuel : Nat) (s : LoopState), s.reads = s.attempts → s.attempts ≤ m →
      m - s.attempts < fuel →
      Fhevm.requestLoop polls m iv fuel s = some
        { outcome := .error .decryptionTimeout, reads := m,
          waits := s.waits + (m - s.attempts),
          waitedMs := s.waitedMs + (m - s.attempts) * iv } :=
  requestLoop_records polls m iv (fun k hk => by
    have h := hpolls k hk
    cases hp : polls k with
    | ok q => rfl
    | threw c => simp [PollOutcome.isNonTerminalStatus, hp] at h)

/-- The loop of `utils/fhevm` never returns a result and never fails with
'Query failed' or 'Query refunded': whatever the polls show, it ends with its
timeout error or with a read error. -/
theorem requestLoop_never_completes (polls : Nat → PollOutcome) (m iv : Nat) :
    ∀ (fuel : Nat) (s : LoopState) (r : WaitResult),
      Fhevm.requestLoop polls m iv fuel s = some r →
      r.outcome = .error .decryptionTimeout ∨ ∃ c, r.outcome = .error (.readError c) := by
  intro fuel
  induction fuel with
  | zero => intro s r h; cases h
  | succ fuel ih =>
    intro s r h
    by_cases hlt : s.attempts < m
    · cases hp : polls s.reads with
      | ok q =>
        rw [requestLoop_record polls m iv fuel s hlt q hp] at h
        exact ih _ r h
      | threw c =>
        simp only [Fhevm.requestLoop, hlt, if_true, hp, Option.some.injEq] at h
        subst h
        exact Or.inr ⟨c, rfl⟩
    · simp only [Fhevm.requestLoop, hlt, if_false, Option.some.injEq] at h
      subst h
      exact Or.inl rfl

/-! ## The result-wait claims -/

/-- C1 (the code departs from the claim).  With a budget of two attempts, a
first poll that shows `FAILED` (respectively `REFUNDED`) does not stop the
wait of `useDecryption.waitForQueryResult`: the error thrown inside the `try`
is caught by the loop's own `catch`, the loop sleeps, reads the record a
second time and, the second poll showing `COMPLETED`, returns success. -/
theorem waitForQueryResult_polls_again_after_failed :
    waitForQueryResult 3 true
        (pollsOf [.ok (mkRecord FAILED 0), .ok (mkRecord COMPLETED 7)]) (some 2) (some 2000)
      = some { outcome := .ok 7, reads := 2, waits := 1, waitedMs := 2000 } ∧
    waitForQueryResult 3 true
        (pollsOf [.ok (mkRecord REFUNDED 0), .ok (mkRecord COMPLETED 7)]) (some 2) (some 2000)
      = some { outcome := .ok 7, reads := 2, waits := 1, waitedMs := 2000 } := by
  decide

/-- C2.  `useDecryption.waitForQueryResult` always terminates: for every
attempt budget and every sequence of polls each of which shows a non-terminal
status or raises a read error, the call (given fuel beyond the budget) ends,
after at most `maxAttempts` reads and at most `maxAttempts` sleeps of
`interval` each, and it ends in failure. -/
theorem waitForQueryResult_terminates (contract : Bool) (polls : Nat → PollOutcome)
    (maxAttempts interval fuel : Nat)
    (hpolls : ∀ k, (polls k).isNonTerminalStatus = true ∨ (polls k).isReadError = true)
    (hfuel : maxAttempts < fuel) :
    ∃ r, waitForQueryResult fuel contract polls (some maxAttempts) (some interval) = some r ∧
      r.reads ≤ maxAttempts ∧ r.waits ≤ maxAttempts ∧ r.waitedMs = r.waits * interval ∧
      ∃ e, r.outcome = .error e := by
  cases contract with
  | false => exact ⟨_, rfl, by simp, by simp, by simp, _, rfl⟩
  | true =>
    obtain ⟨r, hr, hreads, _, hw, hms, hok⟩ :=
      waitLoop_total polls maxAttempts interval fuel
        { attempts := 0, reads := 0, waits := 0, waitedMs := 0 } (by simpa using hfuel)
    refine ⟨r, ?_, by simpa using hreads, by simpa using hw, by simpa using hms, ?_⟩
    · simpa [waitForQueryResult] using hr
    · cases ho : r.outcome with
      | error e => exact ⟨e, rfl⟩
      | ok v =>
        obtain ⟨k, q, hp, hq, _⟩ := hok v ho
        rcases hpolls k with h | h
        · simp only [PollOutcome.isNonTerminalStatus, hp, PENDING, PROCESSING,
            Bool.or_eq_true, beq_iff_eq] at h
          omega
        · simp [PollOutcome.isReadError, hp] at h

/-- C2, at a concrete input: budget 3, interval 2000 ms, a ledger that shows
`PENDING` for ever. -/
theorem waitForQueryResult_terminates_witness :
    ∃ r, waitForQueryResult 4 true (pollsOf []) (some 3) (some 2000) = some r ∧
      r.reads ≤ 3 ∧ r.waits ≤ 3 ∧ r.waitedMs = r.waits * 2000 ∧
      ∃ e, r.outcome = .error e :=
  waitForQueryResult_terminates true (pollsOf []) 3 2000 4
    (fun _ => Or.inl (by simp [pollsOf, PollOutcome.isNonTerminalStatus, mkRecord]))
    (by decide)

/-- C3 (as stated, fails).  Budget 1, the only poll raises a read error: no
poll has shown a terminal status and the budget is exhausted, yet the call
fails with the read error, not with the timeout error. -/
theorem waitForQueryResult_last_read_error_is_not_timeout :
    (pollsOf [.threw 9] 0).isReadError = true ∧
    waitForQueryResult 2 true (pollsOf [.threw 9]) (some 1) (some 2000)
      = some { outcome := .error (.readError 9), reads := 1, waits := 0, waitedMs := 0 } ∧
    waitForQueryResult 2 true (pollsOf [.threw 9]) (some 1) (some 2000)
      ≠ some { outcome := .error .queryTimeout, reads := 1, waits := 0, waitedMs := 0 } := by
  decide

/-- C3 (amended).  When none of the `maxAttempts` polls shows a terminal
status (each shows a non-terminal status or raises a read error), the call
makes exactly `maxAttempts` reads and then fails: with the timeout error when
the last poll showed a status (or the budget is zero), after `maxAttempts`
sleeps; with the read error of the last poll, rethrown unchanged, when the last
poll raised one, after `maxAttempts - 1` sleeps. -/
theorem waitForQueryResult_budget_exhausted (polls : Nat → PollOutcome)
    (maxAttempts interval fuel : Nat) (hfuel : maxAttempts < fuel)
    (hpolls : ∀ k, k < maxAttempts →
      (polls k).isNonTerminalStatus = true ∨ (polls k).isReadError = true) :
    ((∀ k, k + 1 = maxAttempts → (polls k).isNonTerminalStatus = true) →
      waitForQueryResult fuel true polls (some maxAttempts) (some interval) = some
        { outcome := .error .queryTimeout, reads := maxAttempts, waits := maxAttempts,
          waitedMs := maxAttempts * interval }) ∧
    (∀ c, 0 < maxAttempts → (∀ k, k + 1 = maxAttempts → polls k = .threw c) →
      waitForQueryResult fuel true polls (some maxAttempts) (some interval) = some
        { outcome := .error (.readError c), reads := maxAttempts, waits := maxAttempts - 1,
          waitedMs := (maxAttempts - 1) * interval }) := by
  constructor
  · intro hlast
    have h := waitLoop_timeout polls maxAttempts interval hpolls hlast fuel
      { attempts := 0, reads := 0, waits := 0, waitedMs := 0 } rfl (Nat.zero_le _)
      (by simpa using hfuel)
    simpa [waitForQueryResult] using h
  · intro c hpos hlast
    have h := waitLoop_last_read_error polls maxAttempts interval c hpolls hlast fuel
      { attempts := 0, reads := 0, waits := 0, waitedMs := 0 } rfl hpos
      (by simpa using hfuel)
    simpa [waitForQueryResult] using h

/-- C3 (amended), at a concrete input: budget 2, a read error and then a
`PENDING` record give the timeout error after two reads and two sleeps. -/
theorem waitForQueryResult_budget_exhausted_witness :
    waitForQueryResult 3 true (pollsOf [.threw 9]) (some 2) (some 2000) = some
      { outcome := .error .queryTimeout, reads := 2, waits := 2, waitedMs := 2 * 2000 } :=
  (waitForQueryResult_budget_exhausted (pollsOf [.threw 9]) 2 2000 3 (by decide)
    (by decide)).1 (fun k hk => by
      have hk1 : k = 1 := by omega
      subst hk1
      decide)

/-- C4 (as stated, fails).  The first read shows `COMPLETED` with the result
field `2^53 + 1 = 9007199254740993`; the call returns `9007199254740992`, the
nearest double, which is not the record's result field. -/
theorem waitForQueryResult_rounds_result :
    (mkRecord COMPLETED 9007199254740993).at 6 = COMPLETED ∧
    (mkRecord COMPLETED 9007199254740993).at 5 = 9007199254740993 ∧
    (mkRecord COMPLETED 9007199254740993).at 5 < 2 ^ 256 ∧
    waitForQueryResult 1 true (pollsOf [.ok (mkRecord COMPLETED 9007199254740993)])
        (some 10) (some 2000)
      = some { outcome := .ok 9007199254740992, reads := 1, waits := 0, waitedMs := 0 } ∧
    waitForQueryResult 1 true (pollsOf [.ok (mkRecord COMPLETED 9007199254740993)])
        (some 10) (some 2000)
      ≠ some { outcome := .ok ((mkRecord COMPLETED 9007199254740993).at 5), reads := 1,
               waits := 0, waitedMs := 0 } := by
  decide

/-- C4 (amended).  If the first read shows `COMPLETED`, the call returns, after
exactly one read and no sleep, the number `Number(result.toString())` made of
the record's result field (tuple index 5): the double nearest to it.  In
general, when the first poll that shows `COMPLETED` is the `k`-th (counted from
`0`) and lies within the budget, the call returns the number made of the result
field of that poll, after `k + 1` reads and `k` sleeps.  The number is the
result field itself whenever that is at most `2^53`. -/
theorem waitForQueryResult_returns_first_completed (polls : Nat → PollOutcome)
    (maxAttempts interval fuel : Nat) :
    (∀ q, 1 ≤ maxAttempts → 0 < fuel → polls 0 = .ok q → q.at 6 = COMPLETED →
      waitForQueryResult fuel true polls (some maxAttempts) (some interval) = some
        { outcome := .ok (Js.toNumber (q.at 5)), reads := 1, waits := 0, waitedMs := 0 } ∧
      (q.at 5 ≤ 2 ^ 53 →
        waitForQueryResult fuel true polls (some maxAttempts) (some interval) = some
          { outcome := .ok (q.at 5), reads := 1, waits := 0, waitedMs := 0 })) ∧
    (∀ k q, k < maxAttempts → k < fuel → polls k = .ok q → q.at 6 = COMPLETED →
      (∀ j, j < k → (polls j).isCompleted = false) →
      waitForQueryResult fuel true polls (some maxAttempts) (some interval) = some
        { outcome := .ok (Js.toNumber (q.at 5)), reads := k + 1, waits := k,
          waitedMs := k * interval } ∧
      (q.at 5 ≤ 2 ^ 53 →
        waitForQueryResult fuel true polls (some maxAttempts) (some interval) = some
          { outcome := .ok (q.at 5), reads := k + 1, waits := k,
            waitedMs := k * interval })) := by
  have general : ∀ k q, k < maxAttempts → k < fuel → polls k = .ok q → q.at 6 = COMPLETED →
      (∀ j, j < k → (polls j).isCompleted = false) →
      waitForQueryResult fuel true polls (some maxAttempts) (some interval) = some
        { outcome := .ok (Js.toNumber (q.at 5)), reads := k + 1, waits := k,
          waitedMs := k * interval } := by
    intro k q hk hfuel hp hq hfirst
    have h := waitLoop_first_completed polls maxAttempts interval k q hk hp hq fuel
      { attempts := 0, reads := 0, waits := 0, waitedMs := 0 } rfl (Nat.zero_le _)
      (by simpa using hfuel) (fun j _ hj => hfirst j hj)
    simpa [waitForQueryResult] using h
  constructor
  · intro q hm hfuel hp hq
    have h := general 0 q (by omega) hfuel hp hq (fun j hj => absurd hj (Nat.not_lt_zero j))
    have h0 : waitForQueryResult fuel true polls (some maxAttempts) (some interval) = some
        { outcome := .ok (Js.toNumber (q.at 5)), reads := 1, waits := 0, waitedMs := 0 } := by
      simpa using h
    refine ⟨h0, fun hle => ?_⟩
    rw [h0, Js.toNumber_exact (q.at 5) hle]
  · intro k q hk hfuel hp hq hfirst
    have h := general k q hk hfuel hp hq hfirst
    refine ⟨h, fun hle => ?_⟩
    rw [h, Js.toNumber_exact (q.at 5) hle]

/-- C4 (amended), at concrete inputs: the mock ledger shows `COMPLETED` with
result 200 on the first read; and it shows `COMPLETED` with result 200 on the
third read, after a `PENDING` record and a read error. -/
theorem waitForQueryResult_returns_first_completed_witness :
    waitForQueryResult 1 true (pollsOf [.ok (mkRecord COMPLETED 200)]) (some 10) (some 2000)
      = some { outcome := .ok 200, reads := 1, waits := 0, waitedMs := 0 } ∧
    waitForQueryResult 3 true
        (pollsOf [.ok (mkRecord PENDING 0), .threw 9, .ok (mkRecord COMPLETED 200)])
        (some 10) (some 2000)
      = some { outcome := .ok 200, reads := 2 + 1, waits := 2, waitedMs := 2 * 2000 } :=
  ⟨((waitForQueryResult_returns_first_completed (pollsOf [.ok (mkRecord COMPLETED 200)])
      10 2000 1).1 (mkRecord COMPLETED 200) (by decide) (by decide) rfl rfl).2 (by decide),
   ((waitForQueryResult_returns_first_completed
      (pollsOf [.ok (mkRecord PENDING 0), .threw 9, .ok (mkRecord COMPLETED 200)])
      10 2000 3).2 2 (mkRecord COMPLETED 200) (by decide) (by decide) rfl rfl
      (fun j hj => by
        have hj2 : j = 0 ∨ j = 1 := by omega
        rcases hj2 with h | h <;> subst h <;> decide)).2 (by decide)⟩

/-- C5 (the code departs from the claim).  With the same budget of two
attempts the two wait loops end differently on the same polls.  On a ledger
that shows `COMPLETED` with result 42 on every read the hook returns 42 after
one read, while `utils/fhevm.requestDecryption`, which compares the `bigint`
status with the number 2, never sees the completion: it reads twice, sleeps
twice and fails with its timeout error (after 60 reads with its own budget).
On a read error followed by a `COMPLETED` record the hook retries and returns
the result after two reads, while `utils/fhevm.requestDecryption` fails with
the read error after one read.  On a `FAILED` record followed by a `COMPLETED`
record the hook returns the result and `utils/fhevm.requestDecryption` times
out. -/
theorem wait_loops_differ :
    waitForQueryResult 3 true (fun _ => .ok (mkRecord COMPLETED 42)) (some 2) (some 2000)
      = some { outcome := .ok 42, reads := 1, waits := 0, waitedMs := 0 } ∧
    Fhevm.requestDecryptionWith 3 (fun _ => .ok (mkRecord COMPLETED 42)) 2 2000
      = some { outcome := .error .decryptionTimeout, reads := 2, waits := 2,
               waitedMs := 4000 } ∧
    Fhevm.requestDecryption 61 (fun _ => .ok (mkRecord COMPLETED 42))
      = some { outcome := .error .decryptionTimeout, reads := 60, waits := 60,
               waitedMs := 120000 } ∧
    waitForQueryResult 3 true
        (pollsOf [.threw 9, .ok (mkRecord COMPLETED 42)]) (some 2) (some 2000)
      = some { outcome := .ok 42, reads := 2, waits := 1, waitedMs := 2000 } ∧
    Fhevm.requestDecryptionWith 3
        (pollsOf [.threw 9, .ok (mkRecord COMPLETED 42)]) 2 2000
      = some { outcome := .error (.readError 9), reads := 1, waits := 0, waitedMs := 0 } ∧
    waitForQueryResult 3 true
        (pollsOf [.ok (mkRecord FAILED 0), .ok (mkRecord COMPLETED 42)]) (some 2) (some 2000)
      = some { outcome := .ok 42, reads := 2, waits := 1, waitedMs := 2000 } ∧
    Fhevm.requestDecryptionWith 3
        (pollsOf [.ok (mkRecord FAILED 0), .ok (mkRecord COMPLETED 42)]) 2 2000
      = some { outcome := .error .decryptionTimeout, reads := 2, waits := 2,
               waitedMs := 4000 } ∧
    outcomeClass (.ok 42) ≠ outcomeClass (.error .decryptionTimeout) ∧
    outcomeClass (.ok 42) ≠ outcomeClass (.error (.readError 9)) := by
  decide

/-- C6 (the code departs from the claim).  In `utils/fhevm.requestDecryption`
a read error on the first of the 60 attempts ends the wait: the error is
rethrown after that single read, no sleep is made, and the `COMPLETED` record
the next poll would have shown is never read. -/
theorem requestDecryption_read_error_aborts :
    Fhevm.requestDecryption 61 (pollsOf [.threw 9, .ok (mkRecord COMPLETED 42)])
      = some { outcome := .error (.readError 9), reads := 1, waits := 0, waitedMs := 0 } := by
  decide

/-- C7 (as stated, fails).  On a ledger that shows `PENDING` for ever,
`waitForQueryResult(queryId)` gives up after 10 reads and 20000 ms, which is
not what a budget of 60 attempts gives. -/
theorem waitForQueryResult_default_is_not_sixty :
    waitForQueryResult 61 true (pollsOf []) none none
      = some { outcome := .error .queryTimeout, reads := 10, waits := 10, waitedMs := 20000 } ∧
    waitForQueryResult 61 true (pollsOf []) none none
      ≠ waitForQueryResult 61 true (pollsOf []) (some 60) (some 2000) := by
  decide

/-- C7 (amended).  Called with the query id alone,
`useDecryption.waitForQueryResult` (and the hook's `requestDecryption`, which
calls it so) waits with a budget of 10 attempts at 2000 ms, and
`utils/fhevm.requestDecryption` waits with a budget of 60 attempts at 2000 ms:
the default call is the call with these values spelled out, and on a ledger
that never shows a terminal status the hook gives up after exactly 10 reads and
10 sleeps (20000 ms), `utils/fhevm.requestDecryption` after exactly 60 reads
and 60 sleeps (120000 ms). -/
theorem default_wait_budgets (polls : Nat → PollOutcome) (fuel : Nat) :
    (∀ contract, waitForQueryResult fuel contract polls none none
      = waitForQueryResult fuel contract polls (some 10) (some 2000)) ∧
    (∀ contract, UseDecryption.requestDecryption fuel contract polls
      = waitForQueryResult fuel contract polls (some 10) (some 2000)) ∧
    Fhevm.requestDecryption fuel polls = Fhevm.requestDecryptionWith fuel polls 60 2000 ∧
    ((∀ k, (polls k).isNonTerminalStatus = true) → 60 < fuel →
      waitForQueryResult fuel true polls none none = some
        { outcome := .error .queryTimeout, reads := 10, waits := 10, waitedMs := 20000 } ∧
      UseDecryption.requestDecryption fuel true polls = some
        { outcome := .error .queryTimeout, reads := 10, waits := 10, waitedMs := 20000 } ∧
      Fhevm.requestDecryption fuel polls = some
        { outcome := .error .decryptionTimeout, reads := 60, waits := 60,
          waitedMs := 120000 }) := by
  refine ⟨fun _ => rfl, fun _ => rfl, rfl, ?_⟩
  intro hpolls hfuel
  have hhook : waitForQueryResult fuel true polls none none = some
      { outcome := .error .queryTimeout, reads := 10, waits := 10, waitedMs := 20000 } := by
    have h := waitLoop_timeout polls 10 2000 (fun k _ => Or.inl (hpolls k))
      (fun k _ => hpolls k) fuel { attempts := 0, reads := 0, waits := 0, waitedMs := 0 }
      rfl (by decide) (by simp only [Nat.sub_zero]; omega)
    simpa [waitForQueryResult, defaultMaxAttempts, defaultInterval] using h
  refine ⟨hhook, hhook, ?_⟩
  have h := requestLoop_timeout polls 60 2000 (fun k _ => hpolls k) fuel
    { attempts := 0, reads := 0, waits := 0, waitedMs := 0 } rfl (by decide)
    (by simp only [Nat.sub_zero]; omega)
  simpa [Fhevm.requestDecryption, Fhevm.requestDecryptionWith, Fhevm.maxAttempts,
    Fhevm.pollInterval] using h

/-- C7 (amended), at a concrete input: a ledger that shows `PENDING` for ever. -/
theorem default_wait_budgets_witness :
    waitForQueryResult 61 true (pollsOf []) none none = some
        { outcome := .error .queryTimeout, reads := 10, waits := 10, waitedMs := 20000 } ∧
      UseDecryption.requestDecryption 61 true (pollsOf []) = some
        { outcome := .error .queryTimeout, reads := 10, waits := 10, waitedMs := 20000 } ∧
      Fhevm.requestDecryption 61 (pollsOf []) = some
        { outcome := .error .decryptionTimeout, reads := 60, waits := 60,
          waitedMs := 120000 } :=
  (default_wait_budgets (pollsOf []) 61).2.2.2
    (fun _ => by simp [pollsOf, PollOutcome.isNonTerminalStatus, mkRecord]) (by decide)

/-! ## Lemmas on the upload -/

open DataUpload

/-- The ABI encoder accepts a number that is an integer in `[0, maxValue]` and
leaves its value as it is; it throws on every other number. -/
theorem encodeNumber_cases (x : Js.Number) :
    (x.isIntegerIn 0 Ethers.maxValue = true →
      ∃ b, Ethers.getBigIntOfNumber x = .ok b ∧ Ethers.encodeUint256 b = .ok x.toNat) ∧
    (x.isIntegerIn 0 Ethers.maxValue = false →
      (∃ e, Ethers.getBigIntOfNumber x = .error e) ∨
      ∃ b e, Ethers.getBigIntOfNumber x = .ok b ∧ Ethers.encodeUint256 b = .error e) := by
  have hm : Ethers.maxValue = 9007199254740991 := by decide
  cases x with
  | infinity negative =>
    exact ⟨fun h => by simp [Js.Number.isIntegerIn] at h, fun _ => Or.inl ⟨_, rfl⟩⟩
  | int v =>
    constructor
    · intro h
      have hv : 0 ≤ v ∧ v ≤ Ethers.maxValue := by
        simpa [Js.Number.isIntegerIn] using h
      have h1 : -Ethers.maxValue ≤ v ∧ v ≤ Ethers.maxValue := by omega
      have h2 : 0 ≤ v ∧ v < 2 ^ 256 := by
        refine ⟨hv.1, ?_⟩
        have h3 : (9007199254740991 : Int) < 2 ^ 256 := by norm_num
        omega
      refine ⟨v, ?_, ?_⟩
      · simp only [Ethers.getBigIntOfNumber, Ethers.getBigInt, h1, and_self, if_true]
      · simp only [Ethers.encodeUint256, h2, and_self, if_true, Js.Number.toNat]
    · intro h
      have hv : ¬ (0 ≤ v ∧ v ≤ Ethers.maxValue) := by
        simpa [Js.Number.isIntegerIn] using h
      by_cases h1 : -Ethers.maxValue ≤ v ∧ v ≤ Ethers.maxValue
      · right
        have hneg : ¬ (0 ≤ v ∧ v < 2 ^ 256) := fun hc => hv ⟨hc.1, h1.2⟩
        refine ⟨v, "value out-of-bounds", ?_, ?_⟩
        · simp only [Ethers.getBigIntOfNumber, Ethers.getBigInt, h1, and_self, if_true]
        · simp only [Ethers.encodeUint256, hneg, if_false]
      · left
        exact ⟨"overflow", by simp only [Ethers.getBigIntOfNumber, Ethers.getBigInt, h1, if_false]⟩

/-- The ABI encoder accepts an array of numbers all of which are integers in
`[0, maxValue]` and leaves the values as they are. -/
theorem encodeUint256Array_ok (xs : List Js.Number)
    (h : ∀ x ∈ xs, x.isIntegerIn 0 Ethers.maxValue = true) :
    Ethers.encodeUint256Array xs = .ok (xs.map Js.Number.toNat) := by
  induction xs with
  | nil => rfl
  | cons x xs ih =>
    obtain ⟨b, hb, he⟩ := (encodeNumber_cases x).1 (h x (List.mem_cons_self x xs))
    have hxs := ih (fun y hy => h y (List.mem_cons_of_mem x hy))
    simp only [Ethers.encodeUint256Array, hb, he, hxs, List.map_cons]

/-- The ABI encoder throws on an array that has a number which is not an
integer in `[0, maxValue]`. -/
theorem encodeUint256Array_error (xs : List Js.Number)
    (h : ∃ x ∈ xs, x.isIntegerIn 0 Ethers.maxValue = false) :
    ∃ e, Ethers.encodeUint256Array xs = .error e := by
  induction xs with
  | nil => obtain ⟨x, hx, _⟩ := h; cases hx
  | cons y ys ih =>
    cases hy : y.isIntegerIn 0 Ethers.maxValue with
    | true =>
      have hrest : ∃ x ∈ ys, x.isIntegerIn 0 Ethers.maxValue = false := by
        obtain ⟨x, hx, hbad⟩ := h
        rcases List.mem_cons.mp hx with rfl | hmem
        · rw [hy] at hbad; cases hbad
        · exact ⟨x, hmem, hbad⟩
      obtain ⟨e, he⟩ := ih hrest
      obtain ⟨b, hb, hen⟩ := (encodeNumber_cases y).1 hy
      exact ⟨e, by simp only [Ethers.encodeUint256Array, hb, hen, he]⟩
    | false =>
      rcases (encodeNumber_cases y).2 hy with ⟨e, he⟩ | ⟨b, e, hb, he⟩
      · exact ⟨e, by simp only [Ethers.encodeUint256Array, he]⟩
      · exact ⟨e, by simp only [Ethers.encodeUint256Array, hb, he]⟩

/-- What `validateSubmit` lets through is the parsed data, of 1 to 1000 points. -/
theorem validateSubmit_ok (props : Props) (formData : FormData) (numbers : List Js.Number)
    (h : validateSubmit props formData = .ok numbers) :
    numbers = parseData formData.data ∧ 1 ≤ numbers.length ∧ numbers.length ≤ 1000 ∧
      props.contract.isSome = true ∧
      (props.isFHEMode = true → props.uploadDataset.isSome = true) := by
  unfold validateSubmit at h
  split at h
  · cases h
  · split at h
    · cases h
    · rename_i hc hf
      simp only at h
      split at h
      · cases h
      · split at h
        · cases h
        · rename_i h0 h1000
          injection h with h
          subst h
          refine ⟨rfl, by omega, by omega, ?_, ?_⟩
          · cases hcon : props.contract with
            | none => simp [hcon] at hc
            | some t => rfl
          · intro hmode
            cases hup : props.uploadDataset with
            | none => simp [hmode, hup] at hf
            | some t => rfl

/-- When the guards pass and the size is in range, `validateSubmit` lets the
parsed data through. -/
theorem validateSubmit_pass (props : Props) (formData : FormData)
    (hc : props.contract.isSome = true)
    (hf : props.isFHEMode = true → props.uploadDataset.isSome = true)
    (h1 : 1 ≤ (parseData formData.data).length)
    (h2 : (parseData formData.data).length ≤ 1000) :
    validateSubmit props formData = .ok (parseData formData.data) := by
  have hc2 : props.contract.isNone = false := by
    cases hcon : props.contract with
    | none => simp [hcon] at hc
    | some t => rfl
  have hf2 : (props.isFHEMode && props.uploadDataset.isNone) = false := by
    cases hm : props.isFHEMode with
    | false => rfl
    | true =>
      have := hf hm
      cases hup : props.uploadDataset with
      | none => simp [hup] at this
      | some t => rfl
  have h0 : ¬ (parseData formData.data).length = 0 := by omega
  have h1000 : ¬ (parseData formData.data).length > 1000 := by omega
  simp only [validateSubmit, hc2, hf2, h0, h1000, if_false, Bool.false_eq_true]

/-- The mock upload hands over the transaction that carries the numbers and
the price unchanged, when the encoder accepts them. -/
theorem handleMockUpload_sends (target : Nat) (accs : List Nat) (formData : FormData)
    (numbers : List Js.Number) (w : Int) (hprice : Ethers.parseEther formData.price = some w)
    (hw : 0 ≤ w ∧ w < 2 ^ 256)
    (hnum : ∀ x ∈ numbers, x.isIntegerIn 0 Ethers.maxValue = true) :
    handleMockUpload target (.ok accs) formData numbers = .mockTxSent
      { fromAddress := accs.head?, toAddress := target,
        data := { name := formData.name, description := formData.description,
                  dataArray := numbers.map Js.Number.toNat, pricePerQuery := w.toNat },
        value := "0x0" } := by
  simp only [handleMockUpload, hprice, encodeUploadDataset, encodeUint256Array_ok numbers hnum,
    Ethers.encodeUint256, hw, and_self, if_true]

/-- In mock mode `handleSubmit` is `handleMockUpload` on the validated numbers. -/
theorem handleSubmit_mock (props : Props) (accounts : Except String (List Nat))
    (formData : FormData) (numbers : List Js.Number) (target : Nat)
    (hv : validateSubmit props formData = .ok numbers) (hmode : props.isFHEMode = false)
    (hc : props.contract = some target) :
    handleSubmit props accounts formData = handleMockUpload target accounts formData numbers := by
  simp only [handleSubmit, hv, hmode, hc, Bool.false_eq_true, if_false]

/-- In FHE mode `handleSubmit` is `handleFHEUpload` on the validated numbers. -/
theorem handleSubmit_fhe (props : Props) (accounts : Except String (List Nat))
    (formData : FormData) (numbers : List Js.Number) (hook : FheHook)
    (hv : validateSubmit props formData = .ok numbers) (hmode : props.isFHEMode = true)
    (hu : props.uploadDataset = some hook) :
    handleSubmit props accounts formData = handleFHEUpload hook formData numbers := by
  simp only [handleSubmit, hv, hmode, hu, if_true]

/-- Whatever `handleSubmit` sends, it sends after `validateSubmit` has let the
data through. -/
theorem handleSubmit_sent_validated (props : Props) (accounts : Except String (List Nat))
    (formData : FormData)
    (h : ∀ m, handleSubmit props accounts formData ≠ .failed m) :
    ∃ numbers, validateSubmit props formData = .ok numbers := by
  cases hv : validateSubmit props formData with
  | ok numbers => exact ⟨numbers, rfl⟩
  | error e =>
    exfalso
    apply h e
    simp only [handleSubmit, hv]

/-- The pieces of the text `7,7,...,7,`. -/
theorem splitComma_sevens (k : Nat) :
    splitComma (sevens k) = List.replicate k ['7'] ++ [[]] := by
  induction k with
  | zero => rfl
  | succ k ih =>
    have h7 : ('7' : Char) ≠ ',' := by decide
    simp only [sevens, List.replicate_succ, List.cons_append, splitComma, h7, if_false,
      if_true, ih]

/-- The text `7,7,...,7,` with `k` values parses to `k` data points. -/
theorem parseData_sevens (k : Nat) :
    parseData (String.mk (sevens k)) = List.replicate k (.int 7) := by
  have ht : trim ['7'] = ['7'] := by decide
  have hp : parseInt ['7'] = some (.int 7) := by decide
  have he : trim [] = [] := by decide
  unfold parseData
  show ((((splitComma (sevens k)).map trim).filter
    (fun n => n ≠ [])).map parseInt).reduceOption = _
  rw [splitComma_sevens]
  induction k with
  | zero => simp [he, List.reduceOption]
  | succ k ih =>
    simp only [List.replicate_succ, List.cons_append, List.map_cons, ht]
    rw [List.filter_cons_of_pos (by simp), List.map_cons, hp, List.reduceOption_cons_of_some, ih]

/-! ## The upload claims -/

set_option maxRecDepth 10000

/-- C8.  In `DataUpload.handleSubmit`, with `n` the number of parsed data
points: the upload function is called, and so a transaction handed over in
mock mode or a ledger call made in FHE mode, only if `1 ≤ n ≤ 1000`; and when
the contract is present (and, in FHE mode, the upload function), `n = 0` fails
with 'Please enter valid numeric data' and `n ≥ 1001` fails with 'Cannot exceed
1000 data points', nothing having been sent. -/
theorem handleSubmit_size_gate (props : Props) (accounts : Except String (List Nat))
    (formData : FormData) :
    (∀ numbers, validateSubmit props formData = .ok numbers →
      numbers = parseData formData.data ∧
      1 ≤ (parseData formData.data).length ∧ (parseData formData.data).length ≤ 1000) ∧
    (∀ tx, handleSubmit props accounts formData = .mockTxSent tx →
      1 ≤ (parseData formData.data).length ∧ (parseData formData.data).length ≤ 1000) ∧
    (∀ call, handleSubmit props accounts formData = .fheCallSent call →
      1 ≤ (parseData formData.data).length ∧ (parseData formData.data).length ≤ 1000) ∧
    (props.contract.isSome = true →
      (props.isFHEMode = true → props.uploadDataset.isSome = true) →
      ((parseData formData.data).length = 0 →
        handleSubmit props accounts formData = .failed "Please enter valid numeric data") ∧
      (1001 ≤ (parseData formData.data).length →
        handleSubmit props accounts formData = .failed "Cannot exceed 1000 data points")) := by
  have key : ∀ numbers, validateSubmit props formData = .ok numbers →
      numbers = parseData formData.data ∧
      1 ≤ (parseData formData.data).length ∧ (parseData formData.data).length ≤ 1000 := by
    intro numbers hv
    obtain ⟨h1, h2, h3, _⟩ := validateSubmit_ok props formData numbers hv
    subst h1
    exact ⟨rfl, h2, h3⟩
  have sent : (∀ m, handleSubmit props accounts formData ≠ .failed m) →
      1 ≤ (parseData formData.data).length ∧ (parseData formData.data).length ≤ 1000 := by
    intro h
    obtain ⟨numbers, hv⟩ := handleSubmit_sent_validated props accounts formData h
    exact (key numbers hv).2
  refine ⟨key, ?_, ?_, ?_⟩
  · intro tx htx
    exact sent (fun m hm => by rw [htx] at hm; cases hm)
  · intro call hcall
    exact sent (fun m hm => by rw [hcall] at hm; cases hm)
  · intro hc hf
    have hc2 : props.contract.isNone = false := by
      cases hcon : props.contract with
      | none => simp [hcon] at hc
      | some t => rfl
    have hf2 : (props.isFHEMode && props.uploadDataset.isNone) = false := by
      cases hm : props.isFHEMode with
      | false => rfl
      | true =>
        have := hf hm
        cases hup : props.uploadDataset with
        | none => simp [hup] at this
        | some t => rfl
    constructor
    · intro h0
      simp only [handleSubmit, validateSubmit, hc2, hf2, h0, if_true, if_false,
        Bool.false_eq_true]
    · intro hbig
      have h0 : ¬ (parseData formData.data).length = 0 := by omega
      have h1000 : (parseData formData.data).length > 1000 := by omega
      simp only [handleSubmit, validateSubmit, hc2, hf2, h0, h1000, if_true, if_false,
        Bool.false_eq_true]

/-- C8, at concrete inputs: a text with no number, and the text of 1001
values `7,7,...,7,`, both in mock mode with a contract present. -/
theorem handleSubmit_size_gate_witness :
    (parseData "abc, ,").length = 0 ∧
    handleSubmit { contract := some 5, isFHEMode := false, uploadDataset := none } (.ok [77])
        { name := "n", description := "d", data := "abc, ,", price := "0.01" }
      = .failed "Please enter valid numeric data" ∧
    (parseData (String.mk (sevens 1001))).length = 1001 ∧
    handleSubmit { contract := some 5, isFHEMode := false, uploadDataset := none } (.ok [77])
        { name := "n", description := "d", data := String.mk (sevens 1001), price := "0.01" }
      = .failed "Cannot exceed 1000 data points" :=
  ⟨by decide,
   ((handleSubmit_size_gate { contract := some 5, isFHEMode := false, uploadDataset := none }
      (.ok [77]) { name := "n", description := "d", data := "abc, ,", price := "0.01" }).2.2.2
      rfl (fun h => by cases h)).1 (by decide),
   by rw [parseData_sevens, List.length_replicate],
   ((handleSubmit_size_gate { contract := some 5, isFHEMode := false, uploadDataset := none }
      (.ok [77])
      { name := "n", description := "d", data := String.mk (sevens 1001),
        price := "0.01" }).2.2.2
      rfl (fun h => by cases h)).2 (by
        show 1001 ≤ (parseData (String.mk (sevens 1001))).length
        rw [parseData_sevens, List.length_replicate])⟩

/-! ## Lemmas on the price field -/

/-- Reading digits after others shifts the value read so far. -/
theorem decimalValue_foldl (ys : List Char) :
    ∀ a : Nat, ys.foldl (fun acc c => acc * 10 + (c.toNat - 48)) a =
      a * 10 ^ ys.length + Ethers.decimalValue ys := by
  induction ys with
  | nil => intro a; simp [Ethers.decimalValue]
  | cons y ys ih =>
    intro a
    have h1 := ih (a * 10 + (y.toNat - 48))
    have h2 := ih (0 * 10 + (y.toNat - 48))
    simp only [List.foldl_cons, Ethers.decimalValue, List.length_cons] at h1 h2 ⊢
    rw [h1, h2, Nat.pow_succ]
    ring

/-- The value of a text of digits followed by another. -/
theorem decimalValue_append (xs ys : List Char) :
    Ethers.decimalValue (xs ++ ys) =
      Ethers.decimalValue xs * 10 ^ ys.length + Ethers.decimalValue ys := by
  unfold Ethers.decimalValue
  rw [List.foldl_append]
  exact decimalValue_foldl ys _

/-- A text of zeros has the value zero. -/
theorem decimalValue_zeros (ys : List Char) (h : ∀ c ∈ ys, c = '0') :
    Ethers.decimalValue ys = 0 := by
  induction ys with
  | nil => rfl
  | cons y ys ih =>
    have hy : y = '0' := h y (List.mem_cons_self y ys)
    have hrest := ih (fun c hc => h c (List.mem_cons_of_mem y hc))
    have := decimalValue_append [y] ys
    rw [List.singleton_append] at this
    have h0 : Ethers.decimalValue ['0'] = 0 := by decide
    rw [this, hrest, hy, h0, Nat.zero_mul]

/-- The value of the decimals padded or cut to 18 places, when the decimals
beyond the 18th are zeros: it is the value of the decimals scaled to 18
places. -/
theorem decimalValue_pad (whole decimal : List Char)
    (hz : (decimal.drop 18).any (fun c => c ≠ '0') = false) :
    Ethers.decimalValue (whole ++ (decimal ++ List.replicate 18 '0').take 18) *
        10 ^ decimal.length =
      Ethers.decimalValue (whole ++ decimal) * 10 ^ 18 := by
  have hzeros : ∀ c ∈ decimal.drop 18, c = '0' := by
    intro c hc
    by_contra hne
    have : (decimal.drop 18).any (fun c => c ≠ '0') = true :=
      List.any_eq_true.mpr ⟨c, hc, by simpa using hne⟩
    rw [hz] at this
    cases this
  by_cases hlen : decimal.length ≤ 18
  · have htake : (decimal ++ List.replicate 18 '0').take 18 =
        decimal ++ List.replicate (18 - decimal.length) '0' := by
      rw [List.take_append_eq_append_take, List.take_of_length_le hlen, List.take_replicate]
      congr 2
      omega
    rw [htake, ← List.append_assoc, decimalValue_append (whole ++ decimal),
      decimalValue_zeros _ (fun c hc => (List.mem_replicate.mp hc).2), List.length_replicate,
      Nat.add_zero, Nat.mul_assoc, ← Nat.pow_add]
    congr 2
    omega
  · have hlen2 : 18 ≤ decimal.length := by omega
    have htake : (decimal ++ List.replicate 18 '0').take 18 = decimal.take 18 := by
      rw [List.take_append_eq_append_take]
      have h0 : 18 - decimal.length = 0 := by omega
      rw [h0, List.take_zero, List.append_nil]
    have hsplit : whole ++ decimal = (whole ++ decimal.take 18) ++ decimal.drop 18 := by
      rw [List.append_assoc, List.take_append_drop]
    have hdl : (decimal.drop 18).length = decimal.length - 18 := List.length_drop 18 decimal
    rw [htake]
    conv_rhs => rw [hsplit, decimalValue_append, decimalValue_zeros _ hzeros, Nat.add_zero, hdl]
    rw [Nat.mul_assoc, ← Nat.pow_add]
    congr 2
    omega

/-- Dropping digits from a text leaves a text that does not start with a digit. -/
theorem dropWhile_isDigit_head (l : List Char) :
    (l.dropWhile Ethers.isDigit).takeWhile Ethers.isDigit = [] := by
  induction l with
  | nil => rfl
  | cons c cs ih =>
    by_cases hc : Ethers.isDigit c = true
    · rw [List.dropWhile_cons_of_pos hc]
      exact ih
    · rw [List.dropWhile_cons_of_neg hc, List.takeWhile_cons_of_neg hc]

/-- The sign match of the number parsers as a test on the first character. -/
theorem signMatch_eq (cs : List Char) :
    (match cs with
      | '-' :: t => (true, t)
      | _ => (false, cs)) =
    (if cs.head? = some '-' then (true, cs.tail) else (false, cs)) := by
  split
  · simp
  · rename_i h
    cases cs with
    | nil => simp
    | cons c t =>
      have hc : c ≠ '-' := fun hc => h t (by rw [hc])
      simp [hc]

/-- The point match of `parseEther` as a test on the first character. -/
theorem pointMatch_eq (cs : List Char) :
    (match cs with
      | '.' :: t => t
      | _ => cs) =
    (if cs.head? = some '.' then cs.tail else cs) := by
  split
  · simp
  · rename_i h
    cases cs with
    | nil => simp
    | cons c t =>
      have hc : c ≠ '.' := fun hc => h t (by rw [hc])
      simp [hc]

/-- A text that does not start with a digit loses nothing when digits are
dropped from its front. -/
theorem dropWhile_of_takeWhile_nil (l : List Char)
    (h : l.takeWhile Ethers.isDigit = []) : l.dropWhile Ethers.isDigit = l := by
  have := List.takeWhile_append_dropWhile Ethers.isDigit l
  rw [h, List.nil_append] at this
  exact this

/-- A price text that both `parseEther` and the number field can read has a
sign, digits and decimals of which both make their value: `parseEther` the
digits with the decimals padded or cut to 18 places, the number field the
digits with all the decimals, over the matching power of ten. -/
theorem price_shapes (price : String) (w : Int) (v : Html.Decimal)
    (hw : Ethers.parseEther price = some w) (hv : Html.parseNumber price = some v) :
    ∃ (neg : Bool) (whole decimal : List Char),
      (decimal.drop 18).any (fun c => c ≠ '0') = false ∧
      w = (if neg = true
        then -(Ethers.decimalValue (whole ++ (decimal ++ List.replicate 18 '0').take 18) : Int)
        else (Ethers.decimalValue (whole ++ (decimal ++ List.replicate 18 '0').take 18) : Int)) ∧
      v = { negative := neg, numerator := Ethers.decimalValue (whole ++ decimal),
            denominator := 10 ^ decimal.length } := by
  unfold Ethers.parseEther at hw
  unfold Html.parseNumber at hv
  simp only [signMatch_eq, pointMatch_eq] at hw hv
  generalize (if price.toList.head? = some '-' then (true, price.toList.tail)
    else (false, price.toList)) = signed at hw hv
  have hhead := dropWhile_isDigit_head signed.2
  generalize List.takeWhile Ethers.isDigit signed.2 = whole at hw hv
  generalize List.dropWhile Ethers.isDigit signed.2 = afterWhole at hw hv hhead
  by_cases hpt : afterWhole.head? = some '.'
  · simp only [hpt, if_true, decide_True, true_and] at hw hv
    generalize List.takeWhile Ethers.isDigit afterWhole.tail = decimal at hw hv
    generalize List.dropWhile Ethers.isDigit afterWhole.tail = rest at hw hv
    by_cases hrest : rest = []
    · subst hrest
      rw [if_neg (by simp)] at hw
      by_cases hlen : whole.length + decimal.length = 0
      · rw [if_pos hlen] at hw; cases hw
      · rw [if_neg hlen] at hw
        by_cases hz : (List.drop 18 decimal).any (fun c => decide (c ≠ '0')) = true
        · rw [if_pos hz] at hw; cases hw
        · rw [if_neg hz] at hw
          injection hw with hw
          by_cases hd : decimal = []
          · rw [if_pos hd] at hv; cases hv
          · rw [if_neg hd, if_neg hlen] at hv
            simp only [Html.parseExponent] at hv
            injection hv with hv
            refine ⟨signed.1, whole, decimal, by simpa using hz, hw.symm, ?_⟩
            rw [← hv]
            have e1 : ((0 : Int) - (decimal.length : Int)).toNat = 0 := by omega
            have e2 : ((decimal.length : Int) - 0).toNat = decimal.length := by omega
            rw [e1, e2, Nat.pow_zero, Nat.mul_one]
    · rw [if_pos hrest] at hw; cases hw
  · simp only [hpt, if_false, decide_False, false_and, hhead,
      dropWhile_of_takeWhile_nil afterWhole hhead, Bool.false_eq_true] at hw hv
    by_cases hrest : afterWhole = []
    · subst hrest
      rw [if_neg (by simp)] at hw
      by_cases hlen : whole.length + ([] : List Char).length = 0
      · rw [if_pos hlen] at hw; cases hw
      · rw [if_neg hlen] at hw hv
        rw [if_neg (by simp)] at hw
        injection hw with hw
        simp only [Html.parseExponent] at hv
        injection hv with hv
        refine ⟨signed.1, whole, [], by simp, hw.symm, ?_⟩
        rw [← hv]
        simp
    · rw [if_pos hrest] at hw; cases hw

/-- A price that the number field does not find below `0.001` and that
`parseEther` converts is converted to at least `10^15` wei. -/
theorem price_not_below_minimum (price : String) (w : Int) (v : Html.Decimal)
    (hw : Ethers.parseEther price = some w) (hv : Html.parseNumber price = some v)
    (hlt : v.lt { negative := false, numerator := 1, denominator := 1000 } = false) :
    10 ^ 15 ≤ w := by
  obtain ⟨neg, whole, decimal, hz, hwv, hvv⟩ := price_shapes price w v hw hv
  have hpad := decimalValue_pad whole decimal hz
  have hpos : 0 < 10 ^ decimal.length := Nat.pow_pos (by decide)
  subst hvv
  simp only [Html.Decimal.lt, Html.Decimal.signed, decide_eq_false_iff_not, not_lt,
    Bool.false_eq_true, if_false, Nat.cast_one, one_mul] at hlt
  cases neg with
  | true =>
    simp only [if_true] at hlt
    have : (0 : Int) < ((10 ^ decimal.length : Nat) : Int) := by exact_mod_cast hpos
    have h2 : (0 : Int) ≤ (Ethers.decimalValue (whole ++ decimal) : Int) := Int.ofNat_nonneg _
    omega
  | false =>
    simp only [Bool.false_eq_true, if_false] at hlt hwv
    have hge : 10 ^ decimal.length ≤ Ethers.decimalValue (whole ++ decimal) * 1000 := by
      exact_mod_cast hlt
    rw [hwv]
    have goal : 10 ^ 15 ≤
        Ethers.decimalValue (whole ++ (decimal ++ List.replicate 18 '0').take 18) := by
      by_contra hcon
      have hlt2 : Ethers.decimalValue (whole ++ (decimal ++ List.replicate 18 '0').take 18)
          < 10 ^ 15 := Nat.lt_of_not_le hcon
      have h1 := (Nat.mul_lt_mul_right hpos).mpr hlt2
      have h2 : 10 ^ 15 * 10 ^ decimal.length ≤
          10 ^ 15 * (Ethers.decimalValue (whole ++ decimal) * 1000) :=
        Nat.mul_le_mul_left _ hge
      have h3 : 10 ^ 15 * (Ethers.decimalValue (whole ++ decimal) * 1000) =
          Ethers.decimalValue (whole ++ decimal) * 10 ^ 18 := by ring
      rw [hpad] at h1
      rw [h3] at h2
      exact absurd (lt_of_lt_of_le h1 h2) (lt_irrefl _)
    exact_mod_cast goal

/-- A mock upload that hands a transaction over has converted the price with
`parseEther`, and the transaction carries that amount. -/
theorem handleSubmit_mock_price (props : Props) (accounts : Except String (List Nat))
    (formData : FormData) (tx : TxRequest)
    (h : handleSubmit props accounts formData = .mockTxSent tx) :
    ∃ w : Int, Ethers.parseEther formData.price = some w ∧ 0 ≤ w ∧
      tx.data.pricePerQuery = w.toNat := by
  unfold handleSubmit at h
  cases hv : validateSubmit props formData with
  | error e => rw [hv] at h; cases h
  | ok numbers =>
    rw [hv] at h
    simp only at h
    cases hm : props.isFHEMode with
    | true =>
      rw [hm] at h
      simp only [if_true] at h
      cases hu : props.uploadDataset with
      | none => rw [hu] at h; cases h
      | some hook =>
        rw [hu] at h
        simp only [handleFHEUpload] at h
        split at h <;> cases h
    | false =>
      rw [hm] at h
      simp only [Bool.false_eq_true, if_false] at h
      cases hc : props.contract with
      | none => rw [hc] at h; cases h
      | some target =>
        rw [hc] at h
        simp only [handleMockUpload] at h
        cases hp : Ethers.parseEther formData.price with
        | none => rw [hp] at h; cases h
        | some w =>
          rw [hp] at h
          simp only at h
          cases ha : accounts with
          | error e => rw [ha] at h; cases h
          | ok accs =>
            rw [ha] at h
            simp only [encodeUploadDataset] at h
            cases hn : Ethers.encodeUint256Array numbers with
            | error e => rw [hn] at h; cases h
            | ok dataArray =>
              rw [hn] at h
              simp only [Ethers.encodeUint256] at h
              by_cases hw : 0 ≤ w ∧ w < 2 ^ 256
              · rw [if_pos hw] at h
                simp only [UploadOutcome.mockTxSent.injEq] at h
                exact ⟨w, rfl, hw.1, by rw [← h]⟩
              · rw [if_neg hw] at h
                cases h

/-- An FHE upload that makes its ledger call has converted the price with
`parseEther`, and the call carries that amount. -/
theorem handleSubmit_fhe_price (props : Props) (accounts : Except String (List Nat))
    (formData : FormData) (call : FheUploadCall)
    (h : handleSubmit props accounts formData = .fheCallSent call) :
    Ethers.parseEther formData.price = some call.priceWei := by
  unfold handleSubmit at h
  cases hv : validateSubmit props formData with
  | error e => rw [hv] at h; cases h
  | ok numbers =>
    rw [hv] at h
    simp only at h
    cases hm : props.isFHEMode with
    | false =>
      rw [hm] at h
      simp only [Bool.false_eq_true, if_false] at h
      cases hc : props.contract with
      | none => rw [hc] at h; cases h
      | some target =>
        rw [hc] at h
        simp only [handleMockUpload] at h
        split at h
        · cases h
        · split at h
          · cases h
          · split at h <;> cases h
    | true =>
      rw [hm] at h
      simp only [if_true] at h
      cases hu : props.uploadDataset with
      | none => rw [hu] at h; cases h
      | some hook =>
        rw [hu] at h
        simp only [handleFHEUpload] at h
        cases hcall : UseContractFHE.uploadDatasetCall hook formData.name formData.description
            numbers formData.price with
        | error e => rw [hcall] at h; cases h
        | ok c =>
          rw [hcall] at h
          simp only [UploadOutcome.fheCallSent.injEq] at h
          subst h
          unfold UseContractFHE.uploadDatasetCall at hcall
          split at hcall
          · cases hcall
          · split at hcall
            · cases hcall
            · split at hcall
              · cases hcall
              · rename_i w hp
                split at hcall
                · cases hcall
                · injection hcall with hcall
                  rw [← hcall]
                  exact hp

/-- The price field finds a number below its minimum an underflow. -/
theorem priceField_underflow (price : String) (v : Html.Decimal)
    (hv : Html.parseNumber price = some v)
    (hlt : v.lt { negative := false, numerator := 1, denominator := 1000 } = true) :
    Html.numberFieldValidity "0.001" "0.001" price = some .rangeUnderflow := by
  have hmin : Html.parseNumber "0.001" =
      some { negative := false, numerator := 1, denominator := 1000 } := by decide
  unfold Html.numberFieldValidity
  rw [hv, hmin]
  simp only [hlt, if_true]

/-- A price field that satisfies its constraints holds a number that is not
below `0.001`. -/
theorem priceField_valid (price : String)
    (h : Html.numberFieldValidity "0.001" "0.001" price = none) :
    ∃ v, Html.parseNumber price = some v ∧
      v.lt { negative := false, numerator := 1, denominator := 1000 } = false := by
  have hmin : Html.parseNumber "0.001" =
      some { negative := false, numerator := 1, denominator := 1000 } := by decide
  unfold Html.numberFieldValidity at h
  cases hv : Html.parseNumber price with
  | none => rw [hv] at h; cases h
  | some v =>
    rw [hv, hmin] at h
    simp only at h
    refine ⟨v, rfl, ?_⟩
    cases hlt : v.lt { negative := false, numerator := 1, denominator := 1000 } with
    | false => rfl
    | true => rw [hlt] at h; simp at h

/-- When the form lets the submit through, no control fails its constraints,
and `handleSubmit` runs. -/
theorem submitForm_submitted (props : Props) (fhevmInstance : Bool)
    (accounts : Except String (List Nat)) (formData : FormData) (o : UploadOutcome)
    (h : submitForm props fhevmInstance accounts formData = .submitted o) :
    formProblems formData = [] ∧ handleSubmit props accounts formData = o := by
  unfold submitForm at h
  split at h
  · cases h
  · cases hp : formProblems formData with
    | nil =>
      rw [hp] at h
      simp only [SubmitOutcome.submitted.injEq] at h
      exact ⟨rfl, h⟩
    | cons p ps =>
      rw [hp] at h
      cases h

/-- When no control of the form fails its constraints, the price field
satisfies its own. -/
theorem formProblems_nil (formData : FormData) (h : formProblems formData = []) :
    Html.numberFieldValidity "0.001" "0.001" formData.price = none := by
  unfold formProblems at h
  cases hv : Html.numberFieldValidity "0.001" "0.001" formData.price with
  | none => rfl
  | some p =>
    rw [hv] at h
    simp at h

/-! ## The price claim -/

/-- C9.  An upload whose price is below the configured minimum of 0.001 ETH
fails before any transaction is built or sent: the price field of the upload
form carries the minimum (`min="0.001"`), so for every price text that reads
as a number below it the form reports an underflow on the price field and the
`submit` event is not fired, `handleSubmit` (and with it `handleMockUpload` and
`uploadDataset`) does not run; and whatever upload the form does let through,
a transaction handed to the wallet in mock mode and a ledger call made in FHE
mode carry a price of at least `10^15` wei, the minimum. -/
theorem upload_price_gate (props : Props) (fhevmInstance : Bool)
    (accounts : Except String (List Nat)) (formData : FormData) :
    Html.parseNumber APP_CONFIG.minPrice =
        some { negative := false, numerator := 1, denominator := 1000 } ∧
    Ethers.parseEther APP_CONFIG.minPrice = some (10 ^ 15) ∧
    (∀ v, Html.parseNumber formData.price = some v →
      v.lt { negative := false, numerator := 1, denominator := 1000 } = true →
      (∀ o, submitForm props fhevmInstance accounts formData ≠ .submitted o) ∧
      ("price", Html.Validity.rangeUnderflow) ∈ formProblems formData ∧
      (submitForm props fhevmInstance accounts formData = .disabled ∨
        submitForm props fhevmInstance accounts formData =
          .invalid (formProblems formData))) ∧
    (∀ tx, submitForm props fhevmInstance accounts formData = .submitted (.mockTxSent tx) →
      10 ^ 15 ≤ tx.data.pricePerQuery) ∧
    (∀ call, submitForm props fhevmInstance accounts formData =
        .submitted (.fheCallSent call) →
      10 ^ 15 ≤ call.priceWei) := by
  refine ⟨by decide, by decide, ?_, ?_, ?_⟩
  · intro v hv hlt
    have hprice := priceField_underflow formData.price v hv hlt
    have hmem : ("price", Html.Validity.rangeUnderflow) ∈ formProblems formData := by
      unfold formProblems
      rw [hprice]
      simp
    have hne : formProblems formData ≠ [] := List.ne_nil_of_mem hmem
    refine ⟨?_, hmem, ?_⟩
    · intro o ho
      exact hne (submitForm_submitted props fhevmInstance accounts formData o ho).1
    · unfold submitForm
      split
      · exact Or.inl rfl
      · right
        cases hp : formProblems formData with
        | nil => exact absurd hp hne
        | cons p ps => rfl
  · intro tx htx
    obtain ⟨hnil, hsub⟩ := submitForm_submitted props fhevmInstance accounts formData _ htx
    obtain ⟨v, hv, hlt⟩ := priceField_valid formData.price (formProblems_nil formData hnil)
    obtain ⟨w, hw, hpos, hprice⟩ := handleSubmit_mock_price props accounts formData tx hsub
    have hmin := price_not_below_minimum formData.price w v hw hv hlt
    rw [hprice]
    have : ((10 ^ 15 : Nat) : Int) ≤ w := by exact_mod_cast hmin
    omega
  · intro call hcall
    obtain ⟨hnil, hsub⟩ := submitForm_submitted props fhevmInstance accounts formData _ hcall
    obtain ⟨v, hv, hlt⟩ := priceField_valid formData.price (formProblems_nil formData hnil)
    have hw := handleSubmit_fhe_price props accounts formData call hsub
    exact price_not_below_minimum formData.price call.priceWei v hw hv hlt

/-- C9, at concrete inputs: with the price 0.0001 ETH (and with the price
0.0005 ETH) the form, filled in otherwise and its button enabled, reports an
underflow on the price field and does not run `handleSubmit`; with the price
0.001 ETH it runs it, and the transaction carries `10^15` wei. -/
theorem upload_price_gate_witness :
    submitForm { contract := some 5, isFHEMode := false, uploadDataset := none } true (.ok [77])
        { name := "n", description := "d", data := "100,200", price := "0.0001" } =
      .invalid [("price", .rangeUnderflow)] ∧
    submitForm { contract := some 5, isFHEMode := false, uploadDataset := none } true (.ok [77])
        { name := "n", description := "d", data := "100,200", price := "0.0005" } =
      .invalid [("price", .rangeUnderflow)] ∧
    submitForm { contract := some 5, isFHEMode := false, uploadDataset := none } true (.ok [77])
        { name := "n", description := "d", data := "100,200", price := "0.001" } =
      .submitted (.mockTxSent
        { fromAddress := some 77, toAddress := 5,
          data := { name := "n", description := "d", dataArray := [100, 200],
                    pricePerQuery := 1000000000000000 },
          value := "0x0" }) ∧
    ∀ o, submitForm { contract := some 5, isFHEMode := false, uploadDataset := none } true
        (.ok [77]) { name := "n", description := "d", data := "100,200", price := "0.0001" } ≠
      .submitted o :=
  ⟨by decide, by decide, by decide,
   ((upload_price_gate { contract := some 5, isFHEMode := false, uploadDataset := none } true
      (.ok [77]) { name := "n", description := "d", data := "100,200", price := "0.0001" }).2.2.1
      { negative := false, numerator := 1, denominator := 10000 } (by decide) (by decide)).1⟩

/-! ## The value-range claim -/

/-- C10 (as stated, fails).  The value 4294967296 is greater than `2^32 - 1`,
yet the mock upload accepts it and hands the transaction to the wallet with
the value in the call data. -/
theorem handleSubmit_sends_value_above_uint32 :
    ¬ ((4294967296 : Int) ≤ 2 ^ 32 - 1) ∧
    handleSubmit { contract := some 5, isFHEMode := false, uploadDataset := none } (.ok [77])
        { name := "n", description := "d", data := "1, 4294967296", price := "0.01" }
      = .mockTxSent
          { fromAddress := some 77, toAddress := 5,
            data := { name := "n", description := "d", dataArray := [1, 4294967296],
                      pricePerQuery := 10000000000000000 },
            value := "0x0" } := by
  decide

/-- C10 (amended).  The upload workflow has no unsigned-32-bit check of its
own.  In mock mode the only bound on a value is the ABI encoder's: a validated
list whose values are integers in `[0, 2^53 - 1]` is handed over unchanged in
the transaction, and a list with a value that is not (an integer outside that
range, or an infinity) makes the encoder throw, so that the upload fails with
nothing handed over.  In FHE mode the
validated list is passed whole to `uploadDataset`, which passes every value to
the encryption library: when the library accepts every value, every value is
encrypted, whatever its size. -/
theorem upload_values_are_not_range_checked (props : Props) (formData : FormData)
    (numbers : List Js.Number) (hv : validateSubmit props formData = .ok numbers) :
    (∀ (accs : List Nat) (target : Nat) (w : Int),
      props.isFHEMode = false → props.contract = some target →
      Ethers.parseEther formData.price = some w → 0 ≤ w ∧ w < 2 ^ 256 →
      ((∀ x ∈ numbers, x.isIntegerIn 0 (2 ^ 53 - 1) = true) →
        handleSubmit props (.ok accs) formData = .mockTxSent
          { fromAddress := accs.head?, toAddress := target,
            data := { name := formData.name, description := formData.description,
                      dataArray := numbers.map Js.Number.toNat, pricePerQuery := w.toNat },
            value := "0x0" }) ∧
      ((∃ x ∈ numbers, x.isIntegerIn 0 (2 ^ 53 - 1) = false) →
        ∃ e, handleSubmit props (.ok accs) formData = .failed e)) ∧
    (∀ (accounts : Except String (List Nat)) (hook : FheHook),
      props.isFHEMode = true → props.uploadDataset = some hook →
      handleSubmit props accounts formData = handleFHEUpload hook formData numbers) ∧
    (∀ (inst : FhevmInstance) (handleOf : Js.Number → List Nat) (proofOf : List Nat → Nat),
      (∀ v, inst.encrypt32 v = .ok (handleOf v)) →
      (∀ h, inst.generateInputProof h = .ok (proofOf h)) →
      Fhevm.encryptUint32Array (some inst) numbers = .ok
        (numbers.map (fun v => { data := (handleOf v).head?, proof := proofOf (handleOf v) }))) := by
  refine ⟨?_, ?_, ?_⟩
  · intro accs target w hmode hc hprice hw
    rw [handleSubmit_mock props (.ok accs) formData numbers target hv hmode hc]
    have hmax : Ethers.maxValue = 2 ^ 53 - 1 := by decide
    constructor
    · intro hnum
      exact handleMockUpload_sends target accs formData numbers w hprice hw
        (by rw [hmax]; exact hnum)
    · intro hbad
      obtain ⟨e, he⟩ := encodeUint256Array_error numbers (by rw [hmax]; exact hbad)
      exact ⟨e, by simp only [handleMockUpload, hprice, encodeUploadDataset, he]⟩
  · intro accounts hook hmode hu
    exact handleSubmit_fhe props accounts formData numbers hook hv hmode hu
  · intro inst handleOf proofOf henc hproof
    clear hv
    induction numbers with
    | nil => rfl
    | cons v vs ih =>
      simp only [Fhevm.encryptUint32Array, Fhevm.encryptUint32, henc, hproof, ih, List.map_cons]

/-- C10 (amended), at a concrete input: the values 1 and 4294967296 in mock
mode. -/
theorem upload_values_are_not_range_checked_witness :
    handleSubmit { contract := some 5, isFHEMode := false, uploadDataset := none } (.ok [77])
        { name := "n", description := "d", data := "1, 4294967296", price := "0.01" }
      = .mockTxSent
          { fromAddress := [77].head?, toAddress := 5,
            data := { name := "n", description := "d",
                      dataArray := [Js.Number.int 1, .int 4294967296].map Js.Number.toNat,
                      pricePerQuery := (10000000000000000 : Int).toNat },
            value := "0x0" } :=
  ((upload_values_are_not_range_checked
      { contract := some 5, isFHEMode := false, uploadDataset := none }
      { name := "n", description := "d", data := "1, 4294967296", price := "0.01" }
      [.int 1, .int 4294967296] (by decide)).1 [77] 5 10000000000000000 rfl rfl (by decide)
      (by decide)).1 (by decide)

/-! ## Lemmas on the batch encryption -/

/-- The loop of `encryptUint32Array` stops at the first value whose encryption
fails: it rethrows that error, has offered nothing after that value, and has
written the item number to the console. -/
theorem encryptLoop_fails (inst : Option FhevmInstance) (v : Js.Number)
    (post : List Js.Number) (e : String) (hv : Fhevm.encryptUint32 inst v = .error e) :
    ∀ (pre : List Js.Number) (i : Nat) (encrypted : List EncryptedInput)
      (offered : List Js.Number),
      (∀ x ∈ pre, ∃ r, Fhevm.encryptUint32 inst x = .ok r) →
      Fhevm.encryptLoop inst i (pre ++ v :: post) encrypted offered =
        { outcome := .error e, offered := offered ++ pre ++ [v],
          errorLog := [i + pre.length + 1] } := by
  intro pre
  induction pre with
  | nil =>
    intro i encrypted offered _
    simp only [List.nil_append, Fhevm.encryptLoop, hv, List.append_nil, List.length_nil,
      Nat.add_zero]
  | cons x pre ih =>
    intro i encrypted offered hpre
    obtain ⟨r, hr⟩ := hpre x (List.mem_cons_self x pre)
    have hrest := ih (i + 1) (encrypted ++ [r]) (offered ++ [x])
      (fun y hy => hpre y (List.mem_cons_of_mem x hy))
    have hstep : Fhevm.encryptLoop inst i (x :: (pre ++ v :: post)) encrypted offered =
        Fhevm.encryptLoop inst (i + 1) (pre ++ v :: post) (encrypted ++ [r]) (offered ++ [x]) := by
      simp only [Fhevm.encryptLoop, hr]
    have hi : i + 1 + pre.length + 1 = i + (pre.length + 1) + 1 := by omega
    rw [List.cons_append, hstep, hrest, hi]
    simp only [List.length_cons, List.append_assoc, List.singleton_append]

/-- The loop of `encryptUint32Array` on values that all encrypt: it returns
the encryptions in order, has offered every value and written nothing. -/
theorem encryptLoop_succeeds (inst : Option FhevmInstance) :
    ∀ (values : List Js.Number) (i : Nat) (encrypted : List EncryptedInput)
      (offered : List Js.Number),
      (∀ x ∈ values, ∃ r, Fhevm.encryptUint32 inst x = .ok r) →
      ∃ rs, Fhevm.encryptLoop inst i values encrypted offered =
          { outcome := .ok (encrypted ++ rs), offered := offered ++ values, errorLog := [] } ∧
        rs.map Except.ok = values.map (Fhevm.encryptUint32 inst) := by
  intro values
  induction values with
  | nil =>
    intro i encrypted offered _
    exact ⟨[], by simp only [Fhevm.encryptLoop, List.append_nil], rfl⟩
  | cons x values ih =>
    intro i encrypted offered hall
    obtain ⟨r, hr⟩ := hall x (List.mem_cons_self x values)
    obtain ⟨rs, hrs, hmap⟩ := ih (i + 1) (encrypted ++ [r]) (offered ++ [x])
      (fun y hy => hall y (List.mem_cons_of_mem x hy))
    refine ⟨r :: rs, ?_, ?_⟩
    · simp only [Fhevm.encryptLoop, hr, hrs, List.append_assoc, List.singleton_append]
    · simp only [List.map_cons, hr, hmap]

/-- The value returned or error thrown by the run with effects is that of
`encryptUint32Array`. -/
theorem encryptLoop_outcome (inst : Option FhevmInstance) :
    ∀ (values : List Js.Number) (i : Nat) (encrypted : List EncryptedInput)
      (offered : List Js.Number),
      (Fhevm.encryptLoop inst i values encrypted offered).outcome =
        match Fhevm.encryptUint32Array inst values with
        | .ok rs => .ok (encrypted ++ rs)
        | .error e => .error e := by
  intro values
  induction values with
  | nil =>
    intro i encrypted offered
    simp only [Fhevm.encryptLoop, Fhevm.encryptUint32Array, List.append_nil]
  | cons x values ih =>
    intro i encrypted offered
    cases hx : Fhevm.encryptUint32 inst x with
    | error e => simp only [Fhevm.encryptLoop, Fhevm.encryptUint32Array, hx]
    | ok r =>
      simp only [Fhevm.encryptLoop, Fhevm.encryptUint32Array, hx, ih]
      cases Fhevm.encryptUint32Array inst values with
      | error e => rfl
      | ok rs => simp only [List.append_assoc, List.singleton_append]

/-! ## The batch encryption and ledger call claims -/

/-- C11 (as stated, fails).  With an encryption library that refuses negative
values, the batch `[-1, 5]` fails at index 0 and the batch `[5, -1]` fails at
index 1, and both calls throw the same error, 'Encryption failed: negative
value': the error the caller gets does not tell the failing index, which is
only written to the console (as 1 and as 2). -/
theorem encryptUint32Array_error_has_no_index :
    Fhevm.encryptUint32ArrayRun (some exampleInstance) [.int (-1), .int 5] =
      { outcome := .error "Encryption failed: negative value", offered := [.int (-1)],
        errorLog := [1] } ∧
    Fhevm.encryptUint32ArrayRun (some exampleInstance) [.int 5, .int (-1)] =
      { outcome := .error "Encryption failed: negative value",
        offered := [.int 5, .int (-1)], errorLog := [2] } ∧
    (Fhevm.encryptUint32ArrayRun (some exampleInstance) [.int (-1), .int 5]).outcome =
      (Fhevm.encryptUint32ArrayRun (some exampleInstance) [.int 5, .int (-1)]).outcome := by
  decide

/-- C11 (amended).  `utils/fhevm.encryptUint32Array` is all-or-nothing.  If
encrypting the item at index `i` fails (the items before it having
succeeded), the call fails with no partial list, no item after index `i` is
offered for encryption, the item number `i + 1` is written to the console, and
the error thrown is the error of `encryptUint32` for that item, unchanged.  If
no item fails, the call returns a list of the same length as the input whose
`k`-th element is the encryption of the `k`-th value. -/
theorem encryptUint32Array_all_or_nothing (inst : Option FhevmInstance)
    (values : List Js.Number) :
    (∀ pre v post e, values = pre ++ v :: post →
      (∀ x ∈ pre, ∃ r, Fhevm.encryptUint32 inst x = .ok r) →
      Fhevm.encryptUint32 inst v = .error e →
      Fhevm.encryptUint32ArrayRun inst values =
        { outcome := .error e, offered := pre ++ [v], errorLog := [pre.length + 1] }) ∧
    ((∀ x ∈ values, ∃ r, Fhevm.encryptUint32 inst x = .ok r) →
      ∃ rs, Fhevm.encryptUint32ArrayRun inst values =
          { outcome := .ok rs, offered := values, errorLog := [] } ∧
        rs.length = values.length ∧
        rs.map Except.ok = values.map (Fhevm.encryptUint32 inst)) := by
  constructor
  · intro pre v post e hvalues hpre hv
    subst hvalues
    have h := encryptLoop_fails inst v post e hv pre 0 [] [] hpre
    simpa [Fhevm.encryptUint32ArrayRun] using h
  · intro hall
    obtain ⟨rs, hrs, hmap⟩ := encryptLoop_succeeds inst values 0 [] [] hall
    refine ⟨rs, by simpa [Fhevm.encryptUint32ArrayRun] using hrs, ?_, hmap⟩
    have hlen := congrArg List.length hmap
    simpa using hlen

/-- C11 (amended), at a concrete input: the batch `[5, -1, 9]` with a library
that refuses negative values. -/
theorem encryptUint32Array_all_or_nothing_witness :
    Fhevm.encryptUint32ArrayRun (some exampleInstance) [.int 5, .int (-1), .int 9] =
      { outcome := .error "Encryption failed: negative value",
        offered := [.int 5] ++ [.int (-1)],
        errorLog := [[Js.Number.int 5].length + 1] } :=
  (encryptUint32Array_all_or_nothing (some exampleInstance)
    [.int 5, .int (-1), .int 9]).1 [.int 5] (.int (-1)) [.int 9]
    "Encryption failed: negative value" rfl
    (fun x hx => by
      rw [List.mem_singleton] at hx
      subst hx
      exact ⟨_, rfl⟩)
    (by decide)

/-- C12 (the code departs from the claim).  For the values `[1, 2]`, whose
encryptions have the handles 1001 and 1002 and the proofs 1008 and 1009, the
ledger call made by `useContractFHE.uploadDataset` has four positional
arguments, name, description, the proofs and the price: the ciphertext handles
are not in the call, and the arguments do not match the five parameters of the
FHE ledger signature. -/
theorem uploadDataset_call_has_no_handles :
    Fhevm.encryptUint32Array (some exampleInstance) [.int 1, .int 2] =
      .ok [{ data := some 1001, proof := 1008 }, { data := some 1002, proof := 1009 }] ∧
    UseContractFHE.uploadDatasetCall
        { contract := true, fhevmReady := true, fhevmInstance := some exampleInstance }
        "n" "d" [.int 1, .int 2] "0.01" =
      .ok { name := "n", description := "d", inputProofs := [1008, 1009],
            priceWei := 10000000000000000, gasLimit := 5000000 } ∧
    FheUploadCall.positional
        { name := "n", description := "d", inputProofs := [1008, 1009],
          priceWei := 10000000000000000, gasLimit := 5000000 } =
      [.text "n", .text "d", .proofs [1008, 1009], .amount 10000000000000000] ∧
    CallArg.handles [some 1001, some 1002] ∉
      FheUploadCall.positional
        { name := "n", description := "d", inputProofs := [1008, 1009],
          priceWei := 10000000000000000, gasLimit := 5000000 } ∧
    argsMatch
        (FheUploadCall.positional
          { name := "n", description := "d", inputProofs := [1008, 1009],
            priceWei := 10000000000000000, gasLimit := 5000000 })
        fheUploadDatasetParams = false ∧
    argsMatch
        [.text "n", .text "d", .handles [some 1001, some 1002], .proofs [1008, 1009],
          .amount 10000000000000000]
        fheUploadDatasetParams = true := by
  decide

/-! ## The mode selector claims -/

open UseContractSwitch

/-- C13 (as stated, fails).  In the state with mode 'mock' and
`isAutoFallback = false`, `fallbackToMock()` changes nothing: afterwards
`isAutoFallback` is still false. -/
theorem fallbackToMock_in_mock_keeps_flag_false :
    fallbackToMock { selectedMode := "mock", isAutoFallback := false, contractMode := none } =
      { selectedMode := "mock", isAutoFallback := false, contractMode := none } ∧
    (fallbackToMock
      { selectedMode := "mock", isAutoFallback := false, contractMode := none }).isAutoFallback
      ≠ true := by
  decide

/-- C13 (amended).  For every state whose mode is 'mock' or 'fhe', after
`fallbackToMock()` the mode is 'mock'; `isAutoFallback` is true when the mode
was 'fhe', and is what it was when the mode was already 'mock'. -/
theorem fallbackToMock_forces_mock (s : SwitchState)
    (hmode : s.selectedMode = "mock" ∨ s.selectedMode = "fhe") :
    (fallbackToMock s).selectedMode = "mock" ∧
    (s.selectedMode = "fhe" → (fallbackToMock s).isAutoFallback = true) ∧
    (s.selectedMode = "mock" → (fallbackToMock s).isAutoFallback = s.isAutoFallback) := by
  rcases hmode with h | h
  · have hne : ¬ s.selectedMode = "fhe" := by rw [h]; decide
    have hf : fallbackToMock s = s := by
      unfold fallbackToMock
      rw [if_neg hne]
    rw [hf]
    exact ⟨h, fun hc => absurd hc hne, fun _ => rfl⟩
  · have hf : fallbackToMock s = { s with selectedMode := "mock", isAutoFallback := true } := by
      unfold fallbackToMock
      rw [if_pos h]
    rw [hf]
    refine ⟨rfl, fun _ => rfl, fun hc => ?_⟩
    rw [h] at hc
    exact absurd hc (by decide)

/-- C13 (amended), at a concrete input: mode 'fhe', flag false. -/
theorem fallbackToMock_forces_mock_witness :
    (fallbackToMock
      { selectedMode := "fhe", isAutoFallback := false, contractMode := some "fhe" }).selectedMode
      = "mock" ∧
    (fallbackToMock
      { selectedMode := "fhe", isAutoFallback := false,
        contractMode := some "fhe" }).isAutoFallback = true :=
  ⟨(fallbackToMock_forces_mock
      { selectedMode := "fhe", isAutoFallback := false, contractMode := some "fhe" }
      (Or.inr rfl)).1,
   (fallbackToMock_forces_mock
      { selectedMode := "fhe", isAutoFallback := false, contractMode := some "fhe" }
      (Or.inr rfl)).2.1 rfl⟩

/-- C14 (as stated, fails).  After the user has switched to 'mock' the state is
mode 'mock' with `isAutoFallback = false`; `fallbackToMock()`, applied once or
twice, leaves the mode 'mock' and leaves `isAutoFallback` false, not true. -/
theorem fallbackToMock_in_mock_does_not_raise_flag :
    switchMode "mock" (startSession (some "fhe")) =
      { selectedMode := "mock", isAutoFallback := false, contractMode := some "mock" } ∧
    fallbackToMock (switchMode "mock" (startSession (some "fhe"))) =
      { selectedMode := "mock", isAutoFallback := false, contractMode := some "mock" } ∧
    fallbackToMock (fallbackToMock (switchMode "mock" (startSession (some "fhe")))) =
      { selectedMode := "mock", isAutoFallback := false, contractMode := some "mock" } := by
  decide

/-- C14 (amended).  `fallbackToMock` is idempotent: for every state, applying
it twice gives the state that applying it once gives.  In mode 'fhe' it sets
the mode to 'mock' and `isAutoFallback` to true and leaves the persisted value
alone; in every other mode, 'mock' included, it changes nothing, so the mode
stays 'mock' and `isAutoFallback` keeps the value it had.  After one call from
'fhe' the state is 'mock' with the flag true, and a further call leaves both
so. -/
theorem fallbackToMock_idempotent (s : SwitchState) :
    fallbackToMock (fallbackToMock s) = fallbackToMock s ∧
    (s.selectedMode = "fhe" →
      fallbackToMock s =
        { selectedMode := "mock", isAutoFallback := true, contractMode := s.contractMode } ∧
      (fallbackToMock (fallbackToMock s)).selectedMode = "mock" ∧
      (fallbackToMock (fallbackToMock s)).isAutoFallback = true) ∧
    (s.selectedMode = "mock" →
      fallbackToMock s = s ∧ (fallbackToMock s).selectedMode = "mock" ∧
      (fallbackToMock s).isAutoFallback = s.isAutoFallback) ∧
    (s.selectedMode ≠ "fhe" → fallbackToMock s = s) := by
  have keep : ∀ t : SwitchState, ¬ t.selectedMode = "fhe" → fallbackToMock t = t := by
    intro t ht
    unfold fallbackToMock
    rw [if_neg ht]
  have fall : ∀ t : SwitchState, t.selectedMode = "fhe" → fallbackToMock t =
      { selectedMode := "mock", isAutoFallback := true, contractMode := t.contractMode } := by
    intro t ht
    unfold fallbackToMock
    rw [if_pos ht]
  have hmock : ¬ ("mock" : String) = "fhe" := by decide
  refine ⟨?_, ?_, ?_, fun h => keep s h⟩
  · by_cases h : s.selectedMode = "fhe"
    · rw [fall s h]
      exact keep _ hmock
    · rw [keep s h]
      exact keep s h
  · intro h
    rw [fall s h, keep _ hmock]
    exact ⟨rfl, rfl, rfl⟩
  · intro h
    have hne : ¬ s.selectedMode = "fhe" := by rw [h]; exact hmock
    rw [keep s hne]
    exact ⟨rfl, h, rfl⟩

/-- C14 (amended), at concrete inputs: a call in mode 'fhe' gives mode 'mock'
with the flag true, which a second call keeps; a call in mode 'mock' with the
flag false leaves the flag false. -/
theorem fallbackToMock_idempotent_witness :
    fallbackToMock { selectedMode := "fhe", isAutoFallback := false, contractMode := some "fhe" } =
      { selectedMode := "mock", isAutoFallback := true, contractMode := some "fhe" } ∧
    (fallbackToMock (fallbackToMock
      { selectedMode := "fhe", isAutoFallback := false,
        contractMode := some "fhe" })).isAutoFallback = true ∧
    (fallbackToMock
      { selectedMode := "mock", isAutoFallback := false,
        contractMode := some "mock" }).isAutoFallback = false :=
  ⟨((fallbackToMock_idempotent
      { selectedMode := "fhe", isAutoFallback := false, contractMode := some "fhe" }).2.1 rfl).1,
   ((fallbackToMock_idempotent
      { selectedMode := "fhe", isAutoFallback := false,
        contractMode := some "fhe" }).2.1 rfl).2.2,
   ((fallbackToMock_idempotent
      { selectedMode := "mock", isAutoFallback := false,
        contractMode := some "mock" }).2.2.1 rfl).2.2⟩

/-- C15 (the code departs from the claim).  With mode 'fhe' on chain 11155111,
a gateway probe that is rejected, or answered with a response that is not ok,
leaves the state as it was, mode 'fhe' and `isAutoFallback = false`: the
handlers only write a warning, and the state `fallbackToMock` would give, mode
'mock' with the flag true, is not reached. -/
theorem gatewayCheck_does_not_fall_back :
    gatewayCheck { selectedMode := "fhe", isAutoFallback := false, contractMode := some "fhe" }
        11155111 .rejected =
      ({ selectedMode := "fhe", isAutoFallback := false, contractMode := some "fhe" },
       ["⚠️ 无法连接到 Gateway，建议使用 Mock 模式"]) ∧
    gatewayCheck { selectedMode := "fhe", isAutoFallback := false, contractMode := some "fhe" }
        11155111 (.responded false) =
      ({ selectedMode := "fhe", isAutoFallback := false, contractMode := some "fhe" },
       ["⚠️ Gateway 健康检查失败，建议使用 Mock 模式"]) ∧
    fallbackToMock { selectedMode := "fhe", isAutoFallback := false, contractMode := some "fhe" }
      = { selectedMode := "mock", isAutoFallback := true, contractMode := some "fhe" } ∧
    (gatewayCheck { selectedMode := "fhe", isAutoFallback := false, contractMode := some "fhe" }
        11155111 .rejected).1 ≠
      fallbackToMock
        { selectedMode := "fhe", isAutoFallback := false, contractMode := some "fhe" } := by
  decide

/-- C16.  For a mode `m` that is 'mock' or 'fhe' and every prior state,
`switchMode(m)` sets the mode to `m`, writes `m` under the key 'contractMode'
and clears `isAutoFallback`; a session started afterwards starts in mode `m`;
a session started with nothing persisted starts in 'mock'; and
`fallbackToMock` never changes the persisted value. -/
theorem switchMode_round_trip (m : String) (s : SwitchState) (hm : m = "mock" ∨ m = "fhe") :
    switchMode m s = { selectedMode := m, isAutoFallback := false, contractMode := some m } ∧
    (startSession (switchMode m s).contractMode).selectedMode = m ∧
    (startSession none).selectedMode = "mock" ∧
    (∀ t : SwitchState, (fallbackToMock t).contractMode = t.contractMode) := by
  refine ⟨rfl, ?_, rfl, ?_⟩
  · rcases hm with h | h <;> subst h <;>
      simp [startSession, switchMode, initialMode]
  · intro t
    by_cases h : t.selectedMode = "fhe"
    · simp only [fallbackToMock, h, if_true]
    · simp only [fallbackToMock, h, if_false]

/-- C16, at a concrete input: switching to 'fhe' from a state reached by a
fallback. -/
theorem switchMode_round_trip_witness :
    switchMode "fhe" { selectedMode := "mock", isAutoFallback := true, contractMode := none } =
      { selectedMode := "fhe", isAutoFallback := false, contractMode := some "fhe" } ∧
    (startSession (switchMode "fhe"
      { selectedMode := "mock", isAutoFallback := true,
        contractMode := none }).contractMode).selectedMode = "fhe" :=
  ⟨(switchMode_round_trip "fhe"
      { selectedMode := "mock", isAutoFallback := true, contractMode := none } (Or.inr rfl)).1,
   (switchMode_round_trip "fhe"
      { selectedMode := "mock", isAutoFallback := true, contractMode := none } (Or.inr rfl)).2.1⟩

/-- C17 (the code departs from the claim).  After the mode selector of `App`
has persisted 'fhe' (and likewise with 'fhe' persisted from before),
`useContractMode` returns `isFHEMode = false`, mode 'Mock' and the mock hook's
operations: it returns by the constant `FHEVM_ENABLED`, which is false, whereas
the reader of the persisted value, `getUserContractMode`, gives 'fhe'. -/
theorem useContractMode_ignores_preference :
    App.selectMode "fhe" none = some "fhe" ∧
    Config.getUserContractMode (App.selectMode "fhe" none) = "fhe" ∧
    useContractMode (App.selectMode "fhe" none) 11155111 =
      { hook := .mockHook, mode := "Mock", isFHEMode := false, shouldUseFHE := false } ∧
    useContractMode (some "fhe") 11155111 =
      { hook := .mockHook, mode := "Mock", isFHEMode := false, shouldUseFHE := false } := by
  decide

/-! ## Lemmas on receipts and event logs -/

/-- One step of the log loop of `purchaseQuery`: a log that decodes to
`QueryExecuted` ends it with its query id, any other log is passed over. -/
theorem queryIdFromLogs_cons (l : Option ParsedLog) (rest : List (Option ParsedLog)) :
    UseContract.queryIdFromLogs (l :: rest) =
      match UseContract.decodeQueryExecuted l with
      | some q => some q
      | none => UseContract.queryIdFromLogs rest := by
  cases l with
  | none => simp only [UseContract.queryIdFromLogs, UseContract.decodeQueryExecuted]
  | some parsed =>
    by_cases hn : parsed.name = "QueryExecuted"
    · cases ha : parsed.arg "queryId" with
      | none => simp only [UseContract.queryIdFromLogs, UseContract.decodeQueryExecuted, hn,
          if_true, ha]
      | some q => simp only [UseContract.queryIdFromLogs, UseContract.decodeQueryExecuted, hn,
          if_true, ha]
    · simp only [UseContract.queryIdFromLogs, UseContract.decodeQueryExecuted, hn, if_false]

/-- The log loop of `purchaseQuery` returns the query id of the first log that
decodes to `QueryExecuted`. -/
theorem queryIdFromLogs_first (l : Option ParsedLog) (post : List (Option ParsedLog)) (q : Nat)
    (hl : UseContract.decodeQueryExecuted l = some q) :
    ∀ pre : List (Option ParsedLog), (∀ x ∈ pre, UseContract.decodeQueryExecuted x = none) →
      UseContract.queryIdFromLogs (pre ++ l :: post) = some q := by
  intro pre
  induction pre with
  | nil =>
    intro _
    rw [List.nil_append, queryIdFromLogs_cons, hl]
  | cons x pre ih =>
    intro hpre
    rw [List.cons_append, queryIdFromLogs_cons, hpre x (List.mem_cons_self x pre)]
    exact ih (fun y hy => hpre y (List.mem_cons_of_mem x hy))

/-- The log loop of `purchaseQuery` ends without a query id when no log decodes
to `QueryExecuted`. -/
theorem queryIdFromLogs_none (logs : List (Option ParsedLog))
    (h : ∀ x ∈ logs, UseContract.decodeQueryExecuted x = none) :
    UseContract.queryIdFromLogs logs = none := by
  induction logs with
  | nil => rfl
  | cons x logs ih =>
    rw [queryIdFromLogs_cons, h x (List.mem_cons_self x logs)]
    exact ih (fun y hy => h y (List.mem_cons_of_mem x hy))

/-- The confirmation loop of `purchaseQuery` reaches the first poll that shows
a confirmed receipt and returns on it. -/
theorem confirmLoop_first_confirmed (polls : Nat → UseContract.ReceiptPoll) (k : Nat)
    (receipt : Receipt) (hk : k < 60) (hp : polls k = .ok (some receipt))
    (hconf : receipt.blockNumber ≠ 0) :
    ∀ (fuel i : Nat), i ≤ k → k - i < fuel →
      (∀ j, i ≤ j → j < k → (polls j).isConfirmed = false) →
      UseContract.confirmLoop polls fuel i = some
        { outcome := .ok { success := true,
                           queryId := UseContract.queryIdFromLogs receipt.logs,
                           result := none, txHash := receipt.hash },
          reads := k + 1, waits := k } := by
  intro fuel
  induction fuel with
  | zero => intro i _ h; omega
  | succ fuel ih =>
    intro i hle hfuel hbefore
    have hi : i < 60 := by omega
    by_cases hik : i = k
    · subst hik
      simp only [UseContract.confirmLoop, hi, if_true, hp, hconf, ne_eq, not_false_eq_true]
    · have hnot := hbefore i (Nat.le_refl i) (by omega)
      have hstep : UseContract.confirmLoop polls (fuel + 1) i =
          UseContract.confirmLoop polls fuel (i + 1) := by
        cases hpi : polls i with
        | threw c => simp only [UseContract.confirmLoop, hi, if_true, hpi]
        | ok r =>
          cases r with
          | none => simp only [UseContract.confirmLoop, hi, if_true, hpi]
          | some rc =>
            have hz : rc.blockNumber = 0 := by
              simpa [UseContract.ReceiptPoll.isConfirmed, hpi] using hnot
            simp only [UseContract.confirmLoop, hi, if_true, hpi, hz, ne_eq, not_true_eq_false,
              if_false]
      rw [hstep]
      exact ih (i + 1) (by omega) (by omega) (fun j hj hjk => hbefore j (by omega) hjk)

/-- No event of the given name is found when no log decodes to one. -/
theorem findEvent_none (name : String) (logs : List (Option ParsedLog))
    (h : ∀ p, some p ∈ logs → p.name ≠ name) : findEvent name logs = none := by
  induction logs with
  | nil => rfl
  | cons x logs ih =>
    have hrest := ih (fun p hp => h p (List.mem_cons_of_mem x hp))
    cases x with
    | none => simp only [findEvent, hrest]
    | some parsed =>
      have hn : ¬ parsed.name = name := h parsed (List.mem_cons_self _ _)
      simp only [findEvent, hn, if_false, hrest]

/-! ## The receipt claims -/

/-- C18.  In `useContract.purchaseQuery`, when the first confirmed receipt (one
with a block number) arrives at the `k`-th of the 60 polls: if some log
decodes to `QueryExecuted`, the call returns success with the query id of the
first such log in receipt order, the logs before it that do not decode being
passed over; and if no log decodes to `QueryExecuted`, the call still returns
`success: true`, with `queryId` null and the receipt's hash. -/
theorem purchaseQuery_confirmed_receipt (polls : Nat → UseContract.ReceiptPoll) (fuel k : Nat)
    (receipt : Receipt) (hk : k < 60) (hfuel : k < fuel)
    (hp : polls k = .ok (some receipt)) (hconf : receipt.blockNumber ≠ 0)
    (hbefore : ∀ j, j < k → (polls j).isConfirmed = false) :
    (∀ pre l post q, receipt.logs = pre ++ l :: post →
      UseContract.decodeQueryExecuted l = some q →
      (∀ x ∈ pre, UseContract.decodeQueryExecuted x = none) →
      UseContract.purchaseQueryConfirm fuel polls = some
        { outcome := .ok { success := true, queryId := some q, result := none,
                           txHash := receipt.hash },
          reads := k + 1, waits := k }) ∧
    ((∀ x ∈ receipt.logs, UseContract.decodeQueryExecuted x = none) →
      UseContract.purchaseQueryConfirm fuel polls = some
        { outcome := .ok { success := true, queryId := none, result := none,
                           txHash := receipt.hash },
          reads := k + 1, waits := k }) := by
  have hrun := confirmLoop_first_confirmed polls k receipt hk hp hconf fuel 0 (Nat.zero_le k)
    (by simpa using hfuel) (fun j _ hj => hbefore j hj)
  constructor
  · intro pre l post q hlogs hl hpre
    rw [UseContract.purchaseQueryConfirm, hrun, hlogs, queryIdFromLogs_first l post q hl pre hpre]
  · intro hnone
    rw [UseContract.purchaseQueryConfirm, hrun, queryIdFromLogs_none receipt.logs hnone]

/-- C18, at a concrete input: the receipt arrives at the first poll, its first
log does not decode, its second is another event, its third and fourth are
`QueryExecuted` with ids 7 and 8. -/
theorem purchaseQuery_confirmed_receipt_witness :
    UseContract.purchaseQueryConfirm 1
        (fun _ => .ok (some
          { blockNumber := 10, status := 1, hash := some "0xabc",
            logs := [none, some { name := "DatasetUpdated", args := [("datasetId", 3)] },
                     some { name := "QueryExecuted", args := [("queryId", 7)] },
                     some { name := "QueryExecuted", args := [("queryId", 8)] }] })) =
      some { outcome := .ok { success := true, queryId := some 7, result := none,
                              txHash := some "0xabc" },
             reads := 0 + 1, waits := 0 } :=
  (purchaseQuery_confirmed_receipt
    (fun _ => .ok (some
      { blockNumber := 10, status := 1, hash := some "0xabc",
        logs := [none, some { name := "DatasetUpdated", args := [("datasetId", 3)] },
                 some { name := "QueryExecuted", args := [("queryId", 7)] },
                 some { name := "QueryExecuted", args := [("queryId", 8)] }] }))
    1 0
    { blockNumber := 10, status := 1, hash := some "0xabc",
      logs := [none, some { name := "DatasetUpdated", args := [("datasetId", 3)] },
               some { name := "QueryExecuted", args := [("queryId", 7)] },
               some { name := "QueryExecuted", args := [("queryId", 8)] }] }
    (by decide) (by decide) rfl (by decide)
    (fun j hj => absurd hj (Nat.not_lt_zero j))).1
    [none, some { name := "DatasetUpdated", args := [("datasetId", 3)] }]
    (some { name := "QueryExecuted", args := [("queryId", 7)] })
    [some { name := "QueryExecuted", args := [("queryId", 8)] }] 7 rfl (by decide) (by decide)

/-- C19 (as stated, fails).  For a confirmed receipt with status 1 and no log,
`useContractFHE.uploadDataset` throws '未找到 DatasetCreated 事件' and
`useContractFHE.executeQuery` throws '未找到 QueryExecuted 事件': neither
returns a success result. -/
theorem fhe_write_methods_throw_without_event :
    UseContractFHE.uploadDatasetResult
        { blockNumber := 10, status := 1, hash := some "0xabc", logs := [] } "0xabc" =
      .error (.message "未找到 DatasetCreated 事件") ∧
    UseContractFHE.executeQueryResult 61 (pollsOf [])
        { blockNumber := 10, status := 1, hash := some "0xabc", logs := [] } "0xabc" =
      some (.error (.message "未找到 QueryExecuted 事件")) := by
  decide

/-- C19 (amended).  For the FHE ledger client's write methods, a confirmed
transaction (receipt status not 0) whose receipt has no log that decodes to
`DatasetCreated`, respectively `QueryExecuted`, is a fatal error:
`uploadDataset` throws '未找到 DatasetCreated 事件' and `executeQuery` throws
'未找到 QueryExecuted 事件', whatever the ledger would show afterwards. -/
theorem fhe_write_methods_need_event (receipt : Receipt) (txHash : String)
    (hstatus : receipt.status ≠ 0) :
    ((∀ p, some p ∈ receipt.logs → p.name ≠ "DatasetCreated") →
      UseContractFHE.uploadDatasetResult receipt txHash =
        .error (.message "未找到 DatasetCreated 事件")) ∧
    ((∀ p, some p ∈ receipt.logs → p.name ≠ "QueryExecuted") →
      ∀ (fuel : Nat) (polls : Nat → PollOutcome),
        UseContractFHE.executeQueryResult fuel polls receipt txHash =
          some (.error (.message "未找到 QueryExecuted 事件"))) := by
  have hwait : Ethers.wait receipt = .ok receipt := by
    simp only [Ethers.wait, hstatus, if_false]
  constructor
  · intro h
    simp only [UseContractFHE.uploadDatasetResult, hwait,
      findEvent_none "DatasetCreated" receipt.logs h]
  · intro h fuel polls
    simp only [UseContractFHE.executeQueryResult, hwait,
      findEvent_none "QueryExecuted" receipt.logs h]

/-- C19 (amended), at a concrete input: a receipt whose only decodable log is a
`QueryExecuted` event, given to `uploadDataset`. -/
theorem fhe_write_methods_need_event_witness :
    UseContractFHE.uploadDatasetResult
        { blockNumber := 10, status := 1, hash := some "0xabc",
          logs := [none, some { name := "QueryExecuted", args := [("queryId", 7)] }] }
        "0xabc" =
      .error (.message "未找到 DatasetCreated 事件") :=
  (fhe_write_methods_need_event
    { blockNumber := 10, status := 1, hash := some "0xabc",
      logs := [none, some { name := "QueryExecuted", args := [("queryId", 7)] }] }
    "0xabc" (by decide)).1 (fun p hp => by
      simp only [List.mem_cons, List.mem_singleton, Option.some.injEq, List.not_mem_nil,
        or_false, false_or, reduceCtorEq] at hp
      subst hp
      decide)

/-- C20 (the code departs from the claim).  `useContract.uploadDataset` never
returns a result, whatever it is called with and whatever receipt the ledger
would give: its ledger call passes five values, the last a `bigint`, to a
function that `CONTRACT_ABI` declares with four parameters, and ethers throws
'no matching fragment' before a transaction is sent (the call
`uploadDataset('n', 'd', [1, 2], '0.01')` with the hook's mock instance ends
so).  For a confirmed receipt whose log is a `DatasetCreated` event with
dataset id 7, `DataUpload.handleMockUpload` and `useContractFHE.uploadDataset`
return `datasetId = 7`. -/
theorem useContract_uploadDataset_always_throws (contract : Bool)
    (fhevmInstance : Option Bool) (name description : String) (dataArray : List (List Char))
    (pricePerQuery : String) (receipt : Receipt) :
    (∃ e, UseContract.uploadDataset contract fhevmInstance name description dataArray
      pricePerQuery receipt = .error e) ∧
    Ethers.getFragment CONTRACT_ABI.uploadDataset
        [.text "n", .text "d", .list 2, .list 0, .bigint 10000000000000000] =
      .error "no matching fragment" ∧
    UseContract.uploadDataset true (some true) "n" "d" [['1'], ['2']] "0.01"
        { blockNumber := 10, status := 1, hash := some "0xabc",
          logs := [some { name := "DatasetCreated",
                          args := [("datasetId", 7), ("pricePerQuery", 5)] }] } =
      .error "no matching fragment" ∧
    DataUpload.handleMockUploadResult
        { blockNumber := 10, status := 1, hash := some "0xabc",
          logs := [some { name := "DatasetCreated",
                          args := [("datasetId", 7), ("pricePerQuery", 5)] }] } "0xabc" =
      .ok { success := true, datasetId := some 7, txHash := some "0xabc",
            blockNumber := none } ∧
    UseContractFHE.uploadDatasetResult
        { blockNumber := 10, status := 1, hash := some "0xabc",
          logs := [some { name := "DatasetCreated",
                          args := [("datasetId", 7), ("pricePerQuery", 5)] }] } "0xabc" =
      .ok { success := true, datasetId := some 7, txHash := some "0xabc",
            blockNumber := some 10 } := by
  refine ⟨?_, by decide, by decide, by decide, by decide⟩
  unfold UseContract.uploadDataset
  split
  · exact ⟨_, rfl⟩
  · cases Ethers.parseEther pricePerQuery with
    | none => exact ⟨_, rfl⟩
    | some priceWei =>
      by_cases hm : fhevmInstance = some true
      · refine ⟨"no matching fragment", ?_⟩
        simp [hm, Ethers.getFragment, CONTRACT_ABI.uploadDataset, Ethers.Arg.canBeOverrides]
      · refine ⟨"TypeError: Cannot read properties of undefined (reading 'getAddress')", ?_⟩
        simp only [hm, if_false]

/-! ## Lemmas on digits -/

/-- A digit character has the digit as its value. -/
theorem digitValue_digitChar : ∀ d, d < 36 → DataUpload.digitValue (digitChar d) = some d := by
  decide

/-- The value of a digit sequence extended by one digit. -/
theorem digitsToNat_append (radix : Nat) (xs : List Nat) (d : Nat) :
    DataUpload.digitsToNat radix (xs ++ [d]) = DataUpload.digitsToNat radix xs * radix + d := by
  simp only [DataUpload.digitsToNat, List.foldl_append, List.foldl_cons, List.foldl_nil]

/-- On a text that starts with radix digits, `leadingDigits` reads them all and
goes on with what follows. -/
theorem leadingDigits_append (radix : Nat) (rest : List Char) :
    ∀ cs : List Char, (∀ c ∈ cs, ∃ d, DataUpload.digitValue c = some d ∧ d < radix) →
      DataUpload.leadingDigits radix (cs ++ rest) =
        cs.map (fun c => (DataUpload.digitValue c).getD 0) ++
          DataUpload.leadingDigits radix rest := by
  intro cs
  induction cs with
  | nil => intro _; rfl
  | cons c cs ih =>
    intro h
    obtain ⟨d, hd, hlt⟩ := h c (List.mem_cons_self c cs)
    have hrest := ih (fun y hy => h y (List.mem_cons_of_mem c hy))
    have hstep : DataUpload.leadingDigits radix (c :: (cs ++ rest)) =
        d :: DataUpload.leadingDigits radix (cs ++ rest) := by
      simp only [DataUpload.leadingDigits, hd, hlt, if_true]
    rw [List.cons_append, hstep, hrest]
    simp only [List.map_cons, hd, Option.getD_some, List.cons_append]

/-- The digits `toString(radix)` writes are radix digits, at least one, and
they denote the number. -/
theorem toDigitsFuel_spec (radix : Nat) (h2 : 2 ≤ radix) (h36 : radix ≤ 36) :
    ∀ fuel n, n < fuel →
      toDigitsFuel radix fuel n ≠ [] ∧
      (∀ c ∈ toDigitsFuel radix fuel n,
        ∃ d, DataUpload.digitValue c = some d ∧ d < radix) ∧
      DataUpload.digitsToNat radix
        ((toDigitsFuel radix fuel n).map (fun c => (DataUpload.digitValue c).getD 0)) = n := by
  intro fuel
  induction fuel with
  | zero => intro n h; omega
  | succ fuel ih =>
    intro n hn
    by_cases hlt : n < radix
    · have hv := digitValue_digitChar n (by omega)
      simp only [toDigitsFuel, hlt, if_true]
      refine ⟨by simp, ?_, ?_⟩
      · intro c hc
        rw [List.mem_singleton] at hc
        subst hc
        exact ⟨n, hv, hlt⟩
      · simp [DataUpload.digitsToNat, hv]
    · have hdiv : n / radix < fuel := by
        have : n / radix < n := Nat.div_lt_self (by omega) (by omega)
        omega
      obtain ⟨_, hall, hval⟩ := ih (n / radix) hdiv
      have hmod : n % radix < radix := Nat.mod_lt n (by omega)
      have hv := digitValue_digitChar (n % radix) (by omega)
      simp only [toDigitsFuel, hlt, if_false]
      refine ⟨by simp, ?_, ?_⟩
      · intro c hc
        rcases List.mem_append.mp hc with h | h
        · exact hall c h
        · rw [List.mem_singleton] at h
          subst h
          exact ⟨n % radix, hv, hmod⟩
      · rw [List.map_append, List.map_cons, List.map_nil, hv, Option.getD_some,
          digitsToNat_append, hval]
        exact Nat.div_add_mod' n radix

/-- The digits of `n.toString(radix)`, read back, give `n`. -/
theorem natToString_spec (radix : Nat) (h2 : 2 ≤ radix) (h36 : radix ≤ 36) (n : Nat) :
    natToString radix n ≠ [] ∧
    (∀ c ∈ natToString radix n, ∃ d, DataUpload.digitValue c = some d ∧ d < radix) ∧
    DataUpload.leadingDigits radix (natToString radix n) =
      (natToString radix n).map (fun c => (DataUpload.digitValue c).getD 0) ∧
    DataUpload.digitsToNat radix
      ((natToString radix n).map (fun c => (DataUpload.digitValue c).getD 0)) = n := by
  obtain ⟨h1, hall, hval⟩ := toDigitsFuel_spec radix h2 h36 (n + 1) n (Nat.lt_succ_self n)
  refine ⟨h1, hall, ?_, hval⟩
  have h := leadingDigits_append radix [] (natToString radix n) hall
  simpa [DataUpload.leadingDigits] using h

/-- Decoding the hexadecimal form of a number gives the number. -/
theorem decodeHexValue_natToString (p : Nat) :
    decodeHexValue ("0x" ++ String.mk (natToString 16 p)) = some p := by
  obtain ⟨hne, _, hlead, hval⟩ := natToString_spec 16 (by decide) (by decide) p
  have htl : ("0x" ++ String.mk (natToString 16 p)).toList = '0' :: 'x' :: natToString 16 p := by
    simp [String.toList, String.data_append]
  have hlen : (DataUpload.leadingDigits 16 (natToString 16 p)).length =
      (natToString 16 p).length := by
    rw [hlead, List.length_map]
  have hfrom : fromHex (natToString 16 p) = p := by
    have : fromHex (natToString 16 p) = DataUpload.digitsToNat 16
        ((natToString 16 p).map (fun c => (DataUpload.digitValue c).getD 0)) := by
      simp only [fromHex, DataUpload.digitsToNat, List.foldl_map]
    rw [this, hval]
  simp only [decodeHexValue, htl, hne, hlen, ne_eq, not_false_eq_true, and_self, if_true,
    hfrom]


/-! ## The query submission claims -/

/-- Encoding a JavaScript number in `[0, 2^53 - 1]` as `uint256` leaves it as it
is. -/
theorem encodeParam_number (n : Int) (h : 0 ≤ n ∧ n ≤ Ethers.maxValue) :
    encodeParam (.number n) = .ok n.toNat := by
  have hm : Ethers.maxValue = 9007199254740991 := by decide
  have h1 : -Ethers.maxValue ≤ n ∧ n ≤ Ethers.maxValue := by omega
  have h2 : 0 ≤ n ∧ n < 2 ^ 256 := by
    refine ⟨h.1, ?_⟩
    have h3 : (9007199254740991 : Int) < 2 ^ 256 := by norm_num
    omega
  simp only [encodeParam, Ethers.getBigInt, Ethers.encodeUint256, h1, h2, and_self, if_true]

/-- The transaction `purchaseQuery` hands over when every step before the
request succeeds. -/
theorem purchaseQuerySend_ok (env : UseContract.QueryEnv) (datasetId queryType : Int)
    (parameter : ParamValue) (dataset : DatasetRecord) (sender p : Nat)
    (hc : env.contract = true) (hd : env.getDataset datasetId = .ok dataset)
    (hs : env.signerAddress = .ok sender)
    (hid : 0 ≤ datasetId ∧ datasetId ≤ Ethers.maxValue)
    (hq : 0 ≤ queryType ∧ queryType < 256)
    (hp : encodeParam parameter.orZero = .ok p) :
    UseContract.purchaseQuerySend env datasetId queryType parameter = .ok
      { fromAddress := sender, toAddress := CONTRACT_ADDRESS,
        data := { datasetId := datasetId.toNat, queryType := queryType.toNat, parameter := p },
        value := "0x" ++ String.mk (natToString 16 dataset.pricePerQuery) } := by
  have hm : Ethers.maxValue = 9007199254740991 := by decide
  have hdat : dataset.at 5 = some (.uint dataset.pricePerQuery) := rfl
  have hqe : encodeParam (.number queryType) = .ok queryType.toNat :=
    encodeParam_number queryType ⟨hq.1, by omega⟩
  have hq8 : Ethers.encodeUint8 ((queryType.toNat : Nat) : Int) = .ok queryType.toNat := by
    have hcast : ((queryType.toNat : Nat) : Int) = queryType := Int.toNat_of_nonneg hq.1
    have h8 : 0 ≤ queryType ∧ queryType < 2 ^ 8 := ⟨hq.1, by norm_num; omega⟩
    simp only [Ethers.encodeUint8, hcast, h8, and_self, if_true]
  simp only [UseContract.purchaseQuerySend, hc, Bool.not_true, Bool.false_eq_true, if_false, hd,
    hdat, hs, encodeParam_number datasetId hid, hqe, hp, hq8]

/-- C21.  In `useContract.purchaseQuery`, for a dataset whose ledger record
has `pricePerQuery = p`, the transaction handed to the wallet (when the steps
before the request succeed) has as value field the text `0x` followed by
`p.toString(16)`, which decodes to exactly `p`, and its call data carry the
requested dataset id and query type unchanged. -/
theorem purchaseQuery_pays_price (env : UseContract.QueryEnv) (datasetId queryType : Int)
    (parameter : ParamValue) (dataset : DatasetRecord) (sender param : Nat)
    (hc : env.contract = true) (hd : env.getDataset datasetId = .ok dataset)
    (hs : env.signerAddress = .ok sender)
    (hid : 0 ≤ datasetId ∧ datasetId ≤ Ethers.maxValue)
    (hq : 0 ≤ queryType ∧ queryType < 256)
    (hp : encodeParam parameter.orZero = .ok param) :
    ∃ tx, UseContract.purchaseQuerySend env datasetId queryType parameter = .ok tx ∧
      tx.value = "0x" ++ String.mk (natToString 16 dataset.pricePerQuery) ∧
      decodeHexValue tx.value = some dataset.pricePerQuery ∧
      (tx.data.datasetId : Int) = datasetId ∧ (tx.data.queryType : Int) = queryType ∧
      tx.toAddress = CONTRACT_ADDRESS ∧ tx.fromAddress = sender := by
  refine ⟨_, purchaseQuerySend_ok env datasetId queryType parameter dataset sender param hc hd hs
    hid hq hp, rfl, ?_, ?_, ?_, rfl, rfl⟩
  · exact decodeHexValue_natToString dataset.pricePerQuery
  · exact Int.toNat_of_nonneg hid.1
  · exact Int.toNat_of_nonneg hq.1

/-- C21, at a concrete input: dataset 1 priced 1000000000000000 wei, a
`COUNT_ABOVE` query with threshold 200. -/
theorem purchaseQuery_pays_price_witness :
    ∃ tx, UseContract.purchaseQuerySend exampleQueryEnv 1 2 (.number 200) = .ok tx ∧
      tx.value = "0x" ++ String.mk (natToString 16 1000000000000000) ∧
      decodeHexValue tx.value = some 1000000000000000 ∧
      (tx.data.datasetId : Int) = 1 ∧ (tx.data.queryType : Int) = 2 ∧
      tx.toAddress = CONTRACT_ADDRESS ∧ tx.fromAddress = 77 :=
  purchaseQuery_pays_price exampleQueryEnv 1 2 (.number 200)
    (exampleDataset 1 "A" 1000000000000000 0) 77 200 rfl rfl rfl (by decide) (by decide)
    (by decide)

/-- C22 (the code departs from the claim).  A receipt with block number 10 and
status 0 (mined and reverted) at the first poll: `useContract.purchaseQuery`
returns `{ success: true, queryId: null }`, it never looks at the status;
`DataUpload.handleMockUpload` fails on the same receipt with 'Transaction
failed on blockchain!'. -/
theorem purchaseQuery_ignores_reverted_status :
    UseContract.purchaseQueryConfirm 1
        (fun _ => .ok (some { blockNumber := 10, status := 0, hash := some "0xabc", logs := [] }))
      = some { outcome := .ok { success := true, queryId := none, result := none,
                                txHash := some "0xabc" },
               reads := 1, waits := 0 } ∧
    DataUpload.handleMockUploadConfirm 1
        (fun _ => .ok (some { blockNumber := 10, status := 0, hash := some "0xabc", logs := [] }))
        "0xabc"
      = some (.error "Transaction failed on blockchain!") := by
  decide

/-- C23 (as stated, fails).  A `COUNT_ABOVE` submission with nothing entered in
the parameter field is not rejected: the transaction is handed over with
threshold 0.  And a `MEAN` submission carries what the field holds: with '200'
in the field the parameter sent is 200, with '300' it is 300. -/
theorem handleMockQuery_parameter_not_checked :
    QueryExecutor.handleExecuteQuery exampleQueryEnv true 1 (some 2) "" = .ok
      { fromAddress := 77, toAddress := CONTRACT_ADDRESS,
        data := { datasetId := 1, queryType := 2, parameter := 0 },
        value := "0x38d7ea4c68000" } ∧
    QueryExecutor.handleExecuteQuery exampleQueryEnv true 1 (some 0) "200" = .ok
      { fromAddress := 77, toAddress := CONTRACT_ADDRESS,
        data := { datasetId := 1, queryType := 0, parameter := 200 },
        value := "0x38d7ea4c68000" } ∧
    QueryExecutor.handleExecuteQuery exampleQueryEnv true 1 (some 0) "300" = .ok
      { fromAddress := 77, toAddress := CONTRACT_ADDRESS,
        data := { datasetId := 1, queryType := 0, parameter := 300 },
        value := "0x38d7ea4c68000" } := by
  decide

/-- C23 (amended).  `QueryExecutor.handleMockQuery` and
`useContract.purchaseQuery` treat the parameter field in the same way for
every query type: the parameter sent to the ledger is `parameter || 0`, that
is 0 when the field is empty, and otherwise the number the text of the field
denotes.  So a `COUNT_ABOVE` or `COUNT_BELOW` submission with no parameter
entered is sent with threshold 0, and a `MEAN` or `VARIANCE` submission
carries the number held in the field. -/
theorem handleMockQuery_sends_parameter_or_zero (env : UseContract.QueryEnv)
    (datasetId queryType : Int) (dataset : DatasetRecord) (sender : Nat)
    (hc : env.contract = true) (hd : env.getDataset datasetId = .ok dataset)
    (hs : env.signerAddress = .ok sender)
    (hid : 0 ≤ datasetId ∧ datasetId ≤ Ethers.maxValue)
    (hq : 0 ≤ queryType ∧ queryType < 256) :
    QueryExecutor.handleMockQuery env datasetId queryType "" = .ok
      { fromAddress := sender, toAddress := CONTRACT_ADDRESS,
        data := { datasetId := datasetId.toNat, queryType := queryType.toNat, parameter := 0 },
        value := "0x" ++ String.mk (natToString 16 dataset.pricePerQuery) } ∧
    (∀ (text : String) (n : Int), text ≠ "" → Ethers.getBigIntString text = .ok n →
      0 ≤ n ∧ n < 2 ^ 256 →
      QueryExecutor.handleMockQuery env datasetId queryType text = .ok
        { fromAddress := sender, toAddress := CONTRACT_ADDRESS,
          data := { datasetId := datasetId.toNat, queryType := queryType.toNat,
                    parameter := n.toNat },
          value := "0x" ++ String.mk (natToString 16 dataset.pricePerQuery) }) := by
  constructor
  · apply purchaseQuerySend_ok env datasetId queryType _ dataset sender 0 hc hd hs hid hq
    decide
  · intro text n hne hn hrange
    apply purchaseQuerySend_ok env datasetId queryType _ dataset sender n.toNat hc hd hs hid hq
    simp only [ParamValue.orZero, hne, if_false, encodeParam, hn, Ethers.encodeUint256, hrange,
      and_self, if_true]

/-- C23 (amended), at a concrete input: a `COUNT_BELOW` submission with an
empty parameter field. -/
theorem handleMockQuery_sends_parameter_or_zero_witness :
    QueryExecutor.handleMockQuery exampleQueryEnv 1 3 "" = .ok
      { fromAddress := 77, toAddress := CONTRACT_ADDRESS,
        data := { datasetId := (1 : Int).toNat, queryType := (3 : Int).toNat, parameter := 0 },
        value := "0x" ++ String.mk (natToString 16
          (exampleDataset 1 "A" 1000000000000000 0).pricePerQuery) } :=
  (handleMockQuery_sends_parameter_or_zero exampleQueryEnv 1 3
    (exampleDataset 1 "A" 1000000000000000 0) 77 rfl rfl rfl (by decide) (by decide)).1

/-! ## The settlement claim -/

/-- C24.  The settlement split is exact: for every price `p` and the
configured platform fee of 5 percent, the shares add up to `p`, the platform
share is `floor(p * 5 / 100)` and the provider share is `p` less the platform
share; the price 1000 gives the provider 950 and the platform 50. -/
theorem settlementSplit_exact (p : Nat) :
    (settlementSplit p APP_CONFIG.platformFee).1 + (settlementSplit p APP_CONFIG.platformFee).2
      = p ∧
    (settlementSplit p APP_CONFIG.platformFee).2 = p * 5 / 100 ∧
    (settlementSplit p APP_CONFIG.platformFee).1 =
      p - (settlementSplit p APP_CONFIG.platformFee).2 ∧
    settlementSplit 1000 APP_CONFIG.platformFee = (950, 50) := by
  have hle : p * 5 / 100 ≤ p := by omega
  refine ⟨?_, rfl, rfl, by decide⟩
  simp only [settlementSplit, APP_CONFIG.platformFee]
  omega

/-! ## The record reading claims -/

/-- C25 (the code departs from the claim).  For the record `(id 1, datasetId 1,
buyer 77, queryType 0, parameter 0, result 200, status 2, price
1000000000000000, timestamp 1700000000)`, `MyQueries.loadMyQueries` builds an
object whose `paidAmount` is 2 (index 6, the status), whose `timestamp` is
1000000000000000 (index 7, the price) and whose `status` is 1700000000 (index
8, the timestamp), while in the order the ABI declares, which
`useDecryption.waitForQueryResult` follows, index 6 is the status, index 7 the
price and index 8 the timestamp. -/
theorem loadMyQueries_misreads_record :
    (MyQueries.toQueryObj
      { id := 1, datasetId := 1, buyer := 77, queryType := 0, parameter := 0, result := 200,
        status := 2, price := 1000000000000000, timestamp := 1700000000 } "A") =
      { id := 1, datasetId := 1, datasetName := "A", buyer := 77, queryType := 0,
        parameter := 0, result := 200, paidAmount := 2, timestamp := 1000000000000000,
        status := 1700000000 } ∧
    (QueryRecord.at
      { id := 1, datasetId := 1, buyer := 77, queryType := 0, parameter := 0, result := 200,
        status := 2, price := 1000000000000000, timestamp := 1700000000 } 6) = 2 ∧
    (QueryRecord.at
      { id := 1, datasetId := 1, buyer := 77, queryType := 0, parameter := 0, result := 200,
        status := 2, price := 1000000000000000, timestamp := 1700000000 } 7)
      = 1000000000000000 ∧
    (QueryRecord.at
      { id := 1, datasetId := 1, buyer := 77, queryType := 0, parameter := 0, result := 200,
        status := 2, price := 1000000000000000, timestamp := 1700000000 } 8)
      = 1700000000 := by
  decide

/-- C27 (the code departs from the claim).  On a ledger with the active
datasets 1 ('A') and 2 ('B'), one query each, where query 1 was made against
dataset 2 and query 2 against dataset 1, the inner loop run for dataset 1
reads query 1: `loadMyQueries` lists query 1, whose `datasetId` is 2, under the
name 'A', lists it a second time under 'B', and never lists query 2. -/
theorem loadMyQueries_lists_foreign_query :
    MyQueries.datasetQueries exampleLedger 77 1 =
      [{ id := 1, datasetId := 2, datasetName := "A", buyer := 77, queryType := 0,
         parameter := 0, result := 200, paidAmount := 2, timestamp := 1000,
         status := 1700000000 }] ∧
    MyQueries.loadMyQueries true (some 77) exampleLedger = some
      [{ id := 1, datasetId := 2, datasetName := "A", buyer := 77, queryType := 0,
         parameter := 0, result := 200, paidAmount := 2, timestamp := 1000,
         status := 1700000000 },
       { id := 1, datasetId := 2, datasetName := "B", buyer := 77, queryType := 0,
         parameter := 0, result := 200, paidAmount := 2, timestamp := 1000,
         status := 1700000000 }] := by
  decide

/-! ## The initialisation claims -/

/-- C26.  `useContractFHE.initContract` fails for every chain id outside
`11155111, 8009, 9000`, and then leaves the contract binding and `fhevmReady`
as they were; for a chain id inside the set the network check does not fail:
the call succeeds, stores the binding and sets `fhevmReady`. -/
theorem initContract_network_check (s : UseContractFHE.ClientState)
    (env : UseContractFHE.InitEnv) (chainId : Nat) (hnet : env.getNetwork = .ok chainId) :
    ((chainId ≠ 11155111 ∧ chainId ≠ 8009 ∧ chainId ≠ 9000) →
      (UseContractFHE.initContract s env).2 = .error UseContractFHE.unsupportedNetworkMessage ∧
      (UseContractFHE.initContract s env).1.hook.contract = s.hook.contract ∧
      (UseContractFHE.initContract s env).1.hook.fhevmReady = s.hook.fhevmReady) ∧
    ((chainId = 11155111 ∨ chainId = 8009 ∨ chainId = 9000) →
      (UseContractFHE.initContract s env).2 = .ok () ∧
      (UseContractFHE.initContract s env).1.hook.contract = true ∧
      (UseContractFHE.initContract s env).1.hook.fhevmReady = true) := by
  constructor
  · intro hout
    have hno : Fhevm.isFHEVMNetwork chainId = false := by
      simp [Fhevm.isFHEVMNetwork, Fhevm.FHEVM_CHAIN_IDS, hout.1, hout.2.1, hout.2.2]
    simp only [UseContractFHE.initContract, hnet, hno, Bool.not_false, if_true, and_self]
  · intro hin
    have hyes : Fhevm.isFHEVMNetwork chainId = true := by
      rcases hin with h | h | h <;> subst h <;> decide
    simp only [UseContractFHE.initContract, hnet, hyes, Bool.not_true, Bool.false_eq_true,
      if_false, and_self]

/-- C26, at concrete inputs: chain 1 (refused) and chain 11155111 (accepted),
from the initial state. -/
theorem initContract_network_check_witness :
    ((UseContractFHE.initContract UseContractFHE.initialState
        { getNetwork := .ok 1, createInstance := fun _ => .ok exampleInstance }).2
      = .error UseContractFHE.unsupportedNetworkMessage ∧
     (UseContractFHE.initContract UseContractFHE.initialState
        { getNetwork := .ok 1, createInstance := fun _ => .ok exampleInstance }).1.hook.contract
      = UseContractFHE.initialState.hook.contract ∧
     (UseContractFHE.initContract UseContractFHE.initialState
        { getNetwork := .ok 1, createInstance := fun _ => .ok exampleInstance }).1.hook.fhevmReady
      = UseContractFHE.initialState.hook.fhevmReady) ∧
    ((UseContractFHE.initContract UseContractFHE.initialState
        { getNetwork := .ok 11155111, createInstance := fun _ => .ok exampleInstance }).2
      = .ok () ∧
     (UseContractFHE.initContract UseContractFHE.initialState
        { getNetwork := .ok 11155111,
          createInstance := fun _ => .ok exampleInstance }).1.hook.contract = true ∧
     (UseContractFHE.initContract UseContractFHE.initialState
        { getNetwork := .ok 11155111,
          createInstance := fun _ => .ok exampleInstance }).1.hook.fhevmReady = true) :=
  ⟨(initContract_network_check UseContractFHE.initialState
      { getNetwork := .ok 1, createInstance := fun _ => .ok exampleInstance } 1 rfl).1
      (by decide),
   (initContract_network_check UseContractFHE.initialState
      { getNetwork := .ok 11155111, createInstance := fun _ => .ok exampleInstance }
      11155111 rfl).2 (Or.inl rfl)⟩

/-- C29 (the code departs from the claim).  From the initial state, on chain
11155111, when the library's `createInstance` throws: `initFhevm` catches the
error and returns `null`, `initContract` succeeds all the same and sets
`fhevmReady`, the shared instance is still missing, and `encryptUint32` fails
with 'FHEVM instance not initialized'. -/
theorem initContract_ready_without_instance :
    (UseContractFHE.initContract UseContractFHE.initialState
      { getNetwork := .ok 11155111, createInstance := fun _ => .error "gateway unreachable" }).2
      = .ok () ∧
    (UseContractFHE.initContract UseContractFHE.initialState
      { getNetwork := .ok 11155111,
        createInstance := fun _ => .error "gateway unreachable" }).1.hook.fhevmReady = true ∧
    (UseContractFHE.initContract UseContractFHE.initialState
      { getNetwork := .ok 11155111,
        createInstance := fun _ => .error "gateway unreachable" }).1.hook.fhevmInstance.isSome
      = false ∧
    (Fhevm.getFhevmInstance
      (UseContractFHE.initContract UseContractFHE.initialState
        { getNetwork := .ok 11155111,
          createInstance := fun _ => .error "gateway unreachable" }).1.hook.fhevmInstance).toBool
      = false ∧
    Fhevm.encryptUint32
      (UseContractFHE.initContract UseContractFHE.initialState
        { getNetwork := .ok 11155111,
          createInstance := fun _ => .error "gateway unreachable" }).1.hook.fhevmInstance
      (.int 5)
      = .error "Encryption failed: FHEVM instance not initialized. Call initFhevm() first." := by
  decide


/-! ## Lemmas on `formatNumber` -/

/-- A character whose digit value is below ten is a decimal digit. -/
theorem decimal_of_digitValue (c : Char) (d : Nat) (h : DataUpload.digitValue c = some d)
    (hd : d < 10) : 48 ≤ c.toNat ∧ c.toNat ≤ 57 := by
  unfold DataUpload.digitValue at h
  split at h
  · assumption
  · split at h
    · injection h with h; omega
    · split at h
      · injection h with h; omega
      · cases h

/-- The characters of the decimal form of a number are decimal digits. -/
theorem natToString_decimal (n : Nat) :
    ∀ c ∈ natToString 10 n, 48 ≤ c.toNat ∧ c.toNat ≤ 57 := by
  intro c hc
  obtain ⟨d, hd, hlt⟩ := (natToString_spec 10 (by decide) (by decide) n).2.1 c hc
  exact decimal_of_digitValue c d hd hlt

/-- A decimal digit is not a comma. -/
theorem decimal_ne_comma (c : Char) (h : 48 ≤ c.toNat ∧ c.toNat ≤ 57) : c ≠ ',' := by
  intro hc
  subst hc
  have : (',' : Char).toNat = 44 := by decide
  omega

/-- On a text of decimal digits the run of digits is the whole text. -/
theorem digitRun_decimal :
    ∀ cs : List Char, (∀ c ∈ cs, 48 ≤ c.toNat ∧ c.toNat ≤ 57) →
      Format.digitRun cs = cs.length := by
  intro cs
  induction cs with
  | nil => intro _; rfl
  | cons c cs ih =>
    intro h
    have hc := h c (List.mem_cons_self c cs)
    have hd : Ethers.isDigit c = true := by
      simp only [Ethers.isDigit, Bool.and_eq_true, decide_eq_true_eq]
      exact hc
    simp only [Format.digitRun, hd, if_true, List.length_cons,
      ih (fun y hy => h y (List.mem_cons_of_mem c hy))]

/-- On a text of decimal digits the regular-expression replacement puts the
commas where thousands grouping puts them. -/
theorem insertCommas_decimal :
    ∀ (cs : List Char) (prev : Option Char),
      (∀ c ∈ cs, 48 ≤ c.toNat ∧ c.toNat ≤ 57) →
      (∀ p, prev = some p → 48 ≤ p.toNat ∧ p.toNat ≤ 57) →
      Format.insertCommas prev cs = Format.groupThousands prev.isNone cs := by
  intro cs
  induction cs with
  | nil => intro _ _ _; rfl
  | cons c cs ih =>
    intro prev h hprev
    have hc := h c (List.mem_cons_self c cs)
    have hw : Format.isWordChar c = true := by
      simp only [Format.isWordChar, Bool.or_eq_true, Bool.and_eq_true, decide_eq_true_eq]
      exact Or.inl (Or.inl (Or.inl hc))
    have hrun : Format.digitRun (c :: cs) = cs.length + 1 := by
      rw [digitRun_decimal (c :: cs) h, List.length_cons]
    have hrec := ih (some c) (fun y hy => h y (List.mem_cons_of_mem c hy))
      (fun p hp => by
        injection hp with hp
        subst hp
        exact hc)
    cases prev with
    | none =>
      simp only [Format.insertCommas, Format.groupThousands, hw, hrec, Option.isNone_none,
        Option.isNone_some, Bool.not_true, Bool.false_eq_true, false_and, if_false,
        beq_iff_eq]
    | some p =>
      have hp := hprev p rfl
      have hpw : Format.isWordChar p = true := by
        simp only [Format.isWordChar, Bool.or_eq_true, Bool.and_eq_true, decide_eq_true_eq]
        exact Or.inl (Or.inl (Or.inl hp))
      simp only [Format.insertCommas, Format.groupThousands, hw, hpw, hrun, hrec,
        Option.isNone_some, Bool.not_false, beq_self_eq_true, true_and, ne_eq,
        Nat.add_one_ne_zero, not_false_eq_true]

/-- Removing the commas from a grouped text of digits gives the digits back. -/
theorem groupThousands_filter :
    ∀ (cs : List Char) (first : Bool), (∀ c ∈ cs, c ≠ ',') →
      (Format.groupThousands first cs).filter (fun c => c ≠ ',') = cs := by
  intro cs
  induction cs with
  | nil => intro _ _; rfl
  | cons c cs ih =>
    intro first h
    have hc : c ≠ ',' := h c (List.mem_cons_self c cs)
    have hrec := ih false (fun y hy => h y (List.mem_cons_of_mem c hy))
    have hunfold : Format.groupThousands first (c :: cs) =
        (if (!first) = true ∧ (cs.length + 1) % 3 = 0 then [','] else []) ++
          c :: Format.groupThousands false cs := rfl
    have hsep : List.filter (fun c => decide (c ≠ ','))
        (if (!first) = true ∧ (cs.length + 1) % 3 = 0 then [','] else []) = [] := by
      split <;> rfl
    rw [hunfold, List.filter_append, hsep, List.nil_append,
      List.filter_cons_of_pos (by simpa using hc), hrec]

/-- The last character of a grouped text is the last character of the text. -/
theorem groupThousands_getLast :
    ∀ (cs : List Char) (first : Bool),
      (Format.groupThousands first cs).getLast? = cs.getLast? := by
  intro cs
  induction cs with
  | nil => intro _; rfl
  | cons c cs ih =>
    intro first
    have hrec := ih false
    have hcons : (c :: Format.groupThousands false cs).getLast? = (c :: cs).getLast? := by
      cases hcs : cs with
      | nil => simp [Format.groupThousands]
      | cons d ds =>
        rw [hcs] at hrec
        cases hg : Format.groupThousands false (d :: ds) with
        | nil => simp [Format.groupThousands] at hg
        | cons e es =>
          rw [hg] at hrec
          simp only [List.getLast?_cons_cons]
          exact hrec
    by_cases hcond : (!first) = true ∧ (cs.length + 1) % 3 = 0
    · simp only [Format.groupThousands, hcond, and_self, if_true, List.singleton_append,
        List.getLast?_cons_cons]
      exact hcons
    · simp only [Format.groupThousands, hcond, if_false, List.nil_append]
      exact hcons

/-! ## The formatting claim -/

/-- C28 (as stated, fails).  The number `2^60 = 1152921504606846976` prints as
'1152921504606847000', so that removing the commas from
`formatNumber(2^60)` does not give its decimal form; and the number `10^21`
prints as '1e+21', which `formatNumber` returns as it is, with no comma. -/
theorem formatNumber_large_numbers :
    Js.roundToDouble 1152921504606846976 = 1152921504606846976 ∧
    Format.formatNumber (.number 1152921504606846976) = "1,152,921,504,606,847,000" ∧
    (Format.formatNumber (.number 1152921504606846976)).toList.filter (fun c => c ≠ ',') ≠
      natToString 10 1152921504606846976 ∧
    Js.roundToDouble 1000000000000000000000 = 1000000000000000000000 ∧
    Format.formatNumber (.number 1000000000000000000000) = "1e+21" ∧
    (Format.formatNumber (.number 1000000000000000000000)).toList.filter (fun c => c ≠ ',') ≠
      natToString 10 1000000000000000000000 := by
  decide

/-- C28 (amended).  `formatNumber` adds thousands separators to the integers a
number holds exactly: for every non-negative integer `n` below `2^53`, with
`ds` its decimal form (the digits that read back as `n`), removing the commas
from `formatNumber(n)` gives `ds`, the output neither starts nor ends with a
comma, and the output is `ds` with a comma before each digit, other than the
first, from which the number of digits to the right end is a multiple of
three; `formatNumber(1234567)` is '1,234,567', `formatNumber(0)` is '0', and so
are `formatNumber(null)` and `formatNumber(undefined)`. -/
theorem formatNumber_groups_thousands (n : Nat) (hn : n < 2 ^ 53) :
    DataUpload.digitsToNat 10
      ((natToString 10 n).map (fun c => (DataUpload.digitValue c).getD 0)) = n ∧
    (Format.formatNumber (.number n)).toList.filter (fun c => c ≠ ',') = natToString 10 n ∧
    (Format.formatNumber (.number n)).toList.head? ≠ some ',' ∧
    (Format.formatNumber (.number n)).toList.getLast? ≠ some ',' ∧
    (Format.formatNumber (.number n)).toList = Format.groupThousands true (natToString 10 n) ∧
    Format.formatNumber (.number 1234567) = "1,234,567" ∧
    Format.formatNumber (.number 0) = "0" ∧
    Format.formatNumber .null = "0" ∧ Format.formatNumber .undefined = "0" := by
  have hdec := natToString_decimal n
  obtain ⟨hne, _, _, hval⟩ := natToString_spec 10 (by decide) (by decide) n
  have hout : (Format.formatNumber (.number n)).toList =
      Format.groupThousands true (natToString 10 n) := by
    show Format.insertCommas none (Js.numberToString n) = _
    rw [Js.numberToString_exact n hn,
      insertCommas_decimal (natToString 10 n) none hdec (fun p hp => by cases hp)]
    rfl
  have hnocomma : ∀ c ∈ natToString 10 n, c ≠ ',' :=
    fun c hc => decimal_ne_comma c (hdec c hc)
  refine ⟨hval, ?_, ?_, ?_, hout, by decide, by decide, rfl, rfl⟩
  · rw [hout]
    exact groupThousands_filter (natToString 10 n) true hnocomma
  · rw [hout]
    cases hds : natToString 10 n with
    | nil => exact absurd hds hne
    | cons c cs =>
      have hc : c ≠ ',' := hnocomma c (by rw [hds]; exact List.mem_cons_self c cs)
      simp only [Format.groupThousands, Bool.not_true, Bool.false_eq_true, false_and, if_false,
        List.nil_append, List.head?_cons, ne_eq, Option.some.injEq]
      exact hc
  · rw [hout, groupThousands_getLast]
    intro hlast
    have hmem : ',' ∈ natToString 10 n := List.mem_of_getLast?_eq_some hlast
    exact hnocomma ',' hmem rfl

/-- C28 (amended), at a concrete input: the number 9007199254740991, the
largest below `2^53`. -/
theorem formatNumber_groups_thousands_witness :
    (Format.formatNumber (.number 9007199254740991)).toList =
      Format.groupThousands true (natToString 10 9007199254740991) ∧
    (Format.formatNumber (.number 9007199254740991)).toList.filter (fun c => c ≠ ',') =
      natToString 10 9007199254740991 :=
  ⟨(formatNumber_groups_thousands 9007199254740991 (by decide)).2.2.2.2.1,
   (formatNumber_groups_thousands 9007199254740991 (by decide)).2.1⟩

/-! ## Lemmas on the data-text parser -/

/-- A decimal digit is not white space. -/
theorem decimal_not_whiteSpace (c : Char) (h : 48 ≤ c.toNat ∧ c.toNat ≤ 57) :
    DataUpload.isWhiteSpace c = false := by
  simp only [DataUpload.isWhiteSpace, Bool.or_eq_false_iff, Bool.and_eq_false_iff,
    decide_eq_false_iff_not]
  omega

/-- Leading spaces are dropped. -/
theorem dropWhile_spaces (a : Nat) (cs : List Char) :
    (List.replicate a ' ' ++ cs).dropWhile DataUpload.isWhiteSpace =
      cs.dropWhile DataUpload.isWhiteSpace := by
  induction a with
  | zero => rfl
  | succ a ih =>
    have hsp : DataUpload.isWhiteSpace ' ' = true := by decide
    rw [List.replicate_succ, List.cons_append, List.dropWhile_cons_of_pos hsp, ih]

/-- Nothing is dropped from a text that starts with a decimal digit. -/
theorem dropWhile_decimal (c : Char) (cs : List Char) (h : 48 ≤ c.toNat ∧ c.toNat ≤ 57) :
    (c :: cs).dropWhile DataUpload.isWhiteSpace = c :: cs := by
  rw [List.dropWhile_cons_of_neg]
  rw [decimal_not_whiteSpace c h]
  decide

/-- Trimming a text of digits surrounded by spaces leaves the digits. -/
theorem trim_spaced (a b : Nat) (ds : List Char) (hne : ds ≠ [])
    (hdec : ∀ c ∈ ds, 48 ≤ c.toNat ∧ c.toNat ≤ 57) :
    DataUpload.trim (List.replicate a ' ' ++ ds ++ List.replicate b ' ') = ds := by
  have hfront : (List.replicate a ' ' ++ ds ++ List.replicate b ' ').dropWhile
      DataUpload.isWhiteSpace = ds ++ List.replicate b ' ' := by
    rw [List.append_assoc, dropWhile_spaces]
    cases ds with
    | nil => exact absurd rfl hne
    | cons c cs =>
      rw [List.cons_append]
      exact dropWhile_decimal c _ (hdec c (List.mem_cons_self c cs))
  have hrevne : ds.reverse ≠ [] := by
    intro h
    exact hne (List.reverse_eq_nil_iff.mp h)
  have hback : (ds ++ List.replicate b ' ').reverse.dropWhile DataUpload.isWhiteSpace =
      ds.reverse := by
    rw [List.reverse_append, List.reverse_replicate, dropWhile_spaces]
    cases hr : ds.reverse with
    | nil => exact absurd hr hrevne
    | cons c cs =>
      have hmem : c ∈ ds := by
        rw [← List.mem_reverse, hr]
        exact List.mem_cons_self c cs
      exact dropWhile_decimal c cs (hdec c hmem)
  rw [DataUpload.trim, hfront, hback, List.reverse_reverse]

/-- A text without a comma is a single piece. -/
theorem splitComma_single :
    ∀ t : List Char, (∀ c ∈ t, c ≠ ',') → DataUpload.splitComma t = [t] := by
  intro t
  induction t with
  | nil => intro _; rfl
  | cons c cs ih =>
    intro h
    have hc : c ≠ ',' := h c (List.mem_cons_self c cs)
    have hrec := ih (fun y hy => h y (List.mem_cons_of_mem c hy))
    simp only [DataUpload.splitComma, hc, if_false, hrec]

/-- A text without a comma, followed by a comma, is the first piece. -/
theorem splitComma_piece (rest : List Char) :
    ∀ t : List Char, (∀ c ∈ t, c ≠ ',') →
      DataUpload.splitComma (t ++ ',' :: rest) = t :: DataUpload.splitComma rest := by
  intro t
  induction t with
  | nil =>
    intro _
    simp only [List.nil_append, DataUpload.splitComma, if_true]
  | cons c cs ih =>
    intro h
    have hc : c ≠ ',' := h c (List.mem_cons_self c cs)
    have hrec := ih (fun y hy => h y (List.mem_cons_of_mem c hy))
    have hstep : DataUpload.splitComma (c :: (cs ++ ',' :: rest)) =
        (c :: cs) :: DataUpload.splitComma rest := by
      simp only [DataUpload.splitComma, hc, if_false, hrec]
    rw [List.cons_append, hstep]

/-- Splitting the join of comma-free texts gives the texts back. -/
theorem splitComma_joinComma :
    ∀ ts : List (List Char), ts ≠ [] → (∀ t ∈ ts, ∀ c ∈ t, c ≠ ',') →
      DataUpload.splitComma (joinComma ts) = ts := by
  intro ts
  induction ts with
  | nil => intro h _; exact absurd rfl h
  | cons t ts ih =>
    intro _ hall
    have ht := hall t (List.mem_cons_self t ts)
    cases ts with
    | nil => exact splitComma_single t ht
    | cons u us =>
      have hrec := ih (by simp) (fun y hy => hall y (List.mem_cons_of_mem t hy))
      have hjoin : joinComma (t :: u :: us) = t ++ ',' :: joinComma (u :: us) := rfl
      rw [hjoin, splitComma_piece _ t ht, hrec]

/-- The number value of a non-negative integer below `2^53` is the integer. -/
theorem Js.Number.ofInt_exact (n : Nat) (h : n < 2 ^ 53) :
    Js.Number.ofInt (n : Int) = .int n := by
  have h1 : Js.roundToDouble (n : Int).natAbs = n := by
    rw [Int.natAbs_ofNat]
    exact Js.roundToDouble_exact n h
  have h2 : n < Js.doubleBound := lt_trans h (by decide)
  have h3 : ¬ ((n : Int) < 0) := by omega
  unfold Js.Number.ofInt
  simp only [h1, h2, h3, if_true, if_false]

/-- Whatever `parseInt` reads is the number value of an integer. -/
theorem parseInt_is_number_of_integer (t : List Char) (v : Js.Number)
    (h : DataUpload.parseInt t = some v) : ∃ z : Int, v = Js.Number.ofInt z := by
  unfold DataUpload.parseInt at h
  simp only at h
  split at h
  · cases h
  · injection h with h
    exact ⟨_, h.symm⟩

/-- `parseInt` reads a text of decimal digits as the number value of the
integer it denotes. -/
theorem parseInt_decimal (ds : List Char) (hne : ds ≠ [])
    (hdec : ∀ c ∈ ds, 48 ≤ c.toNat ∧ c.toNat ≤ 57) :
    DataUpload.parseInt ds = some (Js.Number.ofInt ((DataUpload.digitsToNat 10
      (ds.map (fun c => (DataUpload.digitValue c).getD 0)) : Nat) : Int)) := by
  have hall : ∀ c ∈ ds, ∃ d, DataUpload.digitValue c = some d ∧ d < 10 := by
    intro c hc
    have h := hdec c hc
    refine ⟨c.toNat - 48, ?_, by omega⟩
    simp only [DataUpload.digitValue, h, and_self, if_true]
  have hlead : DataUpload.leadingDigits 10 ds =
      ds.map (fun c => (DataUpload.digitValue c).getD 0) := by
    have h := leadingDigits_append 10 [] ds hall
    simpa [DataUpload.leadingDigits] using h
  cases ds with
  | nil => exact absurd rfl hne
  | cons c cs =>
    have hc := hdec c (List.mem_cons_self c cs)
    have hdrop : (c :: cs).dropWhile DataUpload.isWhiteSpace = c :: cs :=
      dropWhile_decimal c cs hc
    have hminus : c ≠ '-' := by
      intro h; subst h
      have : ('-' : Char).toNat = 45 := by decide
      omega
    have hplus : c ≠ '+' := by
      intro h; subst h
      have : ('+' : Char).toNat = 43 := by decide
      omega
    have hsigned : (match c :: cs with
        | '-' :: t => ((-1 : Int), t)
        | '+' :: t => (1, t)
        | _ => (1, c :: cs)) = (1, c :: cs) := by
      split
      · rename_i heq; injection heq with h1 _; exact absurd h1 hminus
      · rename_i heq; injection heq with h1 _; exact absurd h1 hplus
      · rfl
    have hprefixed : (match c :: cs with
        | '0' :: 'x' :: t => ((16 : Nat), t)
        | '0' :: 'X' :: t => (16, t)
        | _ => (10, c :: cs)) = (10, c :: cs) := by
      split
      · rename_i heq
        injection heq with _ h2
        have hx : ('x' : Char) ∈ c :: cs := by rw [h2]; simp
        have := hdec 'x' hx
        have : ('x' : Char).toNat = 120 := by decide
        omega
      · rename_i heq
        injection heq with _ h2
        have hx : ('X' : Char) ∈ c :: cs := by rw [h2]; simp
        have := hdec 'X' hx
        have : ('X' : Char).toNat = 88 := by decide
        omega
      · rfl
    have hz : ¬ (List.map (fun c => (DataUpload.digitValue c).getD 0) (c :: cs) = []) := by
      simp
    simp only [DataUpload.parseInt, hdrop, hsigned, hprefixed, hlead, hz, if_false, one_mul]


/-- A token of digits surrounded by spaces has no comma. -/
theorem spacedToken_no_comma (item : Nat × Nat × Nat) : ∀ c ∈ spacedToken item, c ≠ ',' := by
  intro c hc
  simp only [spacedToken, List.mem_append, List.mem_replicate] at hc
  rcases hc with (h | h) | h
  · rw [h.2]; decide
  · exact decimal_ne_comma c (natToString_decimal item.2.1 c h)
  · rw [h.2]; decide

/-- The pipeline after the split, on tokens of digits surrounded by spaces that
hold integers below `2^53`, gives the numbers the tokens hold. -/
theorem parseTokens_spaced :
    ∀ items : List (Nat × Nat × Nat), (∀ item ∈ items, item.2.1 < 2 ^ 53) →
      ((((items.map spacedToken).map DataUpload.trim).filter (fun n => n ≠ [])).map
        DataUpload.parseInt).reduceOption =
      items.map (fun item => Js.Number.int (item.2.1 : Int)) := by
  intro items
  induction items with
  | nil => intro _; rfl
  | cons item items ih =>
    intro hbound
    obtain ⟨hne, _, _, hval⟩ := natToString_spec 10 (by decide) (by decide) item.2.1
    have hdec := natToString_decimal item.2.1
    have htrim : DataUpload.trim (spacedToken item) = natToString 10 item.2.1 :=
      trim_spaced item.1 item.2.2 (natToString 10 item.2.1) hne hdec
    have hparse : DataUpload.parseInt (natToString 10 item.2.1) =
        some (.int (item.2.1 : Int)) := by
      rw [parseInt_decimal (natToString 10 item.2.1) hne hdec, hval,
        Js.Number.ofInt_exact item.2.1 (hbound item (List.mem_cons_self item items))]
    rw [List.map_cons, List.map_cons, htrim,
      List.filter_cons_of_pos (by simpa using hne), List.map_cons, hparse,
      List.reduceOption_cons_of_some,
      ih (fun y hy => hbound y (List.mem_cons_of_mem item hy)), List.map_cons]

/-- The text of `k` nines. -/
theorem nines_decimal (k : Nat) : ∀ c ∈ List.replicate k '9', 48 ≤ c.toNat ∧ c.toNat ≤ 57 := by
  intro c hc
  rw [(List.mem_replicate.mp hc).2]
  decide

/-! ## The parser claim -/

set_option exponentiation.threshold 2048

/-- C30 (as stated, fails).  The data text made of a single token of 309 nines
parses to a list whose only element is `Infinity`: the element is not `NaN`, so
the filter keeps it, and it is not an integer. -/
theorem parseData_keeps_infinity :
    DataUpload.parseInt (List.replicate 309 '9') = some (.infinity false) ∧
    DataUpload.parseData (String.mk (List.replicate 309 '9')) = [.infinity false] ∧
    (∀ z : Int, Js.Number.infinity false ≠ .int z) := by
  refine ⟨by decide, by decide, fun z h => by cases h⟩

/-- C30 (amended).  The data-text parser of `DataUpload.handleSubmit` inverts
comma joining: for every list of non-negative integers below `2^53`, each
written in decimal with any number of spaces before and after, the text of
these tokens joined by `,` parses to exactly the integers, in order.  And for
every input text, every element of the parsed list is what `parseInt` reads
from a trimmed token, a number other than `NaN`: the number value of an
integer, which is the nearest double or, beyond the doubles, an infinity; and
the parsed list is no longer than the number of comma-separated tokens. -/
theorem parseData_inverts_join (items : List (Nat × Nat × Nat))
    (hbound : ∀ item ∈ items, item.2.1 < 2 ^ 53) (data : String) :
    DataUpload.parseData (String.mk (joinComma (items.map spacedToken))) =
      items.map (fun item => Js.Number.int (item.2.1 : Int)) ∧
    (∀ v ∈ DataUpload.parseData data,
      (∃ token ∈ DataUpload.splitComma data.toList,
        DataUpload.parseInt (DataUpload.trim token) = some v) ∧
      ∃ z : Int, v = Js.Number.ofInt z) ∧
    (DataUpload.parseData data).length ≤ (DataUpload.splitComma data.toList).length := by
  refine ⟨?_, ?_, ?_⟩
  · cases hitems : items with
    | nil => rfl
    | cons item rest =>
      rw [← hitems]
      have hsplit : DataUpload.splitComma (joinComma (items.map spacedToken)) =
          items.map spacedToken := by
        apply splitComma_joinComma
        · rw [hitems]; simp
        · intro t ht
          obtain ⟨item, _, hitem⟩ := List.mem_map.mp ht
          rw [← hitem]
          exact spacedToken_no_comma item
      show ((((DataUpload.splitComma (joinComma (items.map spacedToken))).map
        DataUpload.trim).filter (fun n => n ≠ [])).map DataUpload.parseInt).reduceOption = _
      rw [hsplit]
      exact parseTokens_spaced items hbound
  · intro v hv
    unfold DataUpload.parseData at hv
    rw [List.reduceOption_mem_iff] at hv
    obtain ⟨t, ht, hparse⟩ := List.mem_map.mp hv
    have ht2 := (List.mem_filter.mp ht).1
    obtain ⟨token, htoken, htrim⟩ := List.mem_map.mp ht2
    exact ⟨⟨token, htoken, by rw [htrim]; exact hparse⟩,
      parseInt_is_number_of_integer t v hparse⟩
  · unfold DataUpload.parseData
    calc (((((DataUpload.splitComma data.toList).map DataUpload.trim).filter
            (fun n => n ≠ [])).map DataUpload.parseInt).reduceOption).length
        ≤ ((((DataUpload.splitComma data.toList).map DataUpload.trim).filter
            (fun n => n ≠ [])).map DataUpload.parseInt).length :=
          List.reduceOption_length_le _
      _ = (((DataUpload.splitComma data.toList).map DataUpload.trim).filter
            (fun n => n ≠ [])).length := List.length_map _ _
      _ ≤ ((DataUpload.splitComma data.toList).map DataUpload.trim).length :=
          List.length_filter_le _ _
      _ = (DataUpload.splitComma data.toList).length := List.length_map _ _

/-- C30 (amended), at a concrete input: the tokens `100`, ` 200  ` and
`9007199254740991`. -/
theorem parseData_inverts_join_witness :
    DataUpload.parseData
        (String.mk (joinComma
          ([(0, 100, 0), (1, 200, 2), (0, 9007199254740991, 0)].map spacedToken))) =
      [(0, 100, 0), (1, 200, 2), (0, 9007199254740991, 0)].map
        (fun item : Nat × Nat × Nat => Js.Number.int (item.2.1 : Int)) :=
  (parseData_inverts_join [(0, 100, 0), (1, 200, 2), (0, 9007199254740991, 0)]
    (fun item hitem => by
      simp only [List.mem_cons, List.mem_singleton, List.not_mem_nil, or_false] at hitem
      rcases hitem with h | h | h <;> subst h <;> decide)
    "").1

end Marketplace
